import Mathlib

/-! # The push command of the `cf` command line client

A shallow embedding of `src/cf/commands/application/push.go`.

* Go values of pointer type (`*string`, `*int`, ...) are `Option`s: `nil` is `none`.
* Go maps from string to string are association lists read with `mapGet`
  and written with `mapSet`.
* The collaborators of the command (repositories, starter, stopper, uploader,
  word generator) are interfaces in the source. They are a record of transition
  functions over an arbitrary world `W`; every call the command makes on one of
  them is appended to a call log.
* `ui.Failed` does not return to its caller (the test helpers of the repository
  assert the panic `FailedWasCalled`); a command that calls it is `aborted`.
-/

namespace Push

/-! ## Data model -/

/-- A Go `map[string]string`. -/
abbrev GoMap := List (String × String)

/-- The Go expression `m[k]` with its `ok` flag: the value stored under `k`, if any. -/
def mapGet (m : GoMap) (k : String) : Option String :=
  match m with
  | [] => none
  | (k1, v1) :: rest => if k1 = k then some v1 else mapGet rest k

/-- The Go statement `m[k] = v`. -/
def mapSet (m : GoMap) (k v : String) : GoMap :=
  match m with
  | [] => [(k, v)]
  | (k1, v1) :: rest => if k1 = k then (k, v) :: rest else (k1, v1) :: mapSet rest k v

/-- The type `models.DomainFields`. -/
structure DomainFields where
  guid : String
  name : String
  shared : Bool
  deriving DecidableEq, Repr

/-- The type `models.RouteSummary`, an entry of `Application.Routes`. -/
structure RouteSummary where
  guid : String
  host : String
  domain : DomainFields
  deriving DecidableEq, Repr

/-- The type `models.Route`. -/
structure Route where
  guid : String
  host : String
  domain : DomainFields
  spaceGuid : String
  deriving DecidableEq, Repr

/-- The type `models.Stack`. -/
structure Stack where
  guid : String
  name : String
  deriving DecidableEq, Repr

/-- The type `models.ServiceInstance`. -/
structure ServiceInstance where
  guid : String
  name : String
  deriving DecidableEq, Repr

/-- The type `models.Application`. -/
structure Application where
  guid : String
  name : String
  state : String
  instanceCount : Int
  memory : Nat
  environmentVars : GoMap
  routes : List RouteSummary
  deriving DecidableEq, Repr

/-- The type `models.AppParams`: every field but the two flags is a pointer in the
source, absent when `nil`. -/
structure AppParams where
  buildpackUrl : Option String
  command : Option String
  diskQuota : Option Nat
  domain : Option String
  environmentVars : Option GoMap
  healthCheckTimeout : Option Int
  host : Option String
  instanceCount : Option Int
  memory : Option Nat
  name : Option String
  noRoute : Bool
  useRandomHostname : Bool
  path : Option String
  servicesToBind : Option (List String)
  spaceGuid : Option String
  stackGuid : Option String
  stackName : Option String
  deriving DecidableEq, Repr

/-- The Go zero value `models.AppParams{}`. -/
def AppParams.zero : AppParams :=
  { buildpackUrl := none, command := none, diskQuota := none, domain := none,
    environmentVars := none, healthCheckTimeout := none, host := none,
    instanceCount := none, memory := none, name := none, noRoute := false,
    useRandomHostname := false, path := none, servicesToBind := none,
    spaceGuid := none, stackGuid := none, stackName := none }

/-- The Go zero value `models.Application{}`. -/
def Application.zero : Application :=
  { guid := "", name := "", state := "", instanceCount := 0, memory := 0,
    environmentVars := [], routes := [] }

/-- The Go zero value `models.DomainFields{}`. -/
def DomainFields.zero : DomainFields := { guid := "", name := "", shared := false }

/-- Modelled from the spec: `AppParams.IsEmpty` of package `cf/models`, which is not
among the sources. The specification forbids, with several manifest entries, every
override of the command line "other than selecting by name, and path". The caller
clears the name before it asks, so the record is empty when, the path apart, no field
is present and no flag is set. -/
def AppParams.IsEmpty (app : AppParams) : Bool :=
  decide ({ app with path := none } = AppParams.zero)

/-- One field of a merge: the overriding value when present, the old one otherwise. -/
def override {α : Type} (other mine : Option α) : Option α :=
  match other with
  | some v => some v
  | none => mine

/-- Modelled from the spec: `AppParams.Merge` of package `cf/models`, which is not
among the sources. Fields specified by `other` override; fields absent from `other`
keep the receiver's values; a flag is set when either side sets it. -/
def AppParams.Merge (app other : AppParams) : AppParams :=
  { buildpackUrl := override other.buildpackUrl app.buildpackUrl
    command := override other.command app.command
    diskQuota := override other.diskQuota app.diskQuota
    domain := override other.domain app.domain
    environmentVars := override other.environmentVars app.environmentVars
    healthCheckTimeout := override other.healthCheckTimeout app.healthCheckTimeout
    host := override other.host app.host
    instanceCount := override other.instanceCount app.instanceCount
    memory := override other.memory app.memory
    name := override other.name app.name
    noRoute := app.noRoute || other.noRoute
    useRandomHostname := app.useRandomHostname || other.useRandomHostname
    path := override other.path app.path
    servicesToBind := override other.servicesToBind app.servicesToBind
    spaceGuid := override other.spaceGuid app.spaceGuid
    stackGuid := override other.stackGuid app.stackGuid
    stackName := override other.stackName app.stackName }

/-- Modelled from the spec: `Application.HasRoute` of package `cf/models`, which is
not among the sources. The application is bound to the route when one of its routes
has the route's identifier. -/
def Application.HasRoute (app : Application) (route : Route) : Bool :=
  app.routes.any (fun r => decide (r.guid = route.guid))

/-- Modelled from the spec: `DomainFields.UrlForHost` of package `cf/models`: the
domain name alone for the empty host, `host.domain` otherwise. -/
def DomainFields.UrlForHost (d : DomainFields) (host : String) : String :=
  if host = "" then d.name else host ++ "." ++ d.name

/-- The method `URL` of a route summary. -/
def RouteSummary.URL (r : RouteSummary) : String := r.domain.UrlForHost r.host

/-- The method `URL` of a route. -/
def Route.URL (r : Route) : String := r.domain.UrlForHost r.host

/-- The errors a collaborator returns, by the dynamic type the source switches on:
`*errors.ModelNotFoundError`, `errors.HttpError` (with its error code) and any
other error. -/
inductive ApiError where
  | modelNotFound (msg : String)
  | http (code : String) (msg : String)
  | other (msg : String)
  deriving DecidableEq, Repr

/-- The method `Error` of an error value. -/
def ApiError.Error : ApiError → String
  | .modelNotFound msg => msg
  | .http _ msg => msg
  | .other msg => msg

/-- Modelled from the spec: the constant `errors.INVALID_RELATION` of package
`cf/errors`, which is not among the sources: the code of a bind failure that tells
that the route belongs to a different owner. -/
def INVALID_RELATION : String := "1002"

/-- Modelled from the spec: the constant `errors.APP_ALREADY_BOUND` of package
`cf/errors`, which is not among the sources: the code of a service bind failure that
tells that the service is bound already. -/
def APP_ALREADY_BOUND : String := "90003"

/-- The read-only configuration (`configuration.Reader`) and the process
environment (`os.Getwd`) of one invocation. -/
structure Config where
  orgGuid : String
  orgName : String
  spaceGuid : String
  spaceName : String
  username : String
  cwd : String
  cwdErr : Option String
  deriving DecidableEq, Repr

/-- The parsed command line (`cli.Context`): positional arguments, string flags
(empty when not given), the integer flag `-i` and the boolean flags. -/
structure Context where
  args : List String
  b : String
  c : String
  d : String
  f : String
  iSet : Bool
  i : Int
  k : String
  m : String
  n : String
  p : String
  s : String
  t : String
  noHostname : Bool
  noManifest : Bool
  noRoute : Bool
  noStart : Bool
  randomRoute : Bool
  deriving DecidableEq, Repr

/-- The command line with no argument and no flag. -/
def Context.empty : Context :=
  { args := [], b := "", c := "", d := "", f := "", iSet := false, i := 0, k := "",
    m := "", n := "", p := "", s := "", t := "", noHostname := false,
    noManifest := false, noRoute := false, noStart := false, randomRoute := false }

/-- One progress callback of the uploader: path, size of the archive, file count. -/
structure UploadProgress where
  path : String
  zipFileBytes : Nat
  fileCount : Nat
  deriving DecidableEq, Repr

/-- The result of `ManifestRepository.ReadManifest` as the command uses it: the path
of the manifest, the error of reading it, and the result of `Applications()`. -/
structure ManifestResult where
  path : String
  readErr : Option String
  applications : Except String (List AppParams)

/-! ## Collaborator calls and the command monad -/

deriving instance DecidableEq for Except

/-- One call on a collaborator, with its arguments. -/
inductive Call where
  | readManifest (path : String)
  | refreshAuthToken
  | stackFindByName (name : String)
  | appRead (name : String)
  | appCreate (params : AppParams)
  | appUpdate (guid : String) (params : AppParams)
  | domainFindByNameInOrg (name orgGuid : String)
  | listDomainsForOrg (orgGuid : String)
  | routeFindByHostAndDomain (host domainName : String)
  | routeCreate (host domainGuid : String)
  | routeBind (routeGuid appGuid : String)
  | routeUnbind (routeGuid appGuid : String)
  | uploadApp (appGuid path : String)
  | findInstanceByName (name : String)
  | bindApplication (app : Application) (inst : ServiceInstance)
  | applicationStop (app : Application)
  | setStartTimeoutInSeconds (n : Int)
  | applicationStart (app : Application)
  | babble
  | routeCreateInSpace (host domainGuid spaceGuid : String)
  deriving DecidableEq, Repr

/-- What the command writes through `terminal.UI`. -/
inductive UiEvent where
  | say (msg : String)
  | warn (msg : String)
  | ok
  | failed (msg : String)
  deriving DecidableEq, Repr

/-- The collaborators of the command over a world `W`: each takes the arguments of
the call and the world before it, and gives the result and the world after it. -/
structure Collaborators (W : Type) where
  readManifest : String → W → ManifestResult × W
  refreshAuthToken : W → W
  stackFindByName : String → W → Except ApiError Stack × W
  appRead : String → W → Except ApiError Application × W
  appCreate : AppParams → W → Except ApiError Application × W
  appUpdate : String → AppParams → W → Except ApiError Application × W
  findByNameInOrg : String → String → W → Except ApiError DomainFields × W
  listDomainsForOrg : String → W → (List DomainFields × Option ApiError) × W
  routeFindByHostAndDomain : String → String → W → Except ApiError Route × W
  routeCreate : String → String → W → Except ApiError Route × W
  routeBind : String → String → W → Option ApiError × W
  routeUnbind : String → String → W → Option ApiError × W
  uploadApp : String → String → W → (List UploadProgress × Option ApiError) × W
  findInstanceByName : String → W → Except ApiError ServiceInstance × W
  bindApplication : Application → ServiceInstance → W → Option ApiError × W
  applicationStop : Application → W → (Application × Option ApiError) × W
  setStartTimeoutInSeconds : Int → W → W
  applicationStart : Application → W → (Application × Option ApiError) × W
  babble : W → String × W
  toMegabytes : String → Except String Nat
  byteSize : Nat → String

/-- The state a command threads: the world, the calls made so far (oldest first)
and the terminal output so far (oldest first). -/
structure Trace (W : Type) where
  world : W
  calls : List Call
  ui : List UiEvent
  deriving DecidableEq

/-- How a command ends: it returns a value, `ui.Failed` ended it with a message, or
the Go run time ended it with a panic (a `nil` pointer was dereferenced). -/
inductive Outcome (W α : Type) where
  | done (a : α) (t : Trace W)
  | aborted (msg : String) (t : Trace W)
  | panicked (t : Trace W)
  deriving DecidableEq

/-- The trace at the end of a command. -/
def Outcome.trace {W α : Type} : Outcome W α → Trace W
  | .done _ t => t
  | .aborted _ t => t
  | .panicked t => t

/-- The calls made by the end of a command. -/
def Outcome.calls {W α : Type} (o : Outcome W α) : List Call := o.trace.calls

/-- The message of the failure that ended the command, if one did. -/
def Outcome.failure {W α : Type} : Outcome W α → Option String
  | .done _ _ => none
  | .aborted msg _ => some msg
  | .panicked _ => none

/-- The value the command returned, if it returned. -/
def Outcome.value {W α : Type} : Outcome W α → Option α
  | .done a _ => some a
  | .aborted _ _ => none
  | .panicked _ => none

/-- A command: a function from the trace before it to its outcome. -/
def Cmd (W α : Type) : Type := Trace W → Outcome W α

/-- Return a value without any effect. -/
def Cmd.pure {W α : Type} (a : α) : Cmd W α := fun t => .done a t

/-- Run `m`, then `f` on its value; an aborted `m` ends the whole command. -/
def Cmd.bind {W α β : Type} (m : Cmd W α) (f : α → Cmd W β) : Cmd W β :=
  fun t =>
    match m t with
    | .done a t1 => f a t1
    | .aborted msg t1 => .aborted msg t1
    | .panicked t1 => .panicked t1

instance {W : Type} : Monad (Cmd W) where
  pure := Cmd.pure
  bind := Cmd.bind

/-- Make one call on a collaborator: log it and apply its transition. -/
def call {W α : Type} (c : Call) (step : W → α × W) : Cmd W α :=
  fun t =>
    let r := step t.world
    .done r.1 { world := r.2, calls := t.calls ++ [c], ui := t.ui }

/-- Make one call on a collaborator that gives no result. -/
def callUnit {W : Type} (c : Call) (step : W → W) : Cmd W Unit :=
  fun t => .done () { world := step t.world, calls := t.calls ++ [c], ui := t.ui }

/-- Write one event to the terminal. -/
def emit {W : Type} (e : UiEvent) : Cmd W Unit :=
  fun t => .done () { world := t.world, calls := t.calls, ui := t.ui ++ [e] }

/-- The method `ui.Say`. -/
def Say {W : Type} (msg : String) : Cmd W Unit := emit (.say msg)

/-- The method `ui.Warn`. -/
def Warn {W : Type} (msg : String) : Cmd W Unit := emit (.warn msg)

/-- The method `ui.Ok`. -/
def Ok {W : Type} : Cmd W Unit := emit .ok

/-- The method `ui.Failed`: the message is written and the command ends there. -/
def Failed {W α : Type} (msg : String) : Cmd W α :=
  fun t => .aborted msg { world := t.world, calls := t.calls, ui := t.ui ++ [.failed msg] }

/-- The Go expression `*p`: the value behind the pointer, a run-time panic on `nil`. -/
def deref {W α : Type} (p : Option α) : Cmd W α :=
  fun t =>
    match p with
    | some v => .done v t
    | none => .panicked t

/-- Run a command from a world with an empty call log and an empty terminal. -/
def Cmd.runFrom {W α : Type} (m : Cmd W α) (w : W) : Outcome W α :=
  m { world := w, calls := [], ui := [] }

/-! ## Host names -/

/-- The function `unicode.ToLower` on one rune, as far as the result can be an ASCII
character: the ASCII capitals, and the two other runes whose lower case is ASCII
(U+0130 and U+212A). Every other rune outside ASCII is left as it is: its lower case
is outside ASCII too, and `hostNameForString` deletes it either way. -/
def toLowerRune (c : Char) : Char :=
  if c.toNat = 0x130 then 'i'
  else if c.toNat = 0x212A then 'k'
  else c.toLower

/-- The character class `[\s_]` of the regular expression `whitespaceRegex`: tab, line
feed, form feed, carriage return, space and the underscore. -/
def isWhitespaceOrUnderscore (c : Char) : Bool :=
  c = '\t' || c = '\n' || c.toNat = 0x0C || c = '\r' || c = ' ' || c = '_'

/-- The complement of the character class of `forbiddenHostCharRegex`: `[a-z0-9-]`. -/
def isAllowedHostChar (c : Char) : Bool :=
  ('a' ≤ c && c ≤ 'z') || ('0' ≤ c && c ≤ '9') || c = '-'

/-- The call `whitespaceRegex.ReplaceAllString(name, "-")` on the characters of the
name: every maximal run of `[\s_]` becomes one hyphen. `inRun` tells that the
character before was part of a run. -/
def replaceWhitespaceRuns (inRun : Bool) : List Char → List Char
  | [] => []
  | c :: rest =>
    if isWhitespaceOrUnderscore c then
      if inRun then replaceWhitespaceRuns true rest
      else '-' :: replaceWhitespaceRuns true rest
    else c :: replaceWhitespaceRuns false rest

/-- The function `hostNameForString` on the characters of the name. -/
def hostNameChars (name : List Char) : List Char :=
  let name := name.map toLowerRune
  let name := replaceWhitespaceRuns false name
  let name := name.filter isAllowedHostChar
  name

/-- The function `hostNameForString`. -/
def hostNameForString (name : String) : String :=
  String.mk (hostNameChars name.data)

/-! ## Building the set of applications to push -/

/-- The function `addApp`: the application is appended whether or not it has a name;
the error tells that it has none. An absent path becomes the working directory. -/
def addApp (cfg : Config) (apps : List AppParams) (app : AppParams) :
    List AppParams × Option String :=
  let err := if app.name = none then some "App name is a required field" else none
  let app := if app.path = none then { app with path := some cfg.cwd } else app
  (apps ++ [app], err)

/-- The function `findAppWithNameInManifest`. -/
def findAppWithNameInManifest (name : String) :
    List AppParams → Except String AppParams
  | [] => .error ("Could not find app named '" ++ name ++ "' in manifest")
  | appParams :: rest =>
    if appParams.name = some name then .ok appParams
    else findAppWithNameInManifest name rest

/-- The loop `for _, manifestApp := range manifestApps` of
`createAppSetFromContextAndManifest`: every entry is added and the error `addApp`
returns is dropped. -/
def addAllApps (cfg : Config) (apps : List AppParams) : List AppParams → List AppParams
  | [] => apps
  | manifestApp :: rest => addAllApps cfg (addApp cfg apps manifestApp).1 rest

/-- The message of the failure for flags given with a manifest of several apps. -/
def conflictingFlagsMessage : String :=
  "Incorrect Usage. Command line flags (except -f) cannot be applied when pushing multiple apps from a manifest file."

/-- The method `createAppSetFromContextAndManifest`. -/
def createAppSetFromContextAndManifest {W : Type} (cfg : Config) (contextApp : AppParams)
    (manifestApps : List AppParams) : Cmd W (List AppParams) :=
  match manifestApps with
  | [] => do
    let (apps, err) := addApp cfg [] contextApp
    match err with
    | some e => Failed ("Error: " ++ e)
    | none => pure apps
  | [manifestApp] => do
    let merged := manifestApp.Merge contextApp
    let (apps, err) := addApp cfg [] merged
    match err with
    | some e => Failed ("Error: " ++ e)
    | none => pure apps
  | _ => do
    let selectedAppName := contextApp.name
    let contextApp := { contextApp with name := none }
    if !contextApp.IsEmpty then
      Failed conflictingFlagsMessage
    match selectedAppName with
    | some name =>
      match findAppWithNameInManifest name manifestApps with
      | .ok manifestApp => pure (addApp cfg [] manifestApp).1
      | .error e => Failed ("Error: " ++ e)
    | none => pure (addAllApps cfg [] manifestApps)

/-! ## The steps of a push -/

/-- Modelled from the spec: the enumeration `ListDomainsForOrg` of the interface
`api.DomainRepository`, whose implementation is not among the sources. The visitor
is called on each domain of the listing in order and the enumeration stops as soon
as the visitor returns false. The visitor is a closure in the source; the variables
it writes are the state `σ`. -/
def visitDomains {σ : Type} (visit : σ → DomainFields → σ × Bool) : σ → List DomainFields → σ
  | s, [] => s
  | s, domain :: rest =>
    let r := visit s domain
    if r.2 then visitDomains visit r.1 rest else r.1

/-- The visitor of `findDefaultDomain`: `foundDomain = &domain; return !domain.Shared`. -/
def defaultDomainVisitor (_foundDomain : Option DomainFields) (domain : DomainFields) :
    Option DomainFields × Bool :=
  (some domain, !domain.shared)

/-- The part of `findDefaultDomain` after the listing is known: the enumeration with
the visitor and the test of `foundDomain`. -/
def selectDefaultDomain (domains : List DomainFields) : Except String DomainFields :=
  match visitDomains defaultDomainVisitor none domains with
  | none => .error "Could not find a default domain"
  | some foundDomain => .ok foundDomain

/-- The method `findDefaultDomain`. The listing call gives the domains it enumerates
and its error; the source does not look at the error. -/
def findDefaultDomain {W : Type} (co : Collaborators W) (cfg : Config) :
    Cmd W (Except String DomainFields) := do
  let listing ← call (.listDomainsForOrg cfg.orgGuid) (co.listDomainsForOrg cfg.orgGuid)
  pure (selectDefaultDomain listing.1)

/-- The method `findDomain`. -/
def findDomain {W : Type} (co : Collaborators W) (cfg : Config) (appParams : AppParams) :
    Cmd W DomainFields :=
  match appParams.domain with
  | some name => do
    let r ← call (.domainFindByNameInOrg name cfg.orgGuid) (co.findByNameInOrg name cfg.orgGuid)
    match r with
    | .error err => Failed err.Error
    | .ok domain => pure domain
  | none => do
    let r ← findDefaultDomain co cfg
    match r with
    | .error err => Failed err
    | .ok domain =>
      if domain.guid = "" then Failed "No default domain exists"
      else pure domain

/-- The method `hostnameForApp`. -/
def hostnameForApp {W : Type} (co : Collaborators W) (appParams : AppParams) (c : Context) :
    Cmd W String :=
  if c.noHostname then pure ""
  else
    match appParams.host with
    | some host => pure host
    | none =>
      if appParams.useRandomHostname then do
        let name ← deref appParams.name
        let words ← call .babble co.babble
        pure (hostNameForString name ++ "-" ++ words)
      else do
        let name ← deref appParams.name
        pure (hostNameForString name)

/-- The loop of `bindAppToRoute` under no-route: one unbind call for each route of the
application; what the call returns is not looked at. -/
def unbindRoutes {W : Type} (co : Collaborators W) (app : Application) :
    List RouteSummary → Cmd W Unit
  | [] => pure ()
  | route :: rest => do
    Say ("Removing route " ++ route.URL ++ "...")
    let _ ← call (.routeUnbind route.guid app.guid) (co.routeUnbind route.guid app.guid)
    unbindRoutes co app rest

/-- The message of the failure for a route that belongs to a different owner. -/
def routeTakenMessage (url : String) : String :=
  "The route " ++ url ++ " is already in use.\nTIP: Change the hostname with -n HOSTNAME or use --random-route to generate a new route and then push again."

/-- The method `bindAppToRoute`. -/
def bindAppToRoute {W : Type} (co : Collaborators W) (cfg : Config) (app : Application)
    (params : AppParams) (c : Context) : Cmd W Unit :=
  if params.noRoute then
    if app.routes.length = 0 then
      Say ("App " ++ app.name ++ " is a worker, skipping route creation")
    else
      unbindRoutes co app app.routes
  else
    let routeFlagsPresent := c.n ≠ "" || c.d ≠ "" || c.noHostname
    if app.routes.length > 0 && !routeFlagsPresent then pure ()
    else do
      let domain ← findDomain co cfg params
      let hostname ← hostnameForApp co params c
      let found ← call (.routeFindByHostAndDomain hostname domain.name)
        (co.routeFindByHostAndDomain hostname domain.name)
      let route ← (match found with
        | .ok route => do
          Say ("Using route " ++ route.URL)
          pure route
        | .error (.modelNotFound _) => do
          Say ("Creating route " ++ domain.UrlForHost hostname ++ "...")
          let created ← call (.routeCreate hostname domain.guid)
            (co.routeCreate hostname domain.guid)
          match created with
          | .error apiErr => Failed apiErr.Error
          | .ok route => do
            Ok
            Say ""
            pure route
        | .error apiErr => Failed apiErr.Error : Cmd W Route)
      if !app.HasRoute route then do
        Say ("Binding " ++ domain.UrlForHost hostname ++ " to " ++ app.name ++ "...")
        let apiErr ← call (.routeBind route.guid app.guid) (co.routeBind route.guid app.guid)
        match apiErr with
        | none => do
          Ok
          Say ""
        | some (.http code msg) =>
          if code = INVALID_RELATION then Failed (routeTakenMessage route.URL)
          else Failed msg
        | some apiErr => Failed apiErr.Error
      else pure ()

/-- The find-or-create step of `bindAppToRoute` (the lookup by host and domain name
and the `switch` on its error), for the resolved domain and host name. -/
def findOrCreateRoute {W : Type} (co : Collaborators W) (domain : DomainFields)
    (hostname : String) : Cmd W Route := do
  let found ← call (.routeFindByHostAndDomain hostname domain.name)
    (co.routeFindByHostAndDomain hostname domain.name)
  match found with
  | .ok route => do
    Say ("Using route " ++ route.URL)
    pure route
  | .error (.modelNotFound _) => do
    Say ("Creating route " ++ domain.UrlForHost hostname ++ "...")
    let created ← call (.routeCreate hostname domain.guid)
      (co.routeCreate hostname domain.guid)
    match created with
    | .error apiErr => Failed apiErr.Error
    | .ok route => do
      Ok
      Say ""
      pure route
  | .error apiErr => Failed apiErr.Error

/-- The bind step of `bindAppToRoute` (the test `!app.HasRoute(route)` and what it
guards), for the resolved domain, host name and route. -/
def bindRouteUnlessBound {W : Type} (co : Collaborators W) (app : Application)
    (domain : DomainFields) (hostname : String) (route : Route) : Cmd W Unit :=
  if !app.HasRoute route then do
    Say ("Binding " ++ domain.UrlForHost hostname ++ " to " ++ app.name ++ "...")
    let apiErr ← call (.routeBind route.guid app.guid) (co.routeBind route.guid app.guid)
    match apiErr with
    | none => do
      Ok
      Say ""
    | some (.http code msg) =>
      if code = INVALID_RELATION then Failed (routeTakenMessage route.URL)
      else Failed msg
    | some apiErr => Failed apiErr.Error
  else pure ()

/-- The loop of `updateApp` over the environment of the existing application: a key
the incoming mapping does not have is copied into it with the existing value. -/
def mergeEnvironmentVars (existing : GoMap) (incoming : GoMap) : GoMap :=
  match existing with
  | [] => incoming
  | (key, val) :: rest =>
    match mapGet incoming key with
    | some _ => mergeEnvironmentVars rest incoming
    | none => mergeEnvironmentVars rest (mapSet incoming key val)

/-- The parameters `updateApp` hands to the update call. -/
def updateParams (app : Application) (appParams : AppParams) : AppParams :=
  match appParams.environmentVars with
  | some vars =>
    { appParams with environmentVars := some (mergeEnvironmentVars app.environmentVars vars) }
  | none => appParams

/-- The text of the lines that start `Creating app`, `Updating app` and
`Binding service`: `in org ORG / space SPACE as USER...`. -/
def inOrgSpaceAs (cfg : Config) : String :=
  " in org " ++ cfg.orgName ++ " / space " ++ cfg.spaceName ++ " as " ++ cfg.username ++ "..."

/-- The method `updateApp`. -/
def updateApp {W : Type} (co : Collaborators W) (cfg : Config) (app : Application)
    (appParams : AppParams) : Cmd W Application := do
  Say ("Updating app " ++ app.name ++ inOrgSpaceAs cfg)
  let appParams := updateParams app appParams
  let r ← call (.appUpdate app.guid appParams) (co.appUpdate app.guid appParams)
  match r with
  | .error apiErr => Failed apiErr.Error
  | .ok updatedApp => do
    Ok
    Say ""
    pure updatedApp

/-- The method `createApp`. -/
def createApp {W : Type} (co : Collaborators W) (cfg : Config) (appParams : AppParams) :
    Cmd W Application := do
  let appParams := { appParams with spaceGuid := some cfg.spaceGuid }
  let name ← deref appParams.name
  Say ("Creating app " ++ name ++ inOrgSpaceAs cfg)
  let r ← call (.appCreate appParams) (co.appCreate appParams)
  match r with
  | .error apiErr => Failed apiErr.Error
  | .ok app => do
    Ok
    Say ""
    pure app

/-- The method `createOrUpdateApp`. -/
def createOrUpdateApp {W : Type} (co : Collaborators W) (cfg : Config)
    (appParams : AppParams) : Cmd W Application := do
  if appParams.name = none then
    Failed "Error: No name found for app"
  let name ← deref appParams.name
  let r ← call (.appRead name) (co.appRead name)
  match r with
  | .ok app => updateApp co cfg app appParams
  | .error (.modelNotFound _) => createApp co cfg appParams
  | .error apiErr => Failed apiErr.Error

/-- The method `fetchStackGuid`: the parameters with the identifier of the stack. -/
def fetchStackGuid {W : Type} (co : Collaborators W) (appParams : AppParams) :
    Cmd W AppParams :=
  match appParams.stackName with
  | none => pure appParams
  | some stackName => do
    Say ("Using stack " ++ stackName ++ "...")
    let r ← call (.stackFindByName stackName) (co.stackFindByName stackName)
    match r with
    | .error apiErr => Failed apiErr.Error
    | .ok stack => do
      Ok
      pure { appParams with stackGuid := some stack.guid }

/-- The method `restart`. -/
def restart {W : Type} (co : Collaborators W) (app : Application) (params : AppParams)
    (c : Context) : Cmd W Unit := do
  let app ← (if app.state ≠ "stopped" then do
      Say ""
      let r ← call (.applicationStop app) (co.applicationStop app)
      pure r.1
    else pure app : Cmd W Application)
  Say ""
  if c.noStart then pure ()
  else do
    match params.healthCheckTimeout with
    | some timeout =>
      callUnit (.setStartTimeoutInSeconds timeout) (co.setStartTimeoutInSeconds timeout)
    | none => pure ()
    let _ ← call (.applicationStart app) (co.applicationStart app)
    pure ()

/-- The loop of `bindAppToServices`. -/
def bindAppToServices {W : Type} (co : Collaborators W) (cfg : Config) (app : Application) :
    List String → Cmd W Unit
  | [] => pure ()
  | serviceName :: rest => do
    let found ← call (.findInstanceByName serviceName) (co.findInstanceByName serviceName)
    match found with
    | .error _ =>
      Failed ("Could not find service " ++ serviceName ++ " to bind to " ++ app.name)
    | .ok serviceInstance => do
      Say ("Binding service " ++ serviceInstance.name ++ " to app " ++ app.name ++
        inOrgSpaceAs cfg)
      let err ← call (.bindApplication app serviceInstance)
        (co.bindApplication app serviceInstance)
      let err := (match err with
        | some (.http code msg) =>
          if code = APP_ALREADY_BOUND then none else some (ApiError.http code msg)
        | other => other)
      match err with
      | some e =>
        Failed ("Could not bind to service " ++ serviceName ++ "\nError: " ++ e.Error)
      | none => do
        Ok
        bindAppToServices co cfg app rest

/-- The method `describeUploadOperation`, the progress callback of the uploader. -/
def describeUploadOperation {W : Type} (co : Collaborators W) (p : UploadProgress) :
    Cmd W Unit :=
  if p.fileCount > 0 then do
    Say ("Uploading app files from: " ++ p.path)
    Say ("Uploading " ++ co.byteSize p.zipFileBytes ++ ", " ++ toString p.fileCount ++ " files")
  else
    Warn "None of your application files have changed. Nothing will be uploaded."

/-- The progress callbacks of one upload, in the order the uploader makes them. -/
def describeUploads {W : Type} (co : Collaborators W) : List UploadProgress → Cmd W Unit
  | [] => pure ()
  | p :: rest => do
    describeUploadOperation co p
    describeUploads co rest

/-- The body of the loop of `Run`: the push of one application. -/
def pushApp {W : Type} (co : Collaborators W) (cfg : Config) (c : Context)
    (appParams : AppParams) : Cmd W Unit := do
  let appParams ← fetchStackGuid co appParams
  let app ← createOrUpdateApp co cfg appParams
  bindAppToRoute co cfg app appParams c
  Say ("Uploading " ++ app.name ++ "...")
  let path ← deref appParams.path
  let r ← call (.uploadApp app.guid path) (co.uploadApp app.guid path)
  describeUploads co r.1
  match r.2 with
  | some apiErr => Failed ("Error uploading application.\n" ++ apiErr.Error)
  | none => do
    Ok
    match appParams.servicesToBind with
    | some services => bindAppToServices co cfg app services
    | none => pure ()
    restart co app appParams c

/-- The loop of `Run` over the set of applications. -/
def pushApps {W : Type} (co : Collaborators W) (cfg : Config) (c : Context) :
    List AppParams → Cmd W Unit
  | [] => pure ()
  | appParams :: rest => do
    pushApp co cfg c appParams
    pushApps co cfg c rest

/-! ## Reading the command line and the manifest -/

/-- The value of a string of decimal digits. -/
def digitsValue (ds : List Char) : Nat :=
  ds.foldl (fun acc ch => 10 * acc + (ch.toNat - 48)) 0

/-- The function `strconv.Atoi` for a 64-bit `int`: an optional sign and one or more
decimal digits, in the range of the type. -/
def atoi (s : String) : Except String Int :=
  let cs := s.data
  let signed : Bool × List Char :=
    match cs with
    | '-' :: r => (true, r)
    | '+' :: r => (false, r)
    | _ => (false, cs)
  let ds := signed.2
  if ds.isEmpty || !ds.all Char.isDigit then
    .error ("strconv.ParseInt: parsing \"" ++ s ++ "\": invalid syntax")
  else
    let n := digitsValue ds
    if signed.1 then
      if n > 2 ^ 63 then
        .error ("strconv.ParseInt: parsing \"" ++ s ++ "\": value out of range")
      else .ok (-(n : Int))
    else
      if n > 2 ^ 63 - 1 then
        .error ("strconv.ParseInt: parsing \"" ++ s ++ "\": value out of range")
      else .ok (n : Int)

/-- The mapping of the flags `-b` and `-c`: `null` and `default` give the empty value. -/
def resetValue (v : String) : String :=
  if v = "null" || v = "default" then "" else v

/-- The method `getAppParamsFromContext`. -/
def getAppParamsFromContext {W : Type} (co : Collaborators W) (c : Context) :
    Cmd W AppParams := do
  let appParams := AppParams.zero
  let appParams := (match c.args with
    | arg :: _ => { appParams with name := some arg }
    | [] => appParams)
  let appParams := { appParams with noRoute := c.noRoute, useRandomHostname := c.randomRoute }
  let appParams := if c.n ≠ "" then { appParams with host := some c.n } else appParams
  let appParams :=
    if c.b ≠ "" then { appParams with buildpackUrl := some (resetValue c.b) } else appParams
  let appParams :=
    if c.c ≠ "" then { appParams with command := some (resetValue c.c) } else appParams
  let appParams := if c.d ≠ "" then { appParams with domain := some c.d } else appParams
  let appParams ← (if c.iSet then do
      if c.i < 1 then
        Failed ("Invalid instance count: " ++ toString c.i ++
          "\nInstance count must be a positive integer")
      pure { appParams with instanceCount := some c.i }
    else pure appParams : Cmd W AppParams)
  let appParams ← (if c.k ≠ "" then
      match co.toMegabytes c.k with
      | .error err => Failed ("Invalid disk quota: " ++ c.k ++ "\n" ++ err)
      | .ok diskQuota => pure { appParams with diskQuota := some diskQuota }
    else pure appParams : Cmd W AppParams)
  let appParams ← (if c.m ≠ "" then
      match co.toMegabytes c.m with
      | .error err => Failed ("Invalid memory limit: " ++ c.m ++ "\n" ++ err)
      | .ok memory => pure { appParams with memory := some memory }
    else pure appParams : Cmd W AppParams)
  let appParams := if c.p ≠ "" then { appParams with path := some c.p } else appParams
  let appParams := if c.s ≠ "" then { appParams with stackName := some c.s } else appParams
  if c.t ≠ "" then
    match atoi c.t with
    | .error err =>
      Failed ("Error: " ++ "Invalid timeout param: " ++ c.t ++ "\n" ++ err)
    | .ok timeout => pure { appParams with healthCheckTimeout := some timeout }
  else pure appParams

/-- The method `getAppParamsFromManifest`. -/
def getAppParamsFromManifest {W : Type} (co : Collaborators W) (cfg : Config) (c : Context) :
    Cmd W (List AppParams) :=
  if c.noManifest then pure []
  else do
    let path ← (if c.f ≠ "" then pure c.f
      else
        match cfg.cwdErr with
        | some _ => Failed "Could not determine the current working directory!"
        | none => pure cfg.cwd : Cmd W String)
    let m ← call (.readManifest path) (co.readManifest path)
    match m.readErr with
    | some err =>
      if m.path = "" && c.f = "" then pure []
      else Failed ("Error reading manifest file:\n" ++ err)
    | none =>
      match m.applications with
      | .error err => Failed ("Error reading manifest file:\n" ++ err)
      | .ok apps => do
        Say ("Using manifest file " ++ m.path ++ "\n")
        pure apps

/-- The method `findAndValidateAppsToPush`. -/
def findAndValidateAppsToPush {W : Type} (co : Collaborators W) (cfg : Config) (c : Context) :
    Cmd W (List AppParams) := do
  let appsFromManifest ← getAppParamsFromManifest co cfg c
  let appFromContext ← getAppParamsFromContext co c
  createAppSetFromContextAndManifest cfg appFromContext appsFromManifest

/-- The method `Run`. -/
def Run {W : Type} (co : Collaborators W) (cfg : Config) (c : Context) : Cmd W Unit := do
  let appSet ← findAndValidateAppsToPush co cfg c
  callUnit .refreshAuthToken co.refreshAuthToken
  pushApps co cfg c appSet

/-! ## The route creator (`src/cf/commands/route/create_route.go`) -/

/-- The type `models.SpaceFields`. -/
structure SpaceFields where
  guid : String
  name : String
  deriving DecidableEq, Repr

/-- The two methods of `api.RouteRepository` that `CreateRoute` calls. A Go method
with the results `(route, apiErr)` returns both values: the route and the error,
absent when `nil`. -/
structure RouteRepository (W : Type) where
  CreateInSpace : String → String → String → W → (Route × Option ApiError) × W
  FindByHostAndDomain : String → String → W → (Route × Option ApiError) × W

/-- The method `CreateRoute.CreateRoute`, with its named results `(route, apiErr)`. -/
def CreateRoute {W : Type} (repo : RouteRepository W) (cfg : Config) (hostName : String)
    (domain : DomainFields) (space : SpaceFields) : Cmd W (Route × Option ApiError) := do
  Say ("Creating route " ++ domain.UrlForHost hostName ++ " for org " ++ cfg.orgName ++
    " / space " ++ space.name ++ " as " ++ cfg.username ++ "...")
  let created ← call (.routeCreateInSpace hostName domain.guid space.guid)
    (repo.CreateInSpace hostName domain.guid space.guid)
  match created.2 with
  | some apiErr => do
    let found ← call (.routeFindByHostAndDomain hostName domain.name)
      (repo.FindByHostAndDomain hostName domain.name)
    if found.2 ≠ none ∨ found.1.spaceGuid ≠ space.guid ∨ found.1.domain.guid ≠ domain.guid then
      pure (found.1, some apiErr)
    else do
      Ok
      Warn ("Route " ++ found.1.URL ++ " already exists")
      pure (found.1, none)
  | none => do
    Ok
    pure (created.1, none)

/-! ## The table printer (`src/cf/terminal/table.go`) -/

/-- The functions of package `terminal` that the table printer calls and whose code
is not among the sources: `decolorize`, `HeaderColor` and `TableContentHeaderColor`. -/
structure Palette where
  decolorize : String → String
  HeaderColor : String → String
  TableContentHeaderColor : String → String

/-- The Go expression `len(decolorize(value))`: the length in bytes of the value
without its colour codes. -/
def Palette.visibleLen (pal : Palette) (value : String) : Nat :=
  (pal.decolorize value).utf8ByteSize

/-- One call of `ui.Say`: the format and the arguments that follow it. -/
structure SayCall where
  format : String
  args : List String
  deriving DecidableEq, Repr

/-- The run-time panics of the table printer: an index outside the slice, and a
negative count given to `strings.Repeat`. -/
inductive TablePanic where
  | indexOutOfRange
  | negativeRepeatCount
  deriving DecidableEq, Repr

/-- The type `PrintableTable` without its `ui`, whose calls are returned instead.
The sizes are Go `int`s that hold lengths of strings; they are natural numbers, and
the one subtraction the source makes on them is made on integers. -/
structure PrintableTable where
  header : List String
  headerPrinted : Bool
  maxSizes : List Nat
  deriving DecidableEq, Repr

/-- The function `NewTable`: `make([]int, len(header))` is a slice of zeros. -/
def NewTable (header : List String) : PrintableTable :=
  { header := header, headerPrinted := false, maxSizes := List.replicate header.length 0 }

/-- The loop of `calculateMaxSize`, from the cell with the given index on. -/
def calculateMaxSizeFrom (pal : Palette) :
    Nat → List String → List Nat → Except TablePanic (List Nat)
  | _, [], maxSizes => .ok maxSizes
  | index, value :: rest, maxSizes =>
    let cellLength := pal.visibleLen value
    match maxSizes[index]? with
    | none => .error .indexOutOfRange
    | some size =>
      if size < cellLength then
        calculateMaxSizeFrom pal (index + 1) rest (maxSizes.set index cellLength)
      else calculateMaxSizeFrom pal (index + 1) rest maxSizes

/-- The method `calculateMaxSize`. -/
def calculateMaxSize (pal : Palette) (t : PrintableTable) (row : List String) :
    Except TablePanic PrintableTable :=
  match calculateMaxSizeFrom pal 0 row t.maxSizes with
  | .error e => .error e
  | .ok maxSizes => .ok { t with maxSizes := maxSizes }

/-- The function `strings.Repeat`, which panics on a negative count. -/
def goRepeat (s : String) (count : Int) : Except TablePanic String :=
  if count < 0 then .error .negativeRepeatCount
  else .ok (String.join (List.replicate count.toNat s))

/-- The method `cellValue`. -/
def cellValue (pal : Palette) (t : PrintableTable) (col : Nat) (value : String) :
    Except TablePanic String :=
  if (col : Int) < (t.header.length : Int) - 1 then
    match t.maxSizes[col]? with
    | none => .error .indexOutOfRange
    | some size =>
      match goRepeat " " ((size : Int) - (pal.visibleLen value : Int)) with
      | .error e => .error e
      | .ok padding => .ok (value ++ padding ++ "   ")
  else .ok (value ++ "" ++ "   ")

/-- The loop of `printHeader`, from the column with the given index on. -/
def printHeaderFrom (pal : Palette) (t : PrintableTable) :
    Nat → List String → String → Except TablePanic String
  | _, [], output => .ok output
  | col, value :: rest, output =>
    match cellValue pal t col (pal.HeaderColor value) with
    | .error e => .error e
    | .ok cell => printHeaderFrom pal t (col + 1) rest (output ++ cell)

/-- The method `printHeader`: the line is the format of the call `ui.Say(output)`. -/
def printHeader (pal : Palette) (t : PrintableTable) : Except TablePanic SayCall :=
  match printHeaderFrom pal t 0 t.header "" with
  | .error e => .error e
  | .ok output => .ok { format := output, args := [] }

/-- The loop of `printRow`, from the column with the given index on. -/
def printRowFrom (pal : Palette) (t : PrintableTable) :
    Nat → List String → String → Except TablePanic String
  | _, [], output => .ok output
  | columnIndex, value :: rest, output =>
    let value := if columnIndex = 0 then pal.TableContentHeaderColor value else value
    match cellValue pal t columnIndex value with
    | .error e => .error e
    | .ok cell => printRowFrom pal t (columnIndex + 1) rest (output ++ cell)

/-- The method `printRow`: the call `ui.Say("%s", output)`. -/
def printRow (pal : Palette) (t : PrintableTable) (row : List String) :
    Except TablePanic SayCall :=
  match printRowFrom pal t 0 row "" with
  | .error e => .error e
  | .ok output => .ok { format := "%s", args := [output] }

/-- The first loop of `Print`, over `append(rows, t.header)`. -/
def calculateMaxSizes (pal : Palette) :
    List (List String) → PrintableTable → Except TablePanic PrintableTable
  | [], t => .ok t
  | row :: rest, t =>
    match calculateMaxSize pal t row with
    | .error e => .error e
    | .ok t1 => calculateMaxSizes pal rest t1

/-- The second loop of `Print`, over `rows`. -/
def printRows (pal : Palette) (t : PrintableTable) :
    List (List String) → Except TablePanic (List SayCall)
  | [] => .ok []
  | line :: rest =>
    match printRow pal t line with
    | .error e => .error e
    | .ok said =>
      match printRows pal t rest with
      | .error e => .error e
      | .ok more => .ok (said :: more)

/-- The method `Print`: the table after it and the calls of `ui.Say` it made. -/
def Print (pal : Palette) (t : PrintableTable) (rows : List (List String)) :
    Except TablePanic (PrintableTable × List SayCall) :=
  match calculateMaxSizes pal (rows ++ [t.header]) t with
  | .error e => .error e
  | .ok t1 =>
    match (if t1.headerPrinted = false then
        match printHeader pal t1 with
        | .error e => .error e
        | .ok said => .ok ({ t1 with headerPrinted := true }, [said])
      else .ok (t1, []) : Except TablePanic (PrintableTable × List SayCall)) with
    | .error e => .error e
    | .ok (t2, said) =>
      match printRows pal t2 rows with
      | .error e => .error e
      | .ok lines => .ok (t2, said ++ lines)

/-! ## A remote state that records what it is told

The collaborators are interfaces; `faithful` is one implementation of them, over a
remote state that keeps the domains, routes, route bindings and applications it was
given or told to create. It serves as the remote side of the statements about repeated
pushes and as the world of the concrete runs below. -/

/-- The remote state. -/
structure Remote where
  domains : List DomainFields
  routes : List Route
  bindings : List (String × String)
  apps : List Application
  counter : Nat
  words : List String
  manifestPath : String
  manifest : Option (List AppParams)
  deriving DecidableEq, Repr

/-- A fresh identifier: the given stem followed by as many `+` as the counter tells. -/
def freshGuid (stem : String) (counter : Nat) : String :=
  stem ++ String.mk (List.replicate counter '+')

/-- The summary of a route. -/
def Route.summary (r : Route) : RouteSummary :=
  { guid := r.guid, host := r.host, domain := r.domain }

/-- The routes the remote state has bound to the application with the identifier. -/
def Remote.routesOf (w : Remote) (appGuid : String) : List RouteSummary :=
  (w.routes.filter (fun r => decide ((r.guid, appGuid) ∈ w.bindings))).map Route.summary

/-- The application as the remote state reports it: with the routes bound to it. -/
def Remote.view (w : Remote) (a : Application) : Application :=
  { a with routes := w.routesOf a.guid }

/-- The stored application with the given name. -/
def Remote.appNamed (w : Remote) (name : String) : Option Application :=
  w.apps.find? (fun a => decide (a.name = name))

/-- The stored application with the given identifier. -/
def Remote.appWithGuid (w : Remote) (guid : String) : Option Application :=
  w.apps.find? (fun a => decide (a.guid = guid))

/-- Replace the stored application that has the identifier of `a` by `a`. -/
def Remote.storeApp (w : Remote) (a : Application) : Remote :=
  { w with apps := w.apps.map (fun x => if x.guid = a.guid then a else x) }

/-- The application an update call leaves: present parameters replace its values. -/
def applyParams (a : Application) (params : AppParams) : Application :=
  { a with
    name := params.name.getD a.name
    instanceCount := params.instanceCount.getD a.instanceCount
    memory := params.memory.getD a.memory
    environmentVars := params.environmentVars.getD a.environmentVars }

/-- The collaborators over the remote state: every call succeeds when the entity it
names exists, and what it creates, binds or unbinds is recorded. -/
def faithful : Collaborators Remote where
  readManifest := fun _ w =>
    match w.manifest with
    | some apps => ({ path := w.manifestPath, readErr := none, applications := .ok apps }, w)
    | none => ({ path := "", readErr := some "manifest not found", applications := .ok [] }, w)
  refreshAuthToken := fun w => w
  stackFindByName := fun name w => (.ok { guid := name ++ "-guid", name := name }, w)
  appRead := fun name w =>
    match w.appNamed name with
    | some a => (.ok (w.view a), w)
    | none => (.error (.modelNotFound ("App " ++ name ++ " not found")), w)
  appCreate := fun params w =>
    let a : Application :=
      { guid := freshGuid "app-guid" w.counter, name := params.name.getD "",
        state := "stopped", instanceCount := params.instanceCount.getD 1,
        memory := params.memory.getD 0,
        environmentVars := params.environmentVars.getD [], routes := [] }
    let w1 := { w with apps := w.apps ++ [a], counter := w.counter + 1 }
    (.ok (w1.view a), w1)
  appUpdate := fun guid params w =>
    match w.appWithGuid guid with
    | some a =>
      let w1 := w.storeApp (applyParams a params)
      (.ok (w1.view (applyParams a params)), w1)
    | none => (.error (.modelNotFound ("App " ++ guid ++ " not found")), w)
  findByNameInOrg := fun name _ w =>
    match w.domains.find? (fun d => decide (d.name = name)) with
    | some d => (.ok d, w)
    | none => (.error (.modelNotFound ("Domain " ++ name ++ " not found")), w)
  listDomainsForOrg := fun _ w => ((w.domains, none), w)
  routeFindByHostAndDomain := fun host domainName w =>
    match w.routes.find? (fun r => decide (r.host = host) && decide (r.domain.name = domainName)) with
    | some r => (.ok r, w)
    | none => (.error (.modelNotFound "Route not found"), w)
  routeCreate := fun host domainGuid w =>
    match w.domains.find? (fun d => decide (d.guid = domainGuid)) with
    | some d =>
      let r : Route :=
        { guid := freshGuid "route-guid" w.counter, host := host, domain := d, spaceGuid := "" }
      (.ok r, { w with routes := w.routes ++ [r], counter := w.counter + 1 })
    | none => (.error (.other "The domain does not exist"), w)
  routeBind := fun routeGuid appGuid w =>
    (none, { w with bindings := w.bindings ++ [(routeGuid, appGuid)] })
  routeUnbind := fun routeGuid appGuid w =>
    (none, { w with bindings := w.bindings.filter (fun b => !decide (b = (routeGuid, appGuid))) })
  uploadApp := fun _ _ w => (([], none), w)
  findInstanceByName := fun name w => (.ok { guid := name ++ "-guid", name := name }, w)
  bindApplication := fun _ _ w => (none, w)
  applicationStop := fun app w =>
    (({ app with state := "stopped" }, none), w.storeApp { app with state := "stopped" })
  setStartTimeoutInSeconds := fun _ w => w
  applicationStart := fun app w =>
    (({ app with state := "started" }, none), w.storeApp { app with state := "started" })
  babble := fun w =>
    match w.words with
    | [] => ("", w)
    | word :: rest => (word, { w with words := rest })
  toMegabytes := fun s => .error ("Byte quantity must be a positive integer with a unit of measurement like M, MB, G, or GB: " ++ s)
  byteSize := fun n => toString n

/-- The remote state with nothing in it. -/
def Remote.empty : Remote :=
  { domains := [], routes := [], bindings := [], apps := [], counter := 0, words := [],
    manifestPath := "", manifest := none }

/-- A configuration for the concrete runs. -/
def exampleConfig : Config :=
  { orgGuid := "org-guid", orgName := "org", spaceGuid := "space-guid", spaceName := "space",
    username := "user", cwd := "/cwd", cwdErr := none }

/-! ## Concrete inputs -/

/-- A shared domain. -/
def sharedDomain : DomainFields := { guid := "shared-guid", name := "shared.example.com", shared := true }

/-- A domain that is not shared. -/
def privateDomain : DomainFields := { guid := "private-guid", name := "private.example.com", shared := false }

/-- A second domain that is not shared. -/
def otherPrivateDomain : DomainFields := { guid := "other-guid", name := "other.example.com", shared := false }

/-- A remote state whose listing has a shared domain before one that is not shared. -/
def sharedFirstRemote : Remote := { Remote.empty with domains := [sharedDomain, privateDomain] }

/-- A remote state whose listing has two domains, neither shared. -/
def twoPrivateRemote : Remote := { Remote.empty with domains := [privateDomain, otherPrivateDomain] }

/-- The environment `A:1, B:2` of an existing application. -/
def envAB : GoMap := [("A", "1"), ("B", "2")]

/-- The incoming override `B:3, C:4`. -/
def envBC : GoMap := [("B", "3"), ("C", "4")]

/-- An existing application with the environment `A:1, B:2`. -/
def appWithEnv : Application :=
  { guid := "app-guid", name := "foo", state := "stopped", instanceCount := 1, memory := 256,
    environmentVars := envAB, routes := [] }

/-- The parameters named `name`, nothing else present. -/
def namedParams (name : String) : AppParams := { AppParams.zero with name := some name }

/-- A command-line entry whose only present field is the path. -/
def pathOnlyParams : AppParams := { AppParams.zero with path := some "/app" }

/-- The command-line entry of `push b -p /app`: the name and the path. -/
def namedWithPath : AppParams := { namedParams "b" with path := some "/app" }

/-- A manifest of two named entries. -/
def twoAppManifest : List AppParams := [namedParams "a", namedParams "b"]

/-- A named manifest entry with a path. -/
def appA : AppParams := { namedParams "a" with path := some "/a" }

/-- A manifest entry with a path and no name. -/
def unnamedApp : AppParams := { AppParams.zero with path := some "/b" }

/-- A manifest of two entries, the second without a name. -/
def unnamedSecondManifest : List AppParams := [appA, unnamedApp]

/-- A remote state with one shared domain and no application, and a manifest in the
working directory whose second entry has no name. -/
def unnamedSecondRemote : Remote :=
  { Remote.empty with
    domains := [sharedDomain]
    manifestPath := "/cwd/manifest.yml"
    manifest := some unnamedSecondManifest }

/-- A started application, as an application repository returned it. -/
def startedApp : Application :=
  { guid := "app-guid", name := "foo", state := "started", instanceCount := 1, memory := 256,
    environmentVars := [], routes := [] }

/-- Collaborators whose stopper fails and returns the zero application with the error. -/
def failingStop : Collaborators Remote :=
  { faithful with
    applicationStop := fun _ w => ((Application.zero, some (.other "stop failed")), w) }

/-- Collaborators whose unbind call fails. -/
def failingUnbind : Collaborators Remote :=
  { faithful with
    routeUnbind := fun _ _ w => (some (.other "unbind failed"), w) }

/-- The first of two routes of the application `foo`. -/
def routeOne : Route :=
  { guid := "route-1", host := "foo", domain := sharedDomain, spaceGuid := "space-guid" }

/-- The second of two routes of the application `foo`. -/
def routeTwo : Route :=
  { guid := "route-2", host := "bar", domain := sharedDomain, spaceGuid := "space-guid" }

/-- A remote state in which the started application `foo` has two routes bound, and
no manifest. -/
def twoRoutesRemote : Remote :=
  { Remote.empty with
    domains := [sharedDomain]
    routes := [routeOne, routeTwo]
    bindings := [("route-1", "app-guid"), ("route-2", "app-guid")]
    apps := [startedApp] }

/-- The command line `push foo --no-route`. -/
def pushFooNoRoute : Context := { Context.empty with args := ["foo"], noRoute := true }

/-- The application `foo` as the remote state `twoRoutesRemote` reports it. -/
def fooWithTwoRoutes : Application :=
  { startedApp with routes := [routeOne.summary, routeTwo.summary] }

/-- A manifest of three entries, two of them named `b`. -/
def threeAppManifest : List AppParams :=
  [namedParams "a", { namedParams "b" with memory := some 1 },
   { namedParams "b" with memory := some 2 }]

/-- A remote state with one shared domain, no application, no route and no manifest,
whose word generator gives `alpha` and then `beta`. -/
def freshRemote : Remote :=
  { Remote.empty with
    domains := [sharedDomain]
    words := ["alpha", "beta"] }

/-- The command line `push foo --random-route -d shared.example.com`. -/
def pushFooRandomRoute : Context :=
  { Context.empty with args := ["foo"], randomRoute := true, d := "shared.example.com" }

/-- The command line `push foo -n www -d shared.example.com`. -/
def pushFooWithHost : Context :=
  { Context.empty with args := ["foo"], n := "www", d := "shared.example.com" }

/-- The parameters the command line `push foo -n www -d shared.example.com` gives. -/
def fooWithHostParams : AppParams :=
  { namedParams "foo" with host := some "www", domain := some "shared.example.com" }

/-- A stopped application without routes. -/
def stoppedApp : Application := { startedApp with state := "stopped" }

/-- A remote state with one shared domain and the stopped application `foo`, which
has no route. -/
def unroutedRemote : Remote :=
  { Remote.empty with
    domains := [sharedDomain]
    apps := [stoppedApp] }

/-! ## Specification-side definitions -/

/-- The first domain of the listing that is not shared, in listing order. -/
def firstNonShared (domains : List DomainFields) : Option DomainFields :=
  domains.find? (fun d => !d.shared)

/-- The first domain of the listing that is shared, in listing order. -/
def firstShared (domains : List DomainFields) : Option DomainFields :=
  domains.find? (fun d => d.shared)

/-- The first shared domain of the listing, and the last domain listed when none is
shared. -/
def firstSharedElseLast (domains : List DomainFields) : Option DomainFields :=
  match firstShared domains with
  | some d => some d
  | none => domains.getLast?

/-- The value of one field after a merge, as the specification words it: the value
of the command line when the command line sets the field, the value of the manifest
when it leaves the field unset. -/
def cliElseManifest {α : Type} (cli manifest : Option α) : Option α :=
  if cli.isSome then cli else manifest

/-- The message of the failure for an application without a name. -/
def missingNameMessage : String := "Error: App name is a required field"

/-- The message of the failure for a name that no manifest entry has. -/
def appNotFoundMessage (name : String) : String :=
  "Error: " ++ ("Could not find app named '" ++ name ++ "' in manifest")

/-- Whether the call is a route creation. -/
def Call.isRouteCreate : Call → Bool
  | .routeCreate _ _ => true
  | _ => false

/-- Whether the call is a route binding. -/
def Call.isRouteBind : Call → Bool
  | .routeBind _ _ => true
  | _ => false

/-- The number of route-creation calls in a call log. -/
def routeCreations (calls : List Call) : Nat := calls.countP Call.isRouteCreate

/-- The number of bind calls in a call log. -/
def routeBinds (calls : List Call) : Nat := calls.countP Call.isRouteBind

/-- The world a run leaves behind. -/
def Outcome.world {W α : Type} (o : Outcome W α) : W := o.trace.world

/-- The trace that starts a run: the world, no call made, nothing written. -/
def startAt {W : Type} (w : W) : Trace W := { world := w, calls := [], ui := [] }

/-- The domain call `findDomain` makes for the parameters. -/
def domainCall (cfg : Config) (params : AppParams) : Call :=
  match params.domain with
  | some name => .domainFindByNameInOrg name cfg.orgGuid
  | none => .listDomainsForOrg cfg.orgGuid

/-- The route the recording remote state creates for a host and a domain. -/
def createdRoute (w : Remote) (host : String) (d : DomainFields) : Route :=
  { guid := freshGuid "route-guid" w.counter, host := host, domain := d, spaceGuid := "" }

/-- The recording remote state after it created the route for the host and the domain
and bound it to the application. -/
def afterCreateAndBind (w : Remote) (host : String) (d : DomainFields) (appGuid : String) :
    Remote :=
  { w with
    routes := w.routes ++ [createdRoute w host d]
    counter := w.counter + 1
    bindings := w.bindings ++ [((createdRoute w host d).guid, appGuid)] }

/-- Whether the character before, if there is one, is in the class `[\s_]`. -/
def afterWhitespace (prev : Option Char) : Bool :=
  match prev with
  | some p => isWhitespaceOrUnderscore p
  | none => false

/-- The number of maximal runs of whitespace and underscore characters in the
characters that follow the character `prev`: the number of positions that hold such
a character while the position before does not. -/
def whitespaceRunsAfter (prev : Option Char) : List Char → Nat
  | [] => 0
  | c :: rest =>
    (if isWhitespaceOrUnderscore c && !afterWhitespace prev then 1 else 0) +
      whitespaceRunsAfter (some c) rest

/-- The number of maximal runs of whitespace and underscore characters of a name. -/
def whitespaceRuns (cs : List Char) : Nat := whitespaceRunsAfter none cs

/-- Whether the character is an ASCII letter or an ASCII digit. -/
def isAsciiLetterOrDigit (c : Char) : Bool :=
  (48 ≤ c.toNat && c.toNat ≤ 57) || (65 ≤ c.toNat && c.toNat ≤ 90) ||
    (97 ≤ c.toNat && c.toNat ≤ 122)

/-- A name of sixty-four letters. -/
def longName : String := String.mk (List.replicate 64 'a')

/-- Collaborators whose word generator always gives `quiet-lake`. -/
def fixedWords : Collaborators Remote :=
  { faithful with
    babble := fun w => ("quiet-lake", w) }

/-- The parameters named `My App` with the random-hostname flag set. -/
def randomHostParams : AppParams := { namedParams "My App" with useRandomHostname := true }

/-- Whether the call is a lookup of a route by host and domain name. -/
def Call.isRouteFind : Call → Bool
  | .routeFindByHostAndDomain _ _ => true
  | _ => false

/-- Whether the call is a call on the domain repository. -/
def Call.isDomainCall : Call → Bool
  | .domainFindByNameInOrg _ _ => true
  | .listDomainsForOrg _ => true
  | _ => false

/-- Whether the call is a call on the route repository. -/
def Call.isRouteCall : Call → Bool
  | .routeFindByHostAndDomain _ _ => true
  | .routeCreate _ _ => true
  | .routeBind _ _ => true
  | .routeUnbind _ _ => true
  | _ => false

/-- The unbind calls for the routes of an application, in the order of its routes. -/
def unbindCalls (app : Application) : List Call :=
  app.routes.map (fun r => Call.routeUnbind r.guid app.guid)

/-- Whether `bindAppToRoute` goes on to resolve a route when no-route is not set: the
application has no route, or one of `-n`, `-d` and `--no-hostname` was given. -/
def resolvesRoute (app : Application) (c : Context) : Prop :=
  app.routes = [] ∨ c.n ≠ "" ∨ c.d ≠ "" ∨ c.noHostname = true

/-- A second shared domain. -/
def otherSharedDomain : DomainFields :=
  { guid := "other-shared-guid", name := "apps.example.com", shared := true }

/-- A remote state whose listing has two shared domains and no other domain. -/
def twoSharedRemote : Remote := { Remote.empty with domains := [sharedDomain, otherSharedDomain] }

/-- The command line `push foo`. -/
def pushFoo : Context := { Context.empty with args := ["foo"] }

/-- Collaborators whose bind call fails with the code `INVALID_RELATION`. -/
def routeTaken : Collaborators Remote :=
  { faithful with
    routeBind := fun _ _ w => (some (.http INVALID_RELATION "The route is taken"), w) }

/-- A remote state with one shared domain, the stopped application `foo` without
routes, and the route `www.shared.example.com`, bound to nothing. -/
def existingRouteRemote : Remote :=
  { Remote.empty with
    domains := [sharedDomain]
    routes := [{ guid := "route-www", host := "www", domain := sharedDomain, spaceGuid := "other-space" }]
    apps := [stoppedApp] }

/-- The route `www.shared.example.com` of `existingRouteRemote`. -/
def wwwRoute : Route :=
  { guid := "route-www", host := "www", domain := sharedDomain, spaceGuid := "other-space" }

/-- The trace after the domain lookup of `push foo -n www -d shared.example.com` on
`existingRouteRemote`. -/
def afterDomainLookup : Trace Remote :=
  { world := existingRouteRemote
    calls := [.domainFindByNameInOrg "shared.example.com" "org-guid"]
    ui := [] }

/-- The trace after the route lookup of `push foo -n www -d shared.example.com` on
`existingRouteRemote`. -/
def afterRouteLookup : Trace Remote :=
  { world := existingRouteRemote
    calls := [.domainFindByNameInOrg "shared.example.com" "org-guid",
      .routeFindByHostAndDomain "www" "shared.example.com"]
    ui := [.say "Using route www.shared.example.com"] }

/-- The command never ends in a run-time panic, from any trace, and every value it
returns satisfies `P`. -/
def Cmd.safe {W α : Type} (m : Cmd W α) (P : α → Prop) : Prop :=
  ∀ t, match m t with
    | .done a _ => P a
    | .aborted _ _ => True
    | .panicked _ => False

/-- Whether the run ended in a run-time panic. -/
def Outcome.isPanicked {W α : Type} : Outcome W α → Bool
  | .panicked _ => true
  | _ => false

/-- The entries `createAppSetFromContextAndManifest` starts from: the command-line
entry when the manifest is empty, the merge of the two when the manifest has one
entry, the manifest entries when it has more. -/
def sourceEntry (c : AppParams) (manifestApps : List AppParams) (src : AppParams) : Prop :=
  match manifestApps with
  | [] => src = c
  | [m] => src = m.Merge c
  | _ => src ∈ manifestApps

/-- The parameters named `foo` with the working directory of `exampleConfig` as path. -/
def fooInCwd : AppParams := { namedParams "foo" with path := some "/cwd" }

/-- Collaborators whose application lookup fails with an error other than not-found. -/
def failingRead : Collaborators Remote :=
  { faithful with
    appRead := fun _ w => (.error (.other "lookup failed"), w) }

/-- Collaborators whose service binder reports that the service is bound already. -/
def alreadyBound : Collaborators Remote :=
  { faithful with
    bindApplication := fun _ _ w =>
      (some (.http APP_ALREADY_BOUND "The app is already bound to the service"), w) }

/-- Collaborators whose service binder fails with an error of another code. -/
def failingBind : Collaborators Remote :=
  { faithful with
    bindApplication := fun _ _ w => (some (.http "10001" "bind failed"), w) }

/-- The service instance the remote state finds under the name `db`. -/
def dbInstance : ServiceInstance := { guid := "db-guid", name := "db" }

/-- Collaborators whose service repository has no instance named `cache`. -/
def missingCache : Collaborators Remote :=
  { faithful with
    findInstanceByName := fun name w =>
      if name = "cache" then (.error (.modelNotFound "Service instance cache not found"), w)
      else (.ok { guid := name ++ "-guid", name := name }, w) }

/-- The calls for services whose instances are found and bound: for each name, in the
order of the list, the lookup by the name and then the bind call with its instance. -/
def serviceCalls (app : Application) : List String → List ServiceInstance → List Call
  | s :: ss, si :: sis =>
    .findInstanceByName s :: .bindApplication app si :: serviceCalls app ss sis
  | _, _ => []

/-- The step of the push of one application that makes the call: `1` the stack
lookup, `2` finding, creating or updating the application, `3` the reconciliation of
the route, `4` the upload, `5` the binding of services, `6` stopping and starting.
The calls made before the first application is pushed have `0`. -/
def Call.phase : Call → Nat
  | .readManifest _ => 0
  | .refreshAuthToken => 0
  | .stackFindByName _ => 1
  | .appRead _ => 2
  | .appCreate _ => 2
  | .appUpdate _ _ => 2
  | .domainFindByNameInOrg _ _ => 3
  | .listDomainsForOrg _ => 3
  | .routeFindByHostAndDomain _ _ => 3
  | .routeCreate _ _ => 3
  | .routeBind _ _ => 3
  | .routeUnbind _ _ => 3
  | .babble => 3
  | .routeCreateInSpace _ _ _ => 3
  | .uploadApp _ _ => 4
  | .findInstanceByName _ => 5
  | .bindApplication _ _ => 5
  | .applicationStop _ => 6
  | .setStartTimeoutInSeconds _ => 6
  | .applicationStart _ => 6

/-- The calls are in the order of the steps of a push: no call of a later step comes
before a call of an earlier step. -/
def phaseOrdered (seg : List Call) : Prop :=
  seg.Pairwise (fun a b => a.phase ≤ b.phase)

/-- From any trace, the command only adds calls, the added calls are in the order of
the steps, and each of them belongs to a step from `lo` to `hi`. -/
def Cmd.phased {W α : Type} (m : Cmd W α) (lo hi : Nat) : Prop :=
  ∀ t, ∃ seg, (m t).calls = t.calls ++ seg ∧ phaseOrdered seg ∧
    ∀ call ∈ seg, lo ≤ call.phase ∧ call.phase ≤ hi

/-- The trace after the call `RefreshAuthToken` of `Run`. -/
def afterRefresh {W : Type} (co : Collaborators W) (t : Trace W) : Trace W :=
  { world := co.refreshAuthToken t.world, calls := t.calls ++ [.refreshAuthToken], ui := t.ui }

/-- A manifest entry with a path, a stack and a service to bind. -/
def webApp : AppParams :=
  { namedParams "web" with
    path := some "/web"
    stackName := some "lucid64"
    servicesToBind := some ["db"] }

/-- A manifest entry with a path. -/
def workerApp : AppParams := { namedParams "worker" with path := some "/worker" }

/-- A remote state with one shared domain and no application, and a manifest of two
entries in the working directory. -/
def twoAppRemote : Remote :=
  { Remote.empty with
    domains := [sharedDomain]
    manifestPath := "/cwd/manifest.yml"
    manifest := some [webApp, workerApp] }

/-- Collaborators whose uploader fails. -/
def failingUpload : Collaborators Remote :=
  { faithful with
    uploadApp := fun _ _ w => (([], some (.other "upload failed")), w) }

/-- A manifest entry for the application `foo`, with a path and a service to bind. -/
def fooApp : AppParams :=
  { namedParams "foo" with
    path := some "/foo"
    servicesToBind := some ["db"] }

/-- A remote state in which the started application `foo` has two routes bound, with
a manifest of the entries `foo` and `worker` in the working directory. -/
def fooAndWorkerRemote : Remote :=
  { twoRoutesRemote with
    manifestPath := "/cwd/manifest.yml"
    manifest := some [fooApp, workerApp] }

/-- The trace of a run against `fooAndWorkerRemote` after the manifest is read. -/
def manifestRead : Trace Remote :=
  { world := fooAndWorkerRemote
    calls := [.readManifest "/cwd"]
    ui := [.say "Using manifest file /cwd/manifest.yml\n"] }

/-- The trace of a run against `fooAndWorkerRemote` after the application `foo` is
updated: its routes are left as they are, so this is the trace before the upload. -/
def fooUpdated : Trace Remote :=
  { world := fooAndWorkerRemote
    calls := [.readManifest "/cwd", .refreshAuthToken, .appRead "foo",
      .appUpdate "app-guid" fooApp]
    ui := [.say "Using manifest file /cwd/manifest.yml\n",
      .say ("Updating app foo" ++ inOrgSpaceAs exampleConfig), .ok, .say ""] }

/-- The value of the field for the flag `-c` or `-b`: absent for a flag that is not
given (or empty), present and empty for `null` and `default`, and the value of the
flag itself, present, for everything else. -/
def flagValue (v : String) : Option String :=
  if v = "" then none
  else if v = "null" ∨ v = "default" then some ""
  else some v

/-- The command line `push foo -c null -b https://example.com/buildpack.git`. -/
def pushFooResetCommand : Context :=
  { Context.empty with
    args := ["foo"]
    c := "null"
    b := "https://example.com/buildpack.git" }

/-- Collaborators whose domain listing enumerates the domains of the remote state and
returns an error as well. -/
def failingListing : Collaborators Remote :=
  { faithful with
    listDomainsForOrg := fun _ w => ((w.domains, some (.other "listing failed")), w) }

/-- A route repository over the remote state: a route is created unless one with the
host exists in the domain; the lookup is by host and domain name. -/
def recordingRoutes : RouteRepository Remote where
  CreateInSpace := fun host domainGuid spaceGuid w =>
    match w.routes.find? (fun r => decide (r.host = host) && decide (r.domain.guid = domainGuid)) with
    | some _ =>
      (({ guid := "", host := "", domain := DomainFields.zero, spaceGuid := "" },
        some (.http "210003" "The host is taken")), w)
    | none =>
      match w.domains.find? (fun d => decide (d.guid = domainGuid)) with
      | some d =>
        let r : Route :=
          { guid := freshGuid "route-guid" w.counter, host := host, domain := d,
            spaceGuid := spaceGuid }
        ((r, none), { w with routes := w.routes ++ [r], counter := w.counter + 1 })
      | none =>
        (({ guid := "", host := "", domain := DomainFields.zero, spaceGuid := "" },
          some (.other "The domain does not exist")), w)
  FindByHostAndDomain := fun host domainName w =>
    match w.routes.find? (fun r => decide (r.host = host) && decide (r.domain.name = domainName)) with
    | some r => ((r, none), w)
    | none =>
      (({ guid := "", host := "", domain := DomainFields.zero, spaceGuid := "" },
        some (.modelNotFound "Route not found")), w)

/-- The space of the concrete runs. -/
def exampleSpace : SpaceFields := { guid := "space-guid", name := "space" }

/-- Another space. -/
def otherSpace : SpaceFields := { guid := "other-space-guid", name := "other" }

/-- A sequence of `Print` calls on one table: the table after them and the calls of
`ui.Say` they made, in order. -/
def printAll (pal : Palette) :
    PrintableTable → List (List (List String)) → Except TablePanic (PrintableTable × List SayCall)
  | t, [] => .ok (t, [])
  | t, rows :: rest =>
    match Print pal t rows with
    | .error e => .error e
    | .ok (t1, said) =>
      match printAll pal t1 rest with
      | .error e => .error e
      | .ok (t2, more) => .ok (t2, said ++ more)

/-- The sizes after the lengths of the cells of one row are taken into account:
each size with a cell in its column is the larger of the two. -/
def widen : List Nat → List Nat → List Nat
  | size :: sizes, len :: lens => max size len :: widen sizes lens
  | sizes, _ => sizes

/-- The palette of a terminal without colours: nothing is coloured, and there is
nothing to take away. -/
def plainPalette : Palette :=
  { decolorize := fun s => s, HeaderColor := fun s => s, TableContentHeaderColor := fun s => s }

/-- The header of the table of the concrete runs. -/
def exampleHeader : List String := ["name", "state", "urls"]

/-- The rows of a first `Print` call. -/
def firstRows : List (List String) := [["web", "started", "web.example.com"], ["db"]]

/-- The rows of a second `Print` call. -/
def secondRows : List (List String) := [["background-worker", "stopped", ""]]

/-- The size `m` is the largest visible length among the cells that the rows `seen`
have in column `c`, or zero when none of them has a longer cell than that. -/
def ColumnMax (pal : Palette) (seen : List (List String)) (c m : Nat) : Prop :=
  (∀ row ∈ seen, ∀ v, row[c]? = some v → pal.visibleLen v ≤ m) ∧
  (m = 0 ∨ ∃ row ∈ seen, ∃ v, row[c]? = some v ∧ pal.visibleLen v = m)

/-- The table has the header, one size for each column of the header, and each size
is the largest visible length in its column among the rows `seen`. -/
def TableInv (pal : Palette) (header : List String) (seen : List (List String))
    (t : PrintableTable) : Prop :=
  t.header = header ∧ t.maxSizes.length = header.length ∧
  ∀ c m, t.maxSizes[c]? = some m → ColumnMax pal seen c m

/-- The calls of the push of the entry `p`, in the order of its steps, as a run
without a failure makes them: the stack lookup when the entry names a stack; the
lookup of the application by the name of the entry and then its creation or update;
the calls of the route reconciliation; the upload, with the identifier of the
application and the path of the entry; for each service of the entry, in order, the
lookup of the instance and the bind call; a stop call when the application is not
stopped; and, unless `--no-start` is set, the start timeout when the entry has one
and the start call. -/
def isPipeline (cfg : Config) (c : Context) (p : AppParams) (seg : List Call) : Prop :=
  ∃ (name path : String) (q : AppParams) (app started : Application) (appCall : Call)
    (routeCalls : List Call) (insts : List ServiceInstance),
    p.name = some name ∧ p.path = some path ∧
    ({ q with stackGuid := none } : AppParams) = { p with stackGuid := none } ∧
    (appCall = .appCreate { q with spaceGuid := some cfg.spaceGuid } ∨
      ∃ found : Application, appCall = .appUpdate found.guid (updateParams found q)) ∧
    (∀ call ∈ routeCalls, call.phase = 3) ∧
    insts.length = (p.servicesToBind.getD []).length ∧
    (app.state = "stopped" → started = app) ∧
    seg =
      (match p.stackName with
        | some stackName => [.stackFindByName stackName]
        | none => []) ++
      [.appRead name, appCall] ++ routeCalls ++ [.uploadApp app.guid path] ++
      serviceCalls app (p.servicesToBind.getD []) insts ++
      (if app.state ≠ "stopped" then [.applicationStop app] else []) ++
      (if c.noStart then []
       else
        (match p.healthCheckTimeout with
          | some timeout => [.setStartTimeoutInSeconds timeout]
          | none => []) ++
        [.applicationStart started])

/-- One cell as the table renders it: the value, then, in a column that is not the
last one of the header, as many spaces as the value is shorter than the size of the
column, then three spaces. -/
def renderedCell (pal : Palette) (header : List String) (sizes : List Nat) (col : Nat)
    (value : String) : String :=
  if col + 1 < header.length then
    value ++ String.join (List.replicate ((sizes[col]?).getD 0 - pal.visibleLen value) " ") ++
      "   "
  else value ++ "" ++ "   "

/-- The cells of the header line, in the order of the columns: each header cell in
the header colour. -/
def renderedHeader (pal : Palette) (header : List String) (sizes : List Nat) : List String :=
  header.enum.map (fun jv => renderedCell pal header sizes jv.1 (pal.HeaderColor jv.2))

/-- The cells of the line of a row, in the order of the columns: the first one in the
colour of a content header. -/
def renderedRow (pal : Palette) (header : List String) (sizes : List Nat)
    (row : List String) : List String :=
  row.enum.map (fun jv =>
    renderedCell pal header sizes jv.1
      (if jv.1 = 0 then pal.TableContentHeaderColor jv.2 else jv.2))

/-- The call of `ui.Say` for the header line: the cells one after the other. -/
def headerLine (pal : Palette) (header : List String) (sizes : List Nat) : SayCall :=
  { format := String.join (renderedHeader pal header sizes), args := [] }

/-- The call of `ui.Say` for the line of a row: the cells one after the other. -/
def rowLine (pal : Palette) (header : List String) (sizes : List Nat) (row : List String) :
    SayCall :=
  { format := "%s", args := [String.join (renderedRow pal header sizes row)] }

/-- The entry with the working directory for an absent path. -/
def withDefaultPath (cfg : Config) (app : AppParams) : AppParams :=
  match app.path with
  | some _ => app
  | none => { app with path := some cfg.cwd }

/-! ## Lemmas on commands -/

theorem bind_apply {W α β : Type} (m : Cmd W α) (f : α → Cmd W β) (t : Trace W) :
    (m >>= f) t = match m t with
      | .done a t1 => f a t1
      | .aborted msg t1 => .aborted msg t1
      | .panicked t1 => .panicked t1 := rfl

theorem pure_apply {W α : Type} (a : α) (t : Trace W) :
    (pure a : Cmd W α) t = .done a t := rfl

theorem pure_bind_apply {W α β : Type} (a : α) (f : α → Cmd W β) (t : Trace W) :
    ((pure a : Cmd W α) >>= f) t = f a t := rfl

theorem call_apply {W α : Type} (c : Call) (step : W → α × W) (t : Trace W) :
    call c step t =
      .done (step t.world).1
        { world := (step t.world).2, calls := t.calls ++ [c], ui := t.ui } := rfl

/-! ## Default domain -/

theorem visitDomains_cons {σ : Type} (visit : σ → DomainFields → σ × Bool) (s : σ)
    (d : DomainFields) (rest : List DomainFields) :
    visitDomains visit s (d :: rest) =
      if (visit s d).2 then visitDomains visit (visit s d).1 rest else (visit s d).1 := rfl

theorem visitDomains_default (found : Option DomainFields) (d : DomainFields)
    (domains : List DomainFields) :
    visitDomains defaultDomainVisitor found (d :: domains) =
      firstSharedElseLast (d :: domains) := by
  induction domains generalizing found d with
  | nil =>
    cases hs : d.shared <;>
      simp [visitDomains, defaultDomainVisitor, firstSharedElseLast, firstShared, hs]
  | cons e rest ih =>
    rw [visitDomains_cons]
    cases hs : d.shared
    · simp only [defaultDomainVisitor, hs, Bool.not_false, if_true]
      rw [ih (some d) e]
      simp [firstSharedElseLast, firstShared, List.find?, hs, List.getLast?_cons_cons]
    · simp [defaultDomainVisitor, firstSharedElseLast, firstShared, hs]

theorem selectDefaultDomain_cons (d : DomainFields) (domains : List DomainFields) :
    ∃ r, firstSharedElseLast (d :: domains) = some r ∧
      selectDefaultDomain (d :: domains) = .ok r := by
  have h := visitDomains_default none d domains
  cases hr : firstSharedElseLast (d :: domains) with
  | none =>
    exfalso
    cases hs : d.shared <;>
      simp [firstSharedElseLast, firstShared, List.find?, hs] at hr
    cases hf : List.find? (fun d => d.shared) domains <;> simp [hf] at hr
  | some r =>
    refine ⟨r, rfl, ?_⟩
    simp [selectDefaultDomain, h, hr]

/-- C1, as stated, fails: with a shared domain listed before a domain that is not
shared, `findDefaultDomain` (and `findDomain` without an explicit domain) returns the
shared domain, and the first domain that is not shared is another one. -/
theorem findDefaultDomain_stops_at_shared :
    firstNonShared sharedFirstRemote.domains = some privateDomain ∧
    ((findDefaultDomain faithful exampleConfig).runFrom sharedFirstRemote).value =
      some (.ok sharedDomain) ∧
    ((findDomain faithful exampleConfig AppParams.zero).runFrom sharedFirstRemote).value =
      some sharedDomain ∧
    sharedDomain ≠ privateDomain := by
  decide

/-- C1, amended: for every listing with at least one domain that is not shared,
`findDefaultDomain` makes the one listing call and returns, without error, the first
shared domain in listing order when a shared domain is listed, and the last domain
listed otherwise. -/
theorem findDefaultDomain_first_shared_else_last {W : Type} (co : Collaborators W)
    (cfg : Config) (t : Trace W)
    (h : ∃ d ∈ (co.listDomainsForOrg cfg.orgGuid t.world).1.1, d.shared = false) :
    ∃ r, firstSharedElseLast (co.listDomainsForOrg cfg.orgGuid t.world).1.1 = some r ∧
      (findDefaultDomain co cfg t).value = some (.ok r) ∧
      (findDefaultDomain co cfg t).calls = t.calls ++ [.listDomainsForOrg cfg.orgGuid] := by
  obtain ⟨d, hd, _⟩ := h
  cases hl : (co.listDomainsForOrg cfg.orgGuid t.world).1.1 with
  | nil => rw [hl] at hd; cases hd
  | cons e rest =>
    obtain ⟨r, hr, hs⟩ := selectDefaultDomain_cons e rest
    refine ⟨r, hr, ?_, ?_⟩
    · simp [findDefaultDomain, bind_apply, call_apply, pure_apply, Outcome.value, hl, hs]
    · simp [findDefaultDomain, bind_apply, call_apply, pure_apply, Outcome.calls,
        Outcome.trace]

/-- C1, amended, at a listing of two domains that are not shared: the last one is
returned. -/
theorem findDefaultDomain_first_shared_else_last_witness :
    ∃ r, firstSharedElseLast twoPrivateRemote.domains = some r ∧
      ((findDefaultDomain faithful exampleConfig).runFrom twoPrivateRemote).value =
        some (.ok r) ∧
      ((findDefaultDomain faithful exampleConfig).runFrom twoPrivateRemote).calls =
        [] ++ [.listDomainsForOrg exampleConfig.orgGuid] :=
  findDefaultDomain_first_shared_else_last faithful exampleConfig
    { world := twoPrivateRemote, calls := [], ui := [] } ⟨privateDomain, by decide, rfl⟩

/-! ## Environment variables of an update -/

theorem mapGet_mapSet (m : GoMap) (k v k2 : String) :
    mapGet (mapSet m k v) k2 = if k = k2 then some v else mapGet m k2 := by
  induction m with
  | nil => simp [mapSet, mapGet]
  | cons e rest ih =>
    obtain ⟨k1, v1⟩ := e
    by_cases h1 : k1 = k
    · subst h1
      by_cases h2 : k1 = k2 <;> simp [mapSet, mapGet, h2]
    · by_cases h2 : k1 = k2
      · subst h2
        have : ¬ k = k1 := fun h => h1 h.symm
        simp [mapSet, mapGet, h1, this]
      · simp [mapSet, mapGet, h1, h2, ih]

theorem mapGet_mergeEnvironmentVars (existing incoming : GoMap) (k : String) :
    mapGet (mergeEnvironmentVars existing incoming) k =
      match mapGet incoming k with
      | some v => some v
      | none => mapGet existing k := by
  induction existing generalizing incoming with
  | nil => cases h : mapGet incoming k <;> simp [mergeEnvironmentVars, mapGet, h]
  | cons e rest ih =>
    obtain ⟨key, val⟩ := e
    cases hk : mapGet incoming key with
    | some v0 =>
      simp only [mergeEnvironmentVars, hk]
      rw [ih]
      cases h : mapGet incoming k with
      | some v => rfl
      | none =>
        have hne : ¬ key = k := fun e => by subst e; rw [hk] at h; cases h
        simp [mapGet, hne]
    | none =>
      simp only [mergeEnvironmentVars, hk]
      rw [ih, mapGet_mapSet]
      by_cases hkk : key = k
      · subst hkk
        simp [hk, mapGet]
      · simp only [hkk, if_false]
        cases h : mapGet incoming k <;> simp [mapGet, hkk]

/-- C2: for every environment `E` of the existing application and every present
incoming mapping `O`, `updateApp` makes one update call, on the identifier of the
application, whose parameters carry a mapping `M` with `M[k] = O[k]` for each key of
`O`, `M[k] = E[k]` for each key of `E` that `O` lacks, and no other key. -/
theorem updateApp_submits_merged_environment {W : Type} (co : Collaborators W) (cfg : Config)
    (app : Application) (appParams : AppParams) (O : GoMap) (t : Trace W)
    (hO : appParams.environmentVars = some O) :
    ∃ M submitted,
      (updateApp co cfg app appParams t).calls = t.calls ++ [.appUpdate app.guid submitted] ∧
      submitted = { appParams with environmentVars := some M } ∧
      (∀ k v, mapGet O k = some v → mapGet M k = some v) ∧
      (∀ k, mapGet O k = none → mapGet M k = mapGet app.environmentVars k) ∧
      (∀ k, (mapGet M k).isSome = ((mapGet app.environmentVars k).isSome || (mapGet O k).isSome)) := by
  refine ⟨mergeEnvironmentVars app.environmentVars O,
    { appParams with environmentVars := some (mergeEnvironmentVars app.environmentVars O) },
    ?_, rfl, ?_, ?_, ?_⟩
  · have hp : updateParams app appParams =
        { appParams with environmentVars := some (mergeEnvironmentVars app.environmentVars O) } := by
      simp [updateParams, hO]
    simp only [updateApp, bind_apply, Say, emit, call_apply, hp]
    cases (co.appUpdate app.guid
      { appParams with environmentVars := some (mergeEnvironmentVars app.environmentVars O) }
      t.world).1 <;>
      simp [Failed, Ok, emit, bind_apply, pure_apply, Outcome.calls, Outcome.trace]
  · intro k v h
    rw [mapGet_mergeEnvironmentVars, h]
  · intro k h
    rw [mapGet_mergeEnvironmentVars, h]
  · intro k
    rw [mapGet_mergeEnvironmentVars]
    cases mapGet O k <;> simp

/-- C2 at the environment `A:1, B:2` and the override `B:3, C:4`: the submitted
mapping agrees with `A:1, B:3, C:4`. -/
theorem updateApp_submits_merged_environment_witness :
    ∃ M submitted,
      ((updateApp faithful exampleConfig appWithEnv
          { namedParams "foo" with environmentVars := some envBC }).runFrom Remote.empty).calls =
        [] ++ [.appUpdate appWithEnv.guid submitted] ∧
      submitted = { namedParams "foo" with environmentVars := some M } ∧
      (∀ k v, mapGet envBC k = some v → mapGet M k = some v) ∧
      (∀ k, mapGet envBC k = none → mapGet M k = mapGet appWithEnv.environmentVars k) ∧
      (∀ k, (mapGet M k).isSome =
        ((mapGet appWithEnv.environmentVars k).isSome || (mapGet envBC k).isSome)) :=
  updateApp_submits_merged_environment faithful exampleConfig appWithEnv
    { namedParams "foo" with environmentVars := some envBC } envBC
    { world := Remote.empty, calls := [], ui := [] } rfl

/-! ## The set of applications to push -/

theorem error_message_ne_conflictingFlags (e : String) :
    "Error: " ++ e ≠ conflictingFlagsMessage := by
  intro h
  have hd := congrArg (fun x => x.data.head?) h
  have he : (("Error: " ++ e).data).head? = some 'E' := by
    rw [String.data_append]
    rfl
  have hc : conflictingFlagsMessage.data.head? = some 'I' := by decide
  simp only [he, hc] at hd
  revert hd
  decide

theorem isEmpty_without_name (c : AppParams) :
    ({ c with name := none } : AppParams).IsEmpty = true ↔
      (c.buildpackUrl = none ∧ c.command = none ∧ c.diskQuota = none ∧ c.domain = none ∧
       c.environmentVars = none ∧ c.healthCheckTimeout = none ∧ c.host = none ∧
       c.instanceCount = none ∧ c.memory = none ∧ c.noRoute = false ∧
       c.useRandomHostname = false ∧ c.servicesToBind = none ∧
       c.spaceGuid = none ∧ c.stackGuid = none ∧ c.stackName = none) := by
  cases c
  simp [AppParams.IsEmpty, AppParams.zero]

/-- C3: with two or more manifest entries, `createAppSetFromContextAndManifest` fails
with the conflicting-flags failure if and only if the command-line entry has a
present field or a set flag other than the name and the path. A command-line entry
whose only present field is the path is accepted: with a manifest of two entries the
merge returns, without a failure. -/
theorem createAppSet_conflicting_flags_iff {W : Type} (cfg : Config) (c : AppParams)
    (m1 m2 : AppParams) (rest : List AppParams) (t : Trace W) :
    ((createAppSetFromContextAndManifest cfg c (m1 :: m2 :: rest) t).failure =
        some conflictingFlagsMessage ↔
      (c.buildpackUrl ≠ none ∨ c.command ≠ none ∨ c.diskQuota ≠ none ∨ c.domain ≠ none ∨
       c.environmentVars ≠ none ∨ c.healthCheckTimeout ≠ none ∨ c.host ≠ none ∨
       c.instanceCount ≠ none ∨ c.memory ≠ none ∨ c.noRoute = true ∨
       c.useRandomHostname = true ∨ c.servicesToBind ≠ none ∨
       c.spaceGuid ≠ none ∨ c.stackGuid ≠ none ∨ c.stackName ≠ none)) ∧
    ((createAppSetFromContextAndManifest exampleConfig pathOnlyParams twoAppManifest).runFrom
      Remote.empty).failure = none ∧
    ((createAppSetFromContextAndManifest exampleConfig pathOnlyParams twoAppManifest).runFrom
      Remote.empty).value =
        some [withDefaultPath exampleConfig (namedParams "a"),
          withDefaultPath exampleConfig (namedParams "b")] := by
  refine ⟨?_, by decide, by decide⟩
  have hE := isEmpty_without_name c
  cases hI : ({ c with name := none } : AppParams).IsEmpty with
  | false =>
    have hl : (createAppSetFromContextAndManifest cfg c (m1 :: m2 :: rest) t).failure =
        some conflictingFlagsMessage := by
      simp [createAppSetFromContextAndManifest, hI, bind_apply, Failed, Outcome.failure]
    rw [hI] at hE
    simp only [hl, true_iff]
    by_contra hcon
    simp only [not_or, not_not, Bool.not_eq_true] at hcon
    exact absurd (hE.mpr hcon) (by simp)
  | true =>
    rw [hI] at hE
    have hall := hE.mp rfl
    have hr : ¬ (c.buildpackUrl ≠ none ∨ c.command ≠ none ∨ c.diskQuota ≠ none ∨
       c.domain ≠ none ∨ c.environmentVars ≠ none ∨ c.healthCheckTimeout ≠ none ∨
       c.host ≠ none ∨ c.instanceCount ≠ none ∨ c.memory ≠ none ∨ c.noRoute = true ∨
       c.useRandomHostname = true ∨ c.servicesToBind ≠ none ∨
       c.spaceGuid ≠ none ∨ c.stackGuid ≠ none ∨ c.stackName ≠ none) := by
      simp [hall]
    have hl : ¬ (createAppSetFromContextAndManifest cfg c (m1 :: m2 :: rest) t).failure =
        some conflictingFlagsMessage := by
      simp only [createAppSetFromContextAndManifest, hI]
      cases hn : c.name with
      | none => simp [pure_bind_apply, pure_apply, Outcome.failure]
      | some name =>
        cases hf : findAppWithNameInManifest name (m1 :: m2 :: rest) with
        | ok a => simp [pure_bind_apply, pure_apply, Outcome.failure, hf]
        | error e =>
          simp only [Bool.not_true, Bool.false_eq_true, if_false, pure_bind_apply, Failed,
            Outcome.failure, Option.some.injEq, hf]
          exact error_message_ne_conflictingFlags e
    exact ⟨fun h => absurd h hl, fun h => absurd h hr⟩

/-- C4, the run at the failing input: the manifest of the working directory has the
entries `a` and an entry without a name, and no name is given on the command line.
The merge returns both entries instead of failing; `Run` refreshes the token and
pushes `a` (application lookup and creation, route creation and binding, upload,
start) and only then fails, on the second entry, with `No name found for app`. -/
theorem run_pushes_before_missing_name :
    ((createAppSetFromContextAndManifest exampleConfig AppParams.zero
        unnamedSecondManifest).runFrom unnamedSecondRemote).value =
      some [appA, unnamedApp] ∧
    ((Run faithful exampleConfig Context.empty).runFrom unnamedSecondRemote).failure =
      some "Error: No name found for app" ∧
    ((Run faithful exampleConfig Context.empty).runFrom unnamedSecondRemote).calls =
      [.readManifest "/cwd", .refreshAuthToken, .appRead "a",
       .appCreate { appA with spaceGuid := some "space-guid" },
       .listDomainsForOrg "org-guid",
       .routeFindByHostAndDomain "a" "shared.example.com",
       .routeCreate "a" "shared-guid",
       .routeBind "route-guid+" "app-guid",
       .uploadApp "app-guid" "/a",
       .applicationStart
         { guid := "app-guid", name := "a", state := "stopped", instanceCount := 1,
           memory := 0, environmentVars := [], routes := [] }] := by
  decide!

/-! ## Restart -/

/-- C5, as stated, fails: the stopper fails and returns the zero application with its
error; the start call is made with that zero application, not with the started
application `restart` held before the stop call. -/
theorem restart_starts_what_the_stopper_returned :
    ((restart failingStop startedApp AppParams.zero Context.empty).runFrom Remote.empty).calls =
      [.applicationStop startedApp, .applicationStart Application.zero] ∧
    (failingStop.applicationStop startedApp Remote.empty).1.2 = some (.other "stop failed") ∧
    Application.zero ≠ startedApp := by
  decide!

/-- C5, amended: if the stop call made by `restart` fails, the error is swallowed
(`restart` goes on and ends without a failure) and the application value passed to
the start call is the value the stopper returned together with the error. -/
theorem restart_swallows_stop_error {W : Type} (co : Collaborators W) (app : Application)
    (params : AppParams) (c : Context) (t : Trace W) (e : ApiError)
    (hstate : app.state ≠ "stopped") (hstart : c.noStart = false)
    (_herr : (co.applicationStop app t.world).1.2 = some e) :
    (restart co app params c t).failure = none ∧
    (restart co app params c t).value = some () ∧
    (restart co app params c t).calls =
      t.calls ++ [.applicationStop app] ++
        (match params.healthCheckTimeout with
          | some timeout => [.setStartTimeoutInSeconds timeout]
          | none => []) ++
        [.applicationStart (co.applicationStop app t.world).1.1] := by
  cases ht : params.healthCheckTimeout <;>
    simp [restart, hstate, hstart, ht, bind_apply, pure_apply, call_apply, callUnit, Say, emit,
      Outcome.failure, Outcome.value, Outcome.calls, Outcome.trace]

/-- C5, amended, at a stopper that fails and returns the zero application. -/
theorem restart_swallows_stop_error_witness :
    ((restart failingStop startedApp AppParams.zero Context.empty).runFrom
        Remote.empty).failure = none ∧
    ((restart failingStop startedApp AppParams.zero Context.empty).runFrom
        Remote.empty).value = some () ∧
    ((restart failingStop startedApp AppParams.zero Context.empty).runFrom
        Remote.empty).calls =
      [] ++ [.applicationStop startedApp] ++ [] ++ [.applicationStart Application.zero] :=
  restart_swallows_stop_error failingStop startedApp AppParams.zero Context.empty
    { world := Remote.empty, calls := [], ui := [] } (.other "stop failed")
    (by decide) rfl rfl

/-! ## Removing routes -/

/-- C6, the run at the failing input: `push foo --no-route` for an application with
two bound routes, against a route repository whose unbind call fails. The failure
is not reported and nothing is aborted: the second unbind, the upload, the stop and
the start call follow, and the run ends without a failure. -/
theorem run_goes_on_after_failed_unbind :
    (failingUnbind.routeUnbind "route-1" "app-guid" twoRoutesRemote).1 =
      some (.other "unbind failed") ∧
    ((Run failingUnbind exampleConfig pushFooNoRoute).runFrom twoRoutesRemote).failure = none ∧
    ((Run failingUnbind exampleConfig pushFooNoRoute).runFrom twoRoutesRemote).calls =
      [.readManifest "/cwd", .refreshAuthToken, .appRead "foo",
       .appUpdate "app-guid"
         { namedParams "foo" with noRoute := true, path := some "/cwd" },
       .routeUnbind "route-1" "app-guid",
       .routeUnbind "route-2" "app-guid",
       .uploadApp "app-guid" "/cwd",
       .applicationStop fooWithTwoRoutes,
       .applicationStart { fooWithTwoRoutes with state := "stopped" }] ∧
    (∀ msg, UiEvent.failed msg ∉
      ((Run failingUnbind exampleConfig pushFooNoRoute).runFrom twoRoutesRemote).trace.ui) := by
  refine ⟨by decide!, by decide!, by decide!, ?_⟩
  intro msg
  have h : ((Run failingUnbind exampleConfig pushFooNoRoute).runFrom twoRoutesRemote).trace.ui =
      [.say "Updating app foo in org org / space space as user...", .ok, .say "",
       .say "Removing route foo.shared.example.com...",
       .say "Removing route bar.shared.example.com...",
       .say "Uploading foo...", .ok, .say "", .say ""] := by decide!
  rw [h]
  simp

/-! ## One manifest entry, no manifest entry, many manifest entries -/

theorem addApp_fst (cfg : Config) (app : AppParams) :
    (addApp cfg [] app).1 = [withDefaultPath cfg app] := by
  cases hp : app.path <;> simp [addApp, withDefaultPath, hp]

theorem addApp_snd (cfg : Config) (apps : List AppParams) (app : AppParams) :
    (addApp cfg apps app).2 =
      match app.name with
      | some _ => none
      | none => some "App name is a required field" := by
  cases hn : app.name <;> simp [addApp, hn]

theorem addApp_append (cfg : Config) (apps : List AppParams) (app : AppParams) :
    (addApp cfg apps app).1 = apps ++ [withDefaultPath cfg app] := by
  cases hp : app.path <;> simp [addApp, withDefaultPath, hp]

theorem addAllApps_eq (cfg : Config) (apps manifestApps : List AppParams) :
    addAllApps cfg apps manifestApps = apps ++ manifestApps.map (withDefaultPath cfg) := by
  induction manifestApps generalizing apps with
  | nil => simp [addAllApps]
  | cons m rest ih => simp [addAllApps, ih, addApp_append]

theorem withDefaultPath_name (cfg : Config) (app : AppParams) :
    (withDefaultPath cfg app).name = app.name := by
  cases hp : app.path <;> simp [withDefaultPath, hp]

theorem withDefaultPath_fields (cfg : Config) (a : AppParams) :
    (withDefaultPath cfg a).name = a.name ∧
    (withDefaultPath cfg a).buildpackUrl = a.buildpackUrl ∧
    (withDefaultPath cfg a).command = a.command ∧
    (withDefaultPath cfg a).diskQuota = a.diskQuota ∧
    (withDefaultPath cfg a).domain = a.domain ∧
    (withDefaultPath cfg a).environmentVars = a.environmentVars ∧
    (withDefaultPath cfg a).healthCheckTimeout = a.healthCheckTimeout ∧
    (withDefaultPath cfg a).host = a.host ∧
    (withDefaultPath cfg a).instanceCount = a.instanceCount ∧
    (withDefaultPath cfg a).memory = a.memory ∧
    (withDefaultPath cfg a).noRoute = a.noRoute ∧
    (withDefaultPath cfg a).useRandomHostname = a.useRandomHostname ∧
    (withDefaultPath cfg a).path = (match a.path with
      | some p => some p
      | none => some cfg.cwd) ∧
    (withDefaultPath cfg a).servicesToBind = a.servicesToBind ∧
    (withDefaultPath cfg a).spaceGuid = a.spaceGuid ∧
    (withDefaultPath cfg a).stackGuid = a.stackGuid ∧
    (withDefaultPath cfg a).stackName = a.stackName := by
  cases hp : a.path <;> simp [withDefaultPath, hp]

theorem findAppWithNameInManifest_eq (name : String) (manifestApps : List AppParams) :
    findAppWithNameInManifest name manifestApps =
      match manifestApps.find? (fun e => decide (e.name = some name)) with
      | some e => .ok e
      | none => .error ("Could not find app named '" ++ name ++ "' in manifest") := by
  induction manifestApps with
  | nil => simp [findAppWithNameInManifest]
  | cons m rest ih =>
    by_cases h : m.name = some name
    · simp [findAppWithNameInManifest, h]
    · simp [findAppWithNameInManifest, h, ih, List.find?]

/-- C8, as stated, fails: with one manifest entry that has no name and a command
line that gives none, no set of applications is returned (the merge fails with the
missing-name failure); and with a manifest entry and a command line that both leave
the path unset, the path of the returned entry is the working directory, not the
absent value of the manifest. -/
theorem createAppSet_one_entry_not_fieldwise :
    ((createAppSetFromContextAndManifest exampleConfig AppParams.zero
        [AppParams.zero]).runFrom Remote.empty).value = none ∧
    ((createAppSetFromContextAndManifest exampleConfig AppParams.zero
        [AppParams.zero]).runFrom Remote.empty).failure = some missingNameMessage ∧
    ((createAppSetFromContextAndManifest exampleConfig AppParams.zero
        [namedParams "a"]).runFrom Remote.empty).value =
      some [{ namedParams "a" with path := some "/cwd" }] ∧
    (namedParams "a").path = none ∧ AppParams.zero.path = none := by
  decide!

/-- C8, amended: with exactly one manifest entry `m` and a command-line entry `c`,
when neither has a name the merge fails with the missing-name failure; otherwise it
returns a set of one entry that has, for every field, the value of `c` when `c` sets
the field and the value of `m` when `c` leaves it unset, except that a path absent
from both is the working directory. -/
theorem createAppSet_one_entry {W : Type} (cfg : Config) (c m : AppParams) (t : Trace W) :
    match cliElseManifest c.name m.name with
    | none =>
      (createAppSetFromContextAndManifest cfg c [m] t).failure = some missingNameMessage ∧
      (createAppSetFromContextAndManifest cfg c [m] t).value = none
    | some name =>
      ∃ e, createAppSetFromContextAndManifest cfg c [m] t = .done [e] t ∧
        e.name = some name ∧
        e.buildpackUrl = cliElseManifest c.buildpackUrl m.buildpackUrl ∧
        e.command = cliElseManifest c.command m.command ∧
        e.diskQuota = cliElseManifest c.diskQuota m.diskQuota ∧
        e.domain = cliElseManifest c.domain m.domain ∧
        e.environmentVars = cliElseManifest c.environmentVars m.environmentVars ∧
        e.healthCheckTimeout = cliElseManifest c.healthCheckTimeout m.healthCheckTimeout ∧
        e.host = cliElseManifest c.host m.host ∧
        e.instanceCount = cliElseManifest c.instanceCount m.instanceCount ∧
        e.memory = cliElseManifest c.memory m.memory ∧
        e.noRoute = (if c.noRoute then true else m.noRoute) ∧
        e.useRandomHostname = (if c.useRandomHostname then true else m.useRandomHostname) ∧
        e.path = (match cliElseManifest c.path m.path with
          | some p => some p
          | none => some cfg.cwd) ∧
        e.servicesToBind = cliElseManifest c.servicesToBind m.servicesToBind ∧
        e.spaceGuid = cliElseManifest c.spaceGuid m.spaceGuid ∧
        e.stackGuid = cliElseManifest c.stackGuid m.stackGuid ∧
        e.stackName = cliElseManifest c.stackName m.stackName := by
  have hov : ∀ {α : Type} (x y : Option α), override x y = cliElseManifest x y := by
    intro α x y
    cases x <;> simp [override, cliElseManifest]
  have hname : (m.Merge c).name = cliElseManifest c.name m.name := by
    simp [AppParams.Merge, hov]
  cases hn : cliElseManifest c.name m.name with
  | none =>
    rw [hn] at hname
    simp [createAppSetFromContextAndManifest, addApp, hname, bind_apply, pure_bind_apply,
      Failed, Outcome.failure, Outcome.value, missingNameMessage]
  | some name =>
    rw [hn] at hname
    refine ⟨withDefaultPath cfg (m.Merge c), ?_, ?_⟩
    · have h1 := addApp_fst cfg (m.Merge c)
      have h2 := addApp_snd cfg [] (m.Merge c)
      rw [hname] at h2
      simp only [createAppSetFromContextAndManifest, pure_bind_apply]
      rw [show addApp cfg [] (m.Merge c) = ((addApp cfg [] (m.Merge c)).1,
        (addApp cfg [] (m.Merge c)).2) from rfl, h1, h2]
      rfl
    · obtain ⟨h1, h2, h3, h4, h5, h6, h7, h8, h9, h10, h11, h12, h13, h14, h15, h16, h17⟩ :=
        withDefaultPath_fields cfg (m.Merge c)
      rw [h1, h2, h3, h4, h5, h6, h7, h8, h9, h10, h11, h12, h13, h14, h15, h16, h17]
      simp only [AppParams.Merge, hov, hn, true_and]
      refine ⟨?_, ?_, ?_⟩
      · cases c.noRoute <;> simp
      · cases c.useRandomHostname <;> simp
      · trivial

/-- C10: with no manifest entry, `createAppSetFromContextAndManifest` returns the set
of one entry holding the command-line entry (its path the working directory when
absent) when that entry has a name, and fails with the missing-name failure when it
has none; so it fails that way if and only if the entry has no name. -/
theorem createAppSet_no_manifest_entry {W : Type} (cfg : Config) (c : AppParams)
    (t : Trace W) :
    (createAppSetFromContextAndManifest cfg c [] t =
      match c.name with
      | some _ => .done [withDefaultPath cfg c] t
      | none =>
        .aborted missingNameMessage
          { world := t.world, calls := t.calls, ui := t.ui ++ [.failed missingNameMessage] }) ∧
    ((createAppSetFromContextAndManifest cfg c [] t).failure = some missingNameMessage ↔
      c.name = none) := by
  have h1 := addApp_fst cfg c
  have h2 := addApp_snd cfg [] c
  have hrun : createAppSetFromContextAndManifest cfg c [] t =
      match c.name with
      | some _ => .done [withDefaultPath cfg c] t
      | none =>
        .aborted missingNameMessage
          { world := t.world, calls := t.calls, ui := t.ui ++ [.failed missingNameMessage] } := by
    simp only [createAppSetFromContextAndManifest, pure_bind_apply]
    rw [show addApp cfg [] c = ((addApp cfg [] c).1, (addApp cfg [] c).2) from rfl, h1, h2]
    cases hn : c.name <;> rfl
  refine ⟨hrun, ?_⟩
  rw [hrun]
  cases hn : c.name <;> simp [Outcome.failure]

/-- C9: with two or more manifest entries and a command-line entry without a
forbidden override (no field but, possibly, the name and the path is present, and no
flag is set): when a name is given, the set is the one entry that is the first
manifest entry with exactly that name (its path the working directory when absent),
and the merge fails with the not-found-in-manifest failure if and only if no
manifest entry has that name; when no name is given, the set is all manifest entries
in manifest order (same length, same names at the same positions). The path of the
command-line entry is not looked at. -/
theorem createAppSet_many_entries {W : Type} (cfg : Config) (c : AppParams)
    (m1 m2 : AppParams) (rest : List AppParams) (t : Trace W)
    (hallowed : c.buildpackUrl = none ∧ c.command = none ∧ c.diskQuota = none ∧
      c.domain = none ∧ c.environmentVars = none ∧ c.healthCheckTimeout = none ∧
      c.host = none ∧ c.instanceCount = none ∧ c.memory = none ∧ c.noRoute = false ∧
      c.useRandomHostname = false ∧ c.servicesToBind = none ∧ c.spaceGuid = none ∧
      c.stackGuid = none ∧ c.stackName = none) :
    match c.name with
    | some name =>
      (match (m1 :: m2 :: rest).find? (fun e => decide (e.name = some name)) with
        | some e =>
          createAppSetFromContextAndManifest cfg c (m1 :: m2 :: rest) t =
            .done [withDefaultPath cfg e] t
        | none =>
          (createAppSetFromContextAndManifest cfg c (m1 :: m2 :: rest) t).value = none) ∧
      ((createAppSetFromContextAndManifest cfg c (m1 :: m2 :: rest) t).failure =
          some (appNotFoundMessage name) ↔
        ∀ e ∈ m1 :: m2 :: rest, e.name ≠ some name)
    | none =>
      ∃ apps, createAppSetFromContextAndManifest cfg c (m1 :: m2 :: rest) t = .done apps t ∧
        apps = (m1 :: m2 :: rest).map (withDefaultPath cfg) ∧
        apps.length = (m1 :: m2 :: rest).length ∧
        apps.map (fun e => e.name) = (m1 :: m2 :: rest).map (fun e => e.name) := by
  have hflags : ({ c with name := none } : AppParams).IsEmpty = true :=
    (isEmpty_without_name c).mpr hallowed
  cases hn : c.name with
  | none =>
    refine ⟨(m1 :: m2 :: rest).map (withDefaultPath cfg), ?_, rfl, by simp, ?_⟩
    · simp only [createAppSetFromContextAndManifest, hflags, hn, pure_bind_apply]
      simp only [addAllApps_eq, List.nil_append]
      rfl
    · simp [withDefaultPath_name]
  | some name =>
    have hrun : createAppSetFromContextAndManifest cfg c (m1 :: m2 :: rest) t =
        match (m1 :: m2 :: rest).find? (fun e => decide (e.name = some name)) with
        | some e => .done [withDefaultPath cfg e] t
        | none =>
          .aborted (appNotFoundMessage name)
            { world := t.world, calls := t.calls,
              ui := t.ui ++ [.failed (appNotFoundMessage name)] } := by
      simp only [createAppSetFromContextAndManifest, hflags, hn]
      rw [findAppWithNameInManifest_eq]
      cases hf : (m1 :: m2 :: rest).find? (fun e => decide (e.name = some name)) with
      | none =>
        simp [pure_bind_apply, Failed, appNotFoundMessage]
      | some e =>
        simp [pure_bind_apply, pure_apply, addApp_fst]
    rw [hrun]
    cases hf : (m1 :: m2 :: rest).find? (fun e => decide (e.name = some name)) with
    | none =>
      simp only [hf]
      refine ⟨rfl, ?_⟩
      have hall := List.find?_eq_none.mp hf
      simp only [Outcome.failure, true_iff]
      intro e he
      simpa using hall e he
    | some e =>
      simp only [hf]
      refine ⟨trivial, ?_⟩
      have hmem := List.mem_of_find?_eq_some hf
      have hp := List.find?_some hf
      simp only [Outcome.failure, false_iff, reduceCtorEq]
      intro hall
      exact hall e hmem (by simpa using hp)

/-- C9 at a manifest of three entries, two of them named `b`, and the command line
`push b -p /app`: the first entry named `b` is the one selected. -/
theorem createAppSet_many_entries_witness :
    (match threeAppManifest.find? (fun e => decide (e.name = some "b")) with
      | some e =>
        (createAppSetFromContextAndManifest exampleConfig namedWithPath
            threeAppManifest).runFrom Remote.empty =
          .done [withDefaultPath exampleConfig e] { world := Remote.empty, calls := [], ui := [] }
      | none =>
        ((createAppSetFromContextAndManifest exampleConfig namedWithPath
            threeAppManifest).runFrom Remote.empty).value = none) ∧
    (((createAppSetFromContextAndManifest exampleConfig namedWithPath
          threeAppManifest).runFrom Remote.empty).failure = some (appNotFoundMessage "b") ↔
      ∀ e ∈ threeAppManifest, e.name ≠ some "b") :=
  createAppSet_many_entries exampleConfig namedWithPath (namedParams "a")
    { namedParams "b" with memory := some 1 } [{ namedParams "b" with memory := some 2 }]
    { world := Remote.empty, calls := [], ui := [] } (by decide)

/-! ## Pushing twice -/

/-- C7, as stated, fails: `push foo --random-route -d shared.example.com` is run twice
against the recording remote state, the second time on the state the first left. The
word generator gives another token the second time, so the second push also makes
one route-creation call and one bind call. -/
theorem second_push_with_random_route_creates_again :
    routeCreations ((Run faithful exampleConfig pushFooRandomRoute).runFrom freshRemote).calls = 1 ∧
    routeBinds ((Run faithful exampleConfig pushFooRandomRoute).runFrom freshRemote).calls = 1 ∧
    routeCreations ((Run faithful exampleConfig pushFooRandomRoute).runFrom
      ((Run faithful exampleConfig pushFooRandomRoute).runFrom freshRemote).world).calls = 1 ∧
    routeBinds ((Run faithful exampleConfig pushFooRandomRoute).runFrom
      ((Run faithful exampleConfig pushFooRandomRoute).runFrom freshRemote).world).calls = 1 ∧
    Call.routeCreate "foo-beta" "shared-guid" ∈ ((Run faithful exampleConfig pushFooRandomRoute).runFrom
      ((Run faithful exampleConfig pushFooRandomRoute).runFrom freshRemote).world).calls := by
  decide!

theorem firstSharedElseLast_mem (domains : List DomainFields) (d : DomainFields)
    (h : firstSharedElseLast domains = some d) : d ∈ domains := by
  unfold firstSharedElseLast at h
  cases hf : firstShared domains with
  | some s =>
    rw [hf] at h
    cases h
    exact List.mem_of_find?_eq_some hf
  | none =>
    rw [hf] at h
    exact List.mem_of_getLast?_eq_some h

theorem selectDefaultDomain_mem (domains : List DomainFields) (d : DomainFields)
    (h : selectDefaultDomain domains = .ok d) : d ∈ domains := by
  cases domains with
  | nil => simp [selectDefaultDomain, visitDomains] at h
  | cons e rest =>
    obtain ⟨r, hr, hs⟩ := selectDefaultDomain_cons e rest
    rw [hs] at h
    cases h
    exact firstSharedElseLast_mem _ _ hr

theorem findDomain_faithful (cfg : Config) (params : AppParams) (t ta : Trace Remote)
    (d : DomainFields) (h : findDomain faithful cfg params t = .done d ta) :
    d ∈ t.world.domains ∧
      ∀ t2 : Trace Remote, t2.world.domains = t.world.domains →
        findDomain faithful cfg params t2 =
          .done d { world := t2.world, calls := t2.calls ++ [domainCall cfg params], ui := t2.ui } := by
  cases hd : params.domain with
  | some name =>
    simp only [findDomain, hd, bind_apply, call_apply, faithful] at h
    cases hf : t.world.domains.find? (fun d => decide (d.name = name)) with
    | none => simp [hf, Failed] at h
    | some d0 =>
      simp only [hf, pure_apply, Outcome.done.injEq] at h
      obtain ⟨hd0, _⟩ := h
      subst hd0
      refine ⟨List.mem_of_find?_eq_some hf, ?_⟩
      intro t2 h2
      simp [findDomain, hd, bind_apply, call_apply, faithful, h2, hf, pure_apply, domainCall]
  | none =>
    simp only [findDomain, hd, findDefaultDomain, bind_apply, call_apply, faithful,
      pure_apply] at h
    cases hs : selectDefaultDomain t.world.domains with
    | error e => simp [hs, Failed] at h
    | ok d0 =>
      simp only [hs] at h
      by_cases hg : d0.guid = ""
      · simp [hg, Failed] at h
      · simp only [hg, if_false, pure_apply, Outcome.done.injEq] at h
        obtain ⟨hd0, _⟩ := h
        subst hd0
        refine ⟨selectDefaultDomain_mem _ _ hs, ?_⟩
        intro t2 h2
        simp [findDomain, hd, findDefaultDomain, bind_apply, call_apply, faithful, h2, hs,
          pure_apply, domainCall, hg]

theorem hostnameForApp_fixed {W : Type} (co : Collaborators W) (params : AppParams)
    (c : Context) (t tb : Trace W) (h : String)
    (hfixed : c.noHostname = true ∨ params.host ≠ none ∨ params.useRandomHostname = false)
    (hrun : hostnameForApp co params c t = .done h tb) :
    ∀ t2 : Trace W, hostnameForApp co params c t2 = .done h t2 := by
  intro t2
  unfold hostnameForApp at hrun ⊢
  cases hn : c.noHostname with
  | true =>
    simp only [hn, if_true, pure_apply, Outcome.done.injEq] at hrun ⊢
    exact ⟨hrun.1, trivial⟩
  | false =>
    simp only [hn, Bool.false_eq_true, if_false] at hrun ⊢
    cases hh : params.host with
    | some host =>
      simp only [hh, pure_apply, Outcome.done.injEq] at hrun ⊢
      exact ⟨hrun.1, trivial⟩
    | none =>
      have hr : params.useRandomHostname = false := by
        rcases hfixed with h1 | h1 | h1
        · rw [hn] at h1; cases h1
        · exact absurd hh h1
        · exact h1
      simp only [hh, hr, Bool.false_eq_true, if_false] at hrun ⊢
      cases hname : params.name with
      | none => simp [hname, bind_apply, deref] at hrun
      | some name =>
        simp only [hname, bind_apply, deref, pure_apply, Outcome.done.injEq] at hrun ⊢
        exact ⟨hrun.1, trivial⟩

theorem find_domain_by_guid (domains : List DomainFields) (d : DomainFields)
    (hguids : (domains.map (fun x => x.guid)).Nodup) (hd : d ∈ domains) :
    domains.find? (fun x => decide (x.guid = d.guid)) = some d := by
  induction domains with
  | nil => cases hd
  | cons e rest ih =>
    simp only [List.map_cons, List.nodup_cons] at hguids
    rcases List.mem_cons.mp hd with h | h
    · subst h
      simp [List.find?]
    · have hne : e.guid ≠ d.guid := by
        intro he
        apply hguids.1
        rw [he]
        exact List.mem_map_of_mem (fun x => x.guid) h
      simp [List.find?, hne, ih hguids.2 h]

theorem created_route_bound (w : Remote) (host : String) (d : DomainFields) (appGuid : String) :
    (createdRoute w host d).summary ∈ (afterCreateAndBind w host d appGuid).routesOf appGuid := by
  simp only [Remote.routesOf, afterCreateAndBind, List.mem_map, List.mem_filter]
  refine ⟨createdRoute w host d, ⟨?_, ?_⟩, rfl⟩
  · simp
  · simp

theorem hasRoute_of_mem (app : Application) (r : Route) (h : r.summary ∈ app.routes) :
    app.HasRoute r = true := by
  simp only [Application.HasRoute, List.any_eq_true]
  exact ⟨r.summary, h, by simp [Route.summary]⟩

theorem first_push_creates_and_binds (cfg : Config) (w0 : Remote) (a : Application)
    (params : AppParams) (c : Context) (d : DomainFields) (h : String) (ta tb : Trace Remote)
    (hnoRoute : params.noRoute = false)
    (hfixed : c.noHostname = true ∨ params.host ≠ none ∨ params.useRandomHostname = false)
    (hguids : (w0.domains.map (fun x => x.guid)).Nodup)
    (hunbound : w0.routesOf a.guid = [])
    (hdomain : findDomain faithful cfg params (startAt w0) = .done d ta)
    (hhost : hostnameForApp faithful params c ta = .done h tb)
    (habsent : ∀ r ∈ w0.routes, ¬ (r.host = h ∧ r.domain.name = d.name)) :
    bindAppToRoute faithful cfg (w0.view a) params c (startAt w0) =
      .done ()
        { world := afterCreateAndBind w0 h d a.guid
          calls := [domainCall cfg params, .routeFindByHostAndDomain h d.name,
            .routeCreate h d.guid, .routeBind (createdRoute w0 h d).guid a.guid]
          ui := [.say ("Creating route " ++ d.UrlForHost h ++ "..."), .ok, .say "",
            .say ("Binding " ++ d.UrlForHost h ++ " to " ++ a.name ++ "..."), .ok, .say ""] } := by
  obtain ⟨hmem, hdom⟩ := findDomain_faithful cfg params _ _ _ hdomain
  have hh := hostnameForApp_fixed faithful params c ta tb h hfixed hhost
  have hd0 := hdom { world := w0, calls := [], ui := [] } rfl
  have hfind : w0.routes.find? (fun r => decide (r.host = h) && decide (r.domain.name = d.name)) =
      none := by
    rw [List.find?_eq_none]
    intro r hr
    simpa using habsent r hr
  have hguid : w0.domains.find? (fun x => decide (x.guid = d.guid)) = some d :=
    find_domain_by_guid _ _ hguids hmem
  have hhas : (w0.view a).HasRoute (createdRoute w0 h d) = false := by
    simp [Application.HasRoute, Remote.view, hunbound]
  unfold bindAppToRoute
  simp only [hnoRoute, Bool.false_eq_true, if_false, Remote.view, hunbound, List.length_nil,
    gt_iff_lt, lt_self_iff_false, decide_False, Bool.false_and, bind_apply, hd0, hh,
    call_apply, startAt]
  simp [faithful, hfind, hguid, bind_apply, call_apply, Say, Ok, emit, pure_apply,
    Application.HasRoute, createdRoute, afterCreateAndBind]

theorem second_push_is_silent (cfg : Config) (w0 : Remote) (a : Application)
    (params : AppParams) (c : Context) (d : DomainFields) (h : String) (ta tb : Trace Remote)
    (hnoRoute : params.noRoute = false)
    (hfixed : c.noHostname = true ∨ params.host ≠ none ∨ params.useRandomHostname = false)
    (hdomain : findDomain faithful cfg params (startAt w0) = .done d ta)
    (hhost : hostnameForApp faithful params c ta = .done h tb)
    (habsent : ∀ r ∈ w0.routes, ¬ (r.host = h ∧ r.domain.name = d.name)) :
    ∃ t2, bindAppToRoute faithful cfg ((afterCreateAndBind w0 h d a.guid).view a) params c
        (startAt (afterCreateAndBind w0 h d a.guid)) = .done () t2 ∧
      routeCreations t2.calls = 0 ∧ routeBinds t2.calls = 0 := by
  obtain ⟨_, hdom⟩ := findDomain_faithful cfg params _ _ _ hdomain
  have hh := hostnameForApp_fixed faithful params c ta tb h hfixed hhost
  have hd1 := hdom { world := afterCreateAndBind w0 h d a.guid, calls := [], ui := [] } rfl
  have hbound := created_route_bound w0 h d a.guid
  have hlen : 0 < ((afterCreateAndBind w0 h d a.guid).routesOf a.guid).length :=
    List.length_pos_of_mem hbound
  have hfind0 : w0.routes.find? (fun r => decide (r.host = h) && decide (r.domain.name = d.name)) =
      none := by
    rw [List.find?_eq_none]
    intro r hr
    simpa using habsent r hr
  have hfind : (afterCreateAndBind w0 h d a.guid).routes.find?
      (fun r => decide (r.host = h) && decide (r.domain.name = d.name)) =
      some (createdRoute w0 h d) := by
    simp [afterCreateAndBind, List.find?_append, hfind0, createdRoute, List.find?]
  have hhas : ((afterCreateAndBind w0 h d a.guid).view a).HasRoute (createdRoute w0 h d) = true :=
    hasRoute_of_mem _ _ hbound
  by_cases hflags : (c.n ≠ "" || c.d ≠ "" || c.noHostname) = true
  · refine ⟨{ world := afterCreateAndBind w0 h d a.guid
              calls := [domainCall cfg params, .routeFindByHostAndDomain h d.name]
              ui := [.say ("Using route " ++ (createdRoute w0 h d).URL)] }, ?_, ?_, ?_⟩
    · unfold bindAppToRoute
      simp only [hnoRoute, Bool.false_eq_true, if_false, hflags, Bool.not_true, Bool.and_false,
        bind_apply, startAt, hd1, hh, call_apply]
      have hq : (faithful.routeFindByHostAndDomain h d.name (afterCreateAndBind w0 h d a.guid)) =
          (.ok (createdRoute w0 h d), afterCreateAndBind w0 h d a.guid) := by
        simp only [faithful, hfind]
      simp [hq, hhas, bind_apply, Say, emit, pure_apply]
    · cases hp : params.domain <;> simp [routeCreations, domainCall, hp, Call.isRouteCreate]
    · cases hp : params.domain <;> simp [routeBinds, domainCall, hp, Call.isRouteBind]
  · refine ⟨startAt (afterCreateAndBind w0 h d a.guid), ?_, by simp [routeCreations, startAt],
      by simp [routeBinds, startAt]⟩
    have hf : (c.n ≠ "" || c.d ≠ "" || c.noHostname) = false := by
      simpa using hflags
    unfold bindAppToRoute
    simp only [hnoRoute, Bool.false_eq_true, if_false, hf, Bool.not_false, Bool.and_true,
      Remote.view, gt_iff_lt, hlen, decide_True, if_true, pure_apply]

/-- C7, amended: against the recording remote state with unique domain identifiers,
for an application without bound routes, a push without no-route whose host name is
not a random one (no-hostname, an explicit host, or no random-hostname flag) and
whose route (host, domain) does not exist yet: the first `bindAppToRoute` makes
exactly one route-creation call and exactly one bind call; run again on the state it
left, with the application as that state reports it, `bindAppToRoute` makes no
route-creation call and no bind call when the same flags are repeated, and no call
at all when the routing flags (`-n`, `-d`, `--no-hostname`) are omitted. -/
theorem bindAppToRoute_twice_creates_and_binds_once (cfg : Config) (w0 : Remote)
    (a : Application) (params : AppParams) (c : Context) (d : DomainFields) (h : String)
    (ta tb : Trace Remote)
    (hnoRoute : params.noRoute = false)
    (hfixed : c.noHostname = true ∨ params.host ≠ none ∨ params.useRandomHostname = false)
    (hguids : (w0.domains.map (fun x => x.guid)).Nodup)
    (hunbound : w0.routesOf a.guid = [])
    (hdomain : findDomain faithful cfg params (startAt w0) = .done d ta)
    (hhost : hostnameForApp faithful params c ta = .done h tb)
    (habsent : ∀ r ∈ w0.routes, ¬ (r.host = h ∧ r.domain.name = d.name)) :
    ∃ t1, bindAppToRoute faithful cfg (w0.view a) params c (startAt w0) = .done () t1 ∧
      routeCreations t1.calls = 1 ∧ routeBinds t1.calls = 1 ∧
      (∃ t2, bindAppToRoute faithful cfg (t1.world.view a) params c (startAt t1.world) =
          .done () t2 ∧
        routeCreations t2.calls = 0 ∧ routeBinds t2.calls = 0) ∧
      (∀ (params2 : AppParams) (c2 : Context), params2.noRoute = false → c2.n = "" →
        c2.d = "" → c2.noHostname = false →
        bindAppToRoute faithful cfg (t1.world.view a) params2 c2 (startAt t1.world) =
          .done () (startAt t1.world)) := by
  have hfirst := first_push_creates_and_binds cfg w0 a params c d h ta tb hnoRoute hfixed
    hguids hunbound hdomain hhost habsent
  refine ⟨_, hfirst, ?_, ?_, ?_, ?_⟩
  · cases hp : params.domain <;> simp [routeCreations, domainCall, hp, Call.isRouteCreate]
  · cases hp : params.domain <;> simp [routeBinds, domainCall, hp, Call.isRouteBind]
  · exact second_push_is_silent cfg w0 a params c d h ta tb hnoRoute hfixed hdomain hhost habsent
  · intro params2 c2 hn2 h1 h2 h3
    have hlen : 0 < ((afterCreateAndBind w0 h d a.guid).routesOf a.guid).length :=
      List.length_pos_of_mem (created_route_bound w0 h d a.guid)
    unfold bindAppToRoute
    simp only [hn2, Bool.false_eq_true, if_false, h1, h2, h3, ne_eq, not_true_eq_false,
      decide_False, Bool.or_self, Bool.not_false, Bool.and_true, Remote.view, gt_iff_lt, hlen,
      decide_True, if_true, pure_apply]

/-- C7, amended, at `push foo -n www -d shared.example.com` for the stopped
application `foo` without routes. -/
theorem bindAppToRoute_twice_creates_and_binds_once_witness :
    ∃ t1, bindAppToRoute faithful exampleConfig (unroutedRemote.view stoppedApp)
        fooWithHostParams pushFooWithHost (startAt unroutedRemote) = .done () t1 ∧
      routeCreations t1.calls = 1 ∧ routeBinds t1.calls = 1 ∧
      (∃ t2, bindAppToRoute faithful exampleConfig (t1.world.view stoppedApp)
          fooWithHostParams pushFooWithHost (startAt t1.world) = .done () t2 ∧
        routeCreations t2.calls = 0 ∧ routeBinds t2.calls = 0) ∧
      (∀ (params2 : AppParams) (c2 : Context), params2.noRoute = false → c2.n = "" →
        c2.d = "" → c2.noHostname = false →
        bindAppToRoute faithful exampleConfig (t1.world.view stoppedApp) params2 c2
            (startAt t1.world) =
          .done () (startAt t1.world)) :=
  bindAppToRoute_twice_creates_and_binds_once exampleConfig unroutedRemote stoppedApp
    fooWithHostParams pushFooWithHost sharedDomain "www"
    { world := unroutedRemote, calls := [.domainFindByNameInOrg "shared.example.com" "org-guid"],
      ui := [] }
    { world := unroutedRemote, calls := [.domainFindByNameInOrg "shared.example.com" "org-guid"],
      ui := [] }
    rfl (Or.inr (Or.inl (by decide))) (by decide) (by decide) (by decide!) (by decide!)
    (by decide)

/-! ## Host names -/

theorem char_eq_iff_toNat (c d : Char) : c = d ↔ c.toNat = d.toNat := by
  constructor
  · intro h
    rw [h]
  · intro h
    apply Char.ext
    apply UInt32.ext
    exact h

theorem isAllowedHostChar_iff (c : Char) :
    isAllowedHostChar c = true ↔
      (97 ≤ c.toNat ∧ c.toNat ≤ 122) ∨ (48 ≤ c.toNat ∧ c.toNat ≤ 57) ∨ c.toNat = 45 := by
  have ha : ('a' ≤ c) ↔ 97 ≤ c.toNat := Iff.rfl
  have hz : (c ≤ 'z') ↔ c.toNat ≤ 122 := Iff.rfl
  have h0 : ('0' ≤ c) ↔ 48 ≤ c.toNat := Iff.rfl
  have h9 : (c ≤ '9') ↔ c.toNat ≤ 57 := Iff.rfl
  have hh : c = '-' ↔ c.toNat = 45 := char_eq_iff_toNat c '-'
  simp only [isAllowedHostChar, Bool.or_eq_true, Bool.and_eq_true, decide_eq_true_eq, ha, hz,
    h0, h9, hh, or_assoc]

theorem isWhitespaceOrUnderscore_iff (c : Char) :
    isWhitespaceOrUnderscore c = true ↔
      c.toNat = 9 ∨ c.toNat = 10 ∨ c.toNat = 12 ∨ c.toNat = 13 ∨ c.toNat = 32 ∨ c.toNat = 95 := by
  have h1 : c = '\t' ↔ c.toNat = 9 := char_eq_iff_toNat c '\t'
  have h2 : c = '\n' ↔ c.toNat = 10 := char_eq_iff_toNat c '\n'
  have h3 : c = '\r' ↔ c.toNat = 13 := char_eq_iff_toNat c '\r'
  have h4 : c = ' ' ↔ c.toNat = 32 := char_eq_iff_toNat c ' '
  have h5 : c = '_' ↔ c.toNat = 95 := char_eq_iff_toNat c '_'
  simp only [isWhitespaceOrUnderscore, Bool.or_eq_true, decide_eq_true_eq, h1, h2, h3, h4, h5,
    or_assoc]

theorem allowed_not_whitespace (c : Char) (h : isAllowedHostChar c = true) :
    isWhitespaceOrUnderscore c = false := by
  rw [isAllowedHostChar_iff] at h
  cases hw : isWhitespaceOrUnderscore c with
  | false => rfl
  | true =>
    rw [isWhitespaceOrUnderscore_iff] at hw
    omega

theorem toLowerRune_allowed (c : Char) (h : isAllowedHostChar c = true) : toLowerRune c = c := by
  rw [isAllowedHostChar_iff] at h
  have h1 : ¬ c.toNat = 0x130 := by omega
  have h2 : ¬ c.toNat = 0x212A := by omega
  have h3 : ¬ (c.toNat ≥ 65 ∧ c.toNat ≤ 90) := by omega
  simp [toLowerRune, h1, h2, Char.toLower, h3]

theorem replaceWhitespaceRuns_of_none (b : Bool) (cs : List Char)
    (h : ∀ c ∈ cs, isWhitespaceOrUnderscore c = false) :
    replaceWhitespaceRuns b cs = cs := by
  induction cs generalizing b with
  | nil => rfl
  | cons c rest ih =>
    have hc := h c (List.mem_cons_self c rest)
    simp only [replaceWhitespaceRuns, hc, Bool.false_eq_true, if_false]
    rw [ih false (fun x hx => h x (List.mem_cons_of_mem c hx))]

theorem hostNameChars_allowed (cs : List Char) :
    ∀ c ∈ hostNameChars cs, isAllowedHostChar c = true := by
  intro c hc
  simp only [hostNameChars] at hc
  exact (List.mem_filter.mp hc).2

theorem hostNameChars_fixed (cs : List Char) (h : ∀ c ∈ cs, isAllowedHostChar c = true) :
    hostNameChars cs = cs := by
  have hmap : cs.map toLowerRune = cs := by
    conv_rhs => rw [← List.map_id cs]
    exact List.map_congr_left (fun c hc => toLowerRune_allowed c (h c hc))
  simp only [hostNameChars, hmap]
  rw [replaceWhitespaceRuns_of_none false cs (fun c hc => allowed_not_whitespace c (h c hc))]
  exact List.filter_eq_self.mpr h

/-- C12: `hostNameForString` is idempotent: applied to its own result it returns that
result. -/
theorem hostNameForString_idempotent (s : String) :
    hostNameForString (hostNameForString s) = hostNameForString s := by
  simp only [hostNameForString]
  rw [hostNameChars_fixed _ (hostNameChars_allowed s.data)]

theorem toLowerRune_spec (c : Char) :
    toLowerRune c = c ∨
      ((97 ≤ (toLowerRune c).toNat ∧ (toLowerRune c).toNat ≤ 122) ∧
        ((65 ≤ c.toNat ∧ c.toNat ≤ 90) ∨ c.toNat = 0x130 ∨ c.toNat = 0x212A)) := by
  unfold toLowerRune
  by_cases h1 : c.toNat = 0x130
  · right
    simp only [h1, if_true]
    exact ⟨by decide, Or.inr (Or.inl trivial)⟩
  · by_cases h2 : c.toNat = 0x212A
    · right
      simp only [h2, if_true]
      exact ⟨by decide, Or.inr (Or.inr trivial)⟩
    · simp only [h1, h2, if_false, Char.toLower]
      by_cases h3 : c.toNat ≥ 65 ∧ c.toNat ≤ 90
      · right
        rw [if_pos h3]
        have hv : (Char.ofNat (c.toNat + 32)).toNat = c.toNat + 32 := by
          obtain ⟨ha, hb⟩ := h3
          generalize c.toNat = n at ha hb
          interval_cases n <;> rfl
        refine ⟨?_, Or.inl ⟨h3.1, h3.2⟩⟩
        have h65 := h3.1
        have h90 := h3.2
        constructor
        · show 97 ≤ (Char.ofNat (c.toNat + 32)).toNat
          rw [hv]
          omega
        · show (Char.ofNat (c.toNat + 32)).toNat ≤ 122
          rw [hv]
          omega
      · left
        rw [if_neg h3]

theorem isWhitespace_toLowerRune (c : Char) :
    isWhitespaceOrUnderscore (toLowerRune c) = isWhitespaceOrUnderscore c := by
  rcases toLowerRune_spec c with h | ⟨h1, h2⟩
  · rw [h]
  · have ha : isWhitespaceOrUnderscore (toLowerRune c) = false := by
      cases hw : isWhitespaceOrUnderscore (toLowerRune c) with
      | false => rfl
      | true =>
        rw [isWhitespaceOrUnderscore_iff] at hw
        omega
    have hb : isWhitespaceOrUnderscore c = false := by
      cases hw : isWhitespaceOrUnderscore c with
      | false => rfl
      | true =>
        rw [isWhitespaceOrUnderscore_iff] at hw
        omega
    rw [ha, hb]

theorem toLowerRune_eq_hyphen (c : Char) : toLowerRune c = '-' ↔ c = '-' := by
  rcases toLowerRune_spec c with h | ⟨h1, h2⟩
  · rw [h]
  · constructor
    · intro h
      rw [h] at h1
      have : ('-' : Char).toNat = 45 := rfl
      omega
    · intro h
      rw [h] at h2
      have : ('-' : Char).toNat = 45 := rfl
      omega

theorem hyphen_allowed : isAllowedHostChar '-' = true := by decide

theorem hyphen_not_whitespace : isWhitespaceOrUnderscore '-' = false := by decide

theorem count_hyphen_hostNameChars_aux (prev : Option Char) (cs : List Char) :
    ((replaceWhitespaceRuns (afterWhitespace prev) (cs.map toLowerRune)).filter
        isAllowedHostChar).count '-' =
      cs.count '-' + whitespaceRunsAfter prev cs := by
  induction cs generalizing prev with
  | nil => simp [replaceWhitespaceRuns, whitespaceRunsAfter]
  | cons c rest ih =>
    have hih := ih (some c)
    simp only [afterWhitespace] at hih
    simp only [List.map_cons, replaceWhitespaceRuns, isWhitespace_toLowerRune, whitespaceRunsAfter]
    cases hw : isWhitespaceOrUnderscore c with
    | true =>
      rw [hw] at hih
      have hne : ¬ c = '-' := by
        intro h
        rw [h, hyphen_not_whitespace] at hw
        cases hw
      have hcount : List.count '-' (c :: rest) = List.count '-' rest := by
        simp [List.count_cons, hne]
      rw [hcount]
      cases hp : afterWhitespace prev with
      | true =>
        simp only [if_true, hih]
        simp
      | false =>
        simp only [Bool.false_eq_true, if_false, List.filter_cons, hyphen_allowed, if_true,
          List.count_cons_self, hih]
        simp
        omega
    | false =>
      rw [hw] at hih
      simp only [Bool.false_eq_true, if_false, Bool.false_and, Nat.zero_add]
      by_cases hc : c = '-'
      · subst hc
        have hl : toLowerRune '-' = '-' := (toLowerRune_eq_hyphen '-').mpr rfl
        simp only [hl, List.filter_cons, hyphen_allowed, if_true, List.count_cons_self, hih]
        omega
      · have hl : ¬ toLowerRune c = '-' := fun h => hc ((toLowerRune_eq_hyphen c).mp h)
        have hcount : List.count '-' (c :: rest) = List.count '-' rest := by
          simp [List.count_cons, hc]
        rw [hcount, ← hih]
        by_cases hk : isAllowedHostChar (toLowerRune c) = true
        · simp [List.filter_cons, hk, List.count_cons, hl]
        · simp [List.filter_cons, hk]

theorem replaceWhitespaceRuns_cons (b : Bool) (c : Char) (rest : List Char) :
    replaceWhitespaceRuns b (c :: rest) =
      if isWhitespaceOrUnderscore c then
        if b then replaceWhitespaceRuns true rest
        else '-' :: replaceWhitespaceRuns true rest
      else c :: replaceWhitespaceRuns false rest := rfl

theorem replaceWhitespaceRuns_append (b : Bool) (xs ys : List Char) :
    replaceWhitespaceRuns b (xs ++ ys) =
      replaceWhitespaceRuns b xs ++
        replaceWhitespaceRuns
          (match xs.getLast? with
            | some c => isWhitespaceOrUnderscore c
            | none => b) ys := by
  induction xs generalizing b with
  | nil => simp [replaceWhitespaceRuns]
  | cons x rest ih =>
    cases rest with
    | nil =>
      cases hx : isWhitespaceOrUnderscore x <;> cases b <;>
        simp [replaceWhitespaceRuns, hx]
    | cons y more =>
      have hlast : (x :: y :: more).getLast? = (y :: more).getLast? := List.getLast?_cons_cons
      rw [hlast]
      have hne : ∃ z, (y :: more).getLast? = some z := by
        cases h : (y :: more).getLast? with
        | none => simp at h
        | some z => exact ⟨z, rfl⟩
      obtain ⟨z, hz⟩ := hne
      have ih1 := ih true
      have ih2 := ih false
      rw [hz] at ih1 ih2 ⊢
      rw [List.cons_append, replaceWhitespaceRuns_cons b x (y :: more ++ ys),
        replaceWhitespaceRuns_cons b x (y :: more), ih1, ih2]
      cases hx : isWhitespaceOrUnderscore x <;> cases b <;> simp

theorem replaceWhitespaceRuns_run (run : List Char) (hne : run ≠ [])
    (hall : ∀ c ∈ run, isWhitespaceOrUnderscore c = true) :
    replaceWhitespaceRuns false run = ['-'] ∧ replaceWhitespaceRuns true run = [] := by
  have htrue : ∀ r : List Char, (∀ c ∈ r, isWhitespaceOrUnderscore c = true) →
      replaceWhitespaceRuns true r = [] := by
    intro r hr
    induction r with
    | nil => rfl
    | cons c rest ih =>
      simp [replaceWhitespaceRuns, hr c (List.mem_cons_self c rest),
        ih (fun x hx => hr x (List.mem_cons_of_mem c hx))]
  refine ⟨?_, htrue run hall⟩
  cases run with
  | nil => exact absurd rfl hne
  | cons c rest =>
    simp [replaceWhitespaceRuns, hall c (List.mem_cons_self c rest),
      htrue rest (fun x hx => hall x (List.mem_cons_of_mem c hx))]

theorem replaceWhitespaceRuns_flag (ys : List Char)
    (hhead : ∀ c, ys.head? = some c → isWhitespaceOrUnderscore c = false) :
    replaceWhitespaceRuns true ys = replaceWhitespaceRuns false ys := by
  cases ys with
  | nil => rfl
  | cons y rest => simp [replaceWhitespaceRuns, hhead y rfl]

theorem hostNameChars_run (xs run ys : List Char) (hne : run ≠ [])
    (hall : ∀ c ∈ run, isWhitespaceOrUnderscore c = true)
    (hlast : ∀ c, xs.getLast? = some c → isWhitespaceOrUnderscore c = false)
    (hhead : ∀ c, ys.head? = some c → isWhitespaceOrUnderscore c = false) :
    hostNameChars (xs ++ run ++ ys) = hostNameChars xs ++ '-' :: hostNameChars ys := by
  have hrun := replaceWhitespaceRuns_run (run.map toLowerRune) (by simpa using hne)
    (by
      intro c hc
      obtain ⟨d, hd, rfl⟩ := List.mem_map.mp hc
      rw [isWhitespace_toLowerRune]
      exact hall d hd)
  have hflagx : (match (xs.map toLowerRune).getLast? with
      | some c => isWhitespaceOrUnderscore c
      | none => false) = false := by
    rw [List.getLast?_map]
    cases hx : xs.getLast? with
    | none => rfl
    | some c =>
      simp only [Option.map_some']
      rw [isWhitespace_toLowerRune]
      exact hlast c hx
  have hflagr : (match (run.map toLowerRune).getLast? with
      | some c => isWhitespaceOrUnderscore c
      | none => false) = true := by
    rw [List.getLast?_map]
    cases hx : run.getLast? with
    | none => exact absurd (List.getLast?_eq_none_iff.mp hx) hne
    | some c =>
      simp only [Option.map_some']
      rw [isWhitespace_toLowerRune]
      exact hall c (List.mem_of_getLast?_eq_some hx)
  have hy : replaceWhitespaceRuns true (ys.map toLowerRune) =
      replaceWhitespaceRuns false (ys.map toLowerRune) := by
    apply replaceWhitespaceRuns_flag
    intro c hc
    rw [List.head?_map] at hc
    cases hy : ys.head? with
    | none => rw [hy] at hc; cases hc
    | some d =>
      rw [hy] at hc
      simp only [Option.map_some', Option.some.injEq] at hc
      rw [← hc, isWhitespace_toLowerRune]
      exact hhead d hy
  simp only [hostNameChars, List.map_append, List.append_assoc]
  rw [replaceWhitespaceRuns_append, hflagx, replaceWhitespaceRuns_append, hflagr, hrun.1, hy]
  simp [List.filter_append, List.filter_cons, hyphen_allowed]

/-- C13: every character of `hostNameForString s` is a lowercase ASCII letter, an
ASCII digit or a hyphen, and each maximal run of whitespace and underscore
characters of `s` contributes exactly one hyphen: a run between a part `xs` that
does not end in such a character and a part `ys` that does not start with one yields
the one hyphen between the results for `xs` and `ys`, and the hyphens of the result
are the hyphens of `s` and one for each maximal run. -/
theorem hostNameForString_charset_and_runs (s : String) :
    (∀ c ∈ (hostNameForString s).data,
      ('a' ≤ c ∧ c ≤ 'z') ∨ ('0' ≤ c ∧ c ≤ '9') ∨ c = '-') ∧
    (∀ xs run ys : List Char, s.data = xs ++ run ++ ys → run ≠ [] →
      (∀ c ∈ run, isWhitespaceOrUnderscore c = true) →
      (∀ c, xs.getLast? = some c → isWhitespaceOrUnderscore c = false) →
      (∀ c, ys.head? = some c → isWhitespaceOrUnderscore c = false) →
      (hostNameForString s).data =
        (hostNameForString (String.mk xs)).data ++ '-' :: (hostNameForString (String.mk ys)).data) ∧
    (hostNameForString s).data.count '-' = s.data.count '-' + whitespaceRuns s.data := by
  refine ⟨?_, ?_, ?_⟩
  · intro c hc
    have h := hostNameChars_allowed s.data c hc
    simpa [isAllowedHostChar, or_assoc] using h
  · intro xs run ys hs hne hall hlast hhead
    simp only [hostNameForString, hs]
    exact hostNameChars_run xs run ys hne hall hlast hhead
  · exact count_hyphen_hostNameChars_aux none s.data

/-- C13 at the name `a _b`: the run of a space and an underscore gives the one hyphen
between the results for `a` and `b`. -/
theorem hostNameForString_charset_and_runs_witness :
    (hostNameForString "a _b").data =
      (hostNameForString (String.mk ['a'])).data ++
        '-' :: (hostNameForString (String.mk ['b'])).data :=
  (hostNameForString_charset_and_runs "a _b").2.1 ['a'] [' ', '_'] ['b'] rfl (by simp)
    (by decide) (by decide) (by decide)

theorem toLowerRune_letterOrDigit (c : Char) (h : isAsciiLetterOrDigit c = true) :
    isAllowedHostChar (toLowerRune c) = true ∧ toLowerRune c ≠ '-' := by
  simp only [isAsciiLetterOrDigit, Bool.or_eq_true, Bool.and_eq_true, decide_eq_true_eq] at h
  have hh : ('-' : Char).toNat = 45 := rfl
  rcases toLowerRune_spec c with he | ⟨h1, h2⟩
  · rw [he]
    have hnu : ¬ (65 ≤ c.toNat ∧ c.toNat ≤ 90) := by
      intro hu
      have h130 : ¬ c.toNat = 0x130 := by omega
      have h212 : ¬ c.toNat = 0x212A := by omega
      have hl : toLowerRune c = Char.ofNat (c.toNat + 32) := by
        simp only [toLowerRune, h130, h212, if_false, Char.toLower]
        rw [if_pos ⟨hu.1, hu.2⟩]
      have hv : (Char.ofNat (c.toNat + 32)).toNat = c.toNat + 32 := by
        obtain ⟨ha, hb⟩ := hu
        generalize c.toNat = n at ha hb
        interval_cases n <;> rfl
      rw [hl] at he
      have := congrArg Char.toNat he
      rw [hv] at this
      omega
    constructor
    · rw [isAllowedHostChar_iff]
      omega
    · intro hc
      rw [hc, hh] at h
      omega
  · constructor
    · rw [isAllowedHostChar_iff]
      omega
    · intro hc
      rw [hc, hh] at h1
      omega

theorem length_replaceWhitespaceRuns_le (b : Bool) (cs : List Char) :
    (replaceWhitespaceRuns b cs).length ≤ cs.length := by
  induction cs generalizing b with
  | nil => simp [replaceWhitespaceRuns]
  | cons c rest ih =>
    rw [replaceWhitespaceRuns_cons]
    have h1 := ih true
    have h2 := ih false
    cases isWhitespaceOrUnderscore c <;> cases b <;> simp <;> omega

theorem length_hostNameChars_le (cs : List Char) : (hostNameChars cs).length ≤ cs.length := by
  simp only [hostNameChars]
  calc (List.filter isAllowedHostChar (replaceWhitespaceRuns false (cs.map toLowerRune))).length
      ≤ (replaceWhitespaceRuns false (cs.map toLowerRune)).length := List.length_filter_le _ _
    _ ≤ (cs.map toLowerRune).length := length_replaceWhitespaceRuns_le _ _
    _ = cs.length := List.length_map _ _

theorem hostNameChars_head (c : Char) (rest : List Char) (h : isAsciiLetterOrDigit c = true) :
    (hostNameChars (c :: rest)).head? = some (toLowerRune c) := by
  obtain ⟨ha, _⟩ := toLowerRune_letterOrDigit c h
  have hw := allowed_not_whitespace _ ha
  simp [hostNameChars, replaceWhitespaceRuns_cons, hw, List.filter_cons, ha]

theorem hostNameChars_last (init : List Char) (c : Char) (h : isAsciiLetterOrDigit c = true) :
    (hostNameChars (init ++ [c])).getLast? = some (toLowerRune c) := by
  obtain ⟨ha, _⟩ := toLowerRune_letterOrDigit c h
  have hw := allowed_not_whitespace _ ha
  simp only [hostNameChars, List.map_append, List.map_cons, List.map_nil]
  rw [replaceWhitespaceRuns_append, replaceWhitespaceRuns_cons, hw]
  simp [replaceWhitespaceRuns, List.filter_append, List.filter_cons, ha]

/-- C14, as stated, fails: the result for the empty name is empty, the result for a
name of sixty-four letters has sixty-four characters, and the result for ` my app `
starts and ends with a hyphen. -/
theorem hostNameForString_not_always_dns_label :
    hostNameForString "" = "" ∧
    (hostNameForString longName).data.length = 64 ∧
    hostNameForString " my app " = "-my-app-" := by
  decide!

/-- C14, amended: for a name of at most 63 characters whose first and last characters
are ASCII letters or digits, `hostNameForString` returns a valid DNS label: not empty,
at most 63 characters, made only of `[a-z0-9-]`, neither starting nor ending with a
hyphen. -/
theorem hostNameForString_dns_label (s : String) (first last : Char)
    (hlen : s.data.length ≤ 63)
    (hfirst : s.data.head? = some first) (hfirstOk : isAsciiLetterOrDigit first = true)
    (hlast : s.data.getLast? = some last) (hlastOk : isAsciiLetterOrDigit last = true) :
    (hostNameForString s).data ≠ [] ∧
    (hostNameForString s).data.length ≤ 63 ∧
    (∀ c ∈ (hostNameForString s).data,
      ('a' ≤ c ∧ c ≤ 'z') ∨ ('0' ≤ c ∧ c ≤ '9') ∨ c = '-') ∧
    (hostNameForString s).data.head? ≠ some '-' ∧
    (hostNameForString s).data.getLast? ≠ some '-' := by
  obtain ⟨rest, hrest⟩ := List.head?_eq_some_iff.mp hfirst
  obtain ⟨init, hinit⟩ := List.getLast?_eq_some_iff.mp hlast
  have hhead : (hostNameChars s.data).head? = some (toLowerRune first) := by
    rw [hrest]
    exact hostNameChars_head first rest hfirstOk
  have hend : (hostNameChars s.data).getLast? = some (toLowerRune last) := by
    rw [hinit]
    exact hostNameChars_last init last hlastOk
  refine ⟨?_, ?_, ?_, ?_, ?_⟩
  · intro hnil
    simp only [hostNameForString] at hnil
    rw [hnil] at hhead
    cases hhead
  · exact le_trans (length_hostNameChars_le s.data) hlen
  · intro c hc
    have h := hostNameChars_allowed s.data c hc
    simpa [isAllowedHostChar, or_assoc] using h
  · simp only [hostNameForString, hhead, ne_eq, Option.some.injEq]
    exact (toLowerRune_letterOrDigit first hfirstOk).2
  · simp only [hostNameForString, hend, ne_eq, Option.some.injEq]
    exact (toLowerRune_letterOrDigit last hlastOk).2

/-- C14, amended, at the name `My App_1`. -/
theorem hostNameForString_dns_label_witness :
    (hostNameForString "My App_1").data ≠ [] ∧
    (hostNameForString "My App_1").data.length ≤ 63 ∧
    (∀ c ∈ (hostNameForString "My App_1").data,
      ('a' ≤ c ∧ c ≤ 'z') ∨ ('0' ≤ c ∧ c ≤ '9') ∨ c = '-') ∧
    (hostNameForString "My App_1").data.head? ≠ some '-' ∧
    (hostNameForString "My App_1").data.getLast? ≠ some '-' :=
  hostNameForString_dns_label "My App_1" 'M' '1' (by decide) rfl (by decide) rfl (by decide)

/-! ## The host name of an application -/

/-- C15: `hostnameForApp` chooses by strict precedence. With no-hostname the result
is the empty string whatever the host, the random-hostname flag and the name are;
otherwise an explicit host is returned verbatim; otherwise, for a name `n`, the
result is `hostNameForString n`, followed under random-hostname by a hyphen and the
token the word generator gives (one `Babble` call). In every branch but the random
one no collaborator is called and the result is the same for any collaborators and
any trace. -/
theorem hostnameForApp_precedence {W : Type} (co : Collaborators W) (params : AppParams)
    (c : Context) (t : Trace W) :
    (c.noHostname = true → hostnameForApp co params c t = .done "" t) ∧
    (∀ host, c.noHostname = false → params.host = some host →
      hostnameForApp co params c t = .done host t) ∧
    (∀ name, c.noHostname = false → params.host = none → params.useRandomHostname = true →
      params.name = some name →
      hostnameForApp co params c t =
        .done (hostNameForString name ++ "-" ++ (co.babble t.world).1)
          { world := (co.babble t.world).2, calls := t.calls ++ [.babble], ui := t.ui }) ∧
    (∀ name, c.noHostname = false → params.host = none → params.useRandomHostname = false →
      params.name = some name →
      hostnameForApp co params c t = .done (hostNameForString name) t) ∧
    ((c.noHostname = true ∨ params.host ≠ none ∨ params.useRandomHostname = false) →
      ∀ (W2 : Type) (co2 : Collaborators W2) (t2 : Trace W2),
        (hostnameForApp co2 params c t2).value = (hostnameForApp co params c t).value ∧
        (hostnameForApp co2 params c t2).calls = t2.calls) := by
  refine ⟨?_, ?_, ?_, ?_, ?_⟩
  · intro h
    simp [hostnameForApp, h, pure_apply]
  · intro host h1 h2
    simp [hostnameForApp, h1, h2, pure_apply]
  · intro name h1 h2 h3 h4
    simp [hostnameForApp, h1, h2, h3, h4, bind_apply, deref, call_apply, pure_apply]
  · intro name h1 h2 h3 h4
    simp [hostnameForApp, h1, h2, h3, h4, bind_apply, deref, pure_apply]
  · intro hfixed W2 co2 t2
    cases hn : c.noHostname with
    | true => simp [hostnameForApp, hn, pure_apply, Outcome.value, Outcome.calls, Outcome.trace]
    | false =>
      cases hh : params.host with
      | some host =>
        simp [hostnameForApp, hn, hh, pure_apply, Outcome.value, Outcome.calls, Outcome.trace]
      | none =>
        have hr : params.useRandomHostname = false := by
          rcases hfixed with h | h | h
          · rw [hn] at h; cases h
          · exact absurd hh h
          · exact h
        cases hname : params.name <;>
          simp [hostnameForApp, hn, hh, hr, hname, bind_apply, deref, pure_apply,
            Outcome.value, Outcome.calls, Outcome.trace]

/-- C15 at the parameters named `My App` with the random-hostname flag, no host and
no no-hostname flag: the result is `my-app-` followed by the generated token. -/
theorem hostnameForApp_precedence_witness :
    hostnameForApp fixedWords randomHostParams Context.empty (startAt Remote.empty) =
      .done (hostNameForString "My App" ++ "-" ++ "quiet-lake")
        { world := Remote.empty, calls := [] ++ [.babble], ui := [] } :=
  (hostnameForApp_precedence fixedWords randomHostParams Context.empty
    (startAt Remote.empty)).2.2.1 "My App" rfl rfl rfl rfl

/-! ## Route reconciliation -/

theorem bindAppToRoute_steps {W : Type} (co : Collaborators W) (cfg : Config)
    (app : Application) (params : AppParams) (c : Context) (t : Trace W)
    (hnoRoute : params.noRoute = false) (hgo : resolvesRoute app c) :
    bindAppToRoute co cfg app params c t =
      (do
        let domain ← findDomain co cfg params
        let hostname ← hostnameForApp co params c
        let route ← findOrCreateRoute co domain hostname
        bindRouteUnlessBound co app domain hostname route : Cmd W Unit) t := by
  have hcond : (decide (app.routes.length > 0) &&
      !(decide (c.n ≠ "") || decide (c.d ≠ "") || c.noHostname)) = false := by
    rcases hgo with h | h | h | h
    · simp [h]
    · simp [h]
    · simp [h]
    · simp [h]
  unfold bindAppToRoute
  simp only [hnoRoute, Bool.false_eq_true, if_false, hcond]
  rfl

theorem selectDefaultDomain_all_shared (d : DomainFields) (rest : List DomainFields)
    (hd : d.shared = true) : selectDefaultDomain (d :: rest) = .ok d := by
  simp [selectDefaultDomain, visitDomains_cons, defaultDomainVisitor, hd]

/-- C16: when the listing has no domain that is not shared: if it has at least one
(shared) domain, `findDefaultDomain` returns the first domain listed; if it is
empty, `findDomain` without an explicit domain fails (`Could not find a default
domain`), and a `bindAppToRoute` that resolves a route fails the same way after the
listing call alone, with no route lookup, route creation or bind call. -/
theorem findDomain_no_private_domain {W : Type} (co : Collaborators W) (cfg : Config)
    (app : Application) (params : AppParams) (c : Context) (t : Trace W) :
    (∀ d rest, (co.listDomainsForOrg cfg.orgGuid t.world).1.1 = d :: rest →
      (∀ x ∈ d :: rest, x.shared = true) →
      (findDefaultDomain co cfg t).value = some (.ok d)) ∧
    ((co.listDomainsForOrg cfg.orgGuid t.world).1.1 = [] → params.domain = none →
      (findDomain co cfg params t).failure = some "Could not find a default domain" ∧
      (findDomain co cfg params t).calls = t.calls ++ [.listDomainsForOrg cfg.orgGuid] ∧
      (params.noRoute = false → resolvesRoute app c →
        (bindAppToRoute co cfg app params c t).failure =
          some "Could not find a default domain" ∧
        (bindAppToRoute co cfg app params c t).calls =
          t.calls ++ [.listDomainsForOrg cfg.orgGuid])) := by
  constructor
  · intro d rest hl hall
    have hd := hall d (List.mem_cons_self d rest)
    simp [findDefaultDomain, bind_apply, call_apply, pure_apply, Outcome.value, hl,
      selectDefaultDomain_all_shared d rest hd]
  · intro hl hdom
    have hfd : findDomain co cfg params t =
        .aborted "Could not find a default domain"
          { world := (co.listDomainsForOrg cfg.orgGuid t.world).2
            calls := t.calls ++ [.listDomainsForOrg cfg.orgGuid]
            ui := t.ui ++ [.failed "Could not find a default domain"] } := by
      simp [findDomain, hdom, findDefaultDomain, bind_apply, call_apply, pure_apply, hl,
        selectDefaultDomain, visitDomains, Failed]
    refine ⟨by rw [hfd]; rfl, by rw [hfd]; rfl, ?_⟩
    intro hnoRoute hgo
    rw [bindAppToRoute_steps co cfg app params c t hnoRoute hgo, bind_apply, hfd]
    exact ⟨rfl, rfl⟩

/-- C16 at a listing of two shared domains (the first is returned) and at the empty
listing for `push foo` of an application without routes. -/
theorem findDomain_no_private_domain_witness :
    ((findDefaultDomain faithful exampleConfig).runFrom twoSharedRemote).value =
      some (.ok sharedDomain) ∧
    (((bindAppToRoute faithful exampleConfig stoppedApp (namedParams "foo") pushFoo).runFrom
        Remote.empty).failure = some "Could not find a default domain" ∧
      ((bindAppToRoute faithful exampleConfig stoppedApp (namedParams "foo") pushFoo).runFrom
        Remote.empty).calls = [] ++ [.listDomainsForOrg exampleConfig.orgGuid]) :=
  ⟨(findDomain_no_private_domain faithful exampleConfig stoppedApp (namedParams "foo") pushFoo
      (startAt twoSharedRemote)).1 sharedDomain [otherSharedDomain] rfl (by decide),
   ((findDomain_no_private_domain faithful exampleConfig stoppedApp (namedParams "foo") pushFoo
      (startAt Remote.empty)).2 rfl rfl).2.2 rfl (Or.inl rfl)⟩

theorem unbindRoutes_run {W : Type} (co : Collaborators W) (app : Application)
    (routes : List RouteSummary) (t : Trace W) :
    (unbindRoutes co app routes t).value = some () ∧
    (unbindRoutes co app routes t).calls =
      t.calls ++ routes.map (fun r => Call.routeUnbind r.guid app.guid) := by
  induction routes generalizing t with
  | nil => simp [unbindRoutes, pure_apply, Outcome.value, Outcome.calls, Outcome.trace]
  | cons r rest ih =>
    simp only [unbindRoutes, bind_apply, Say, emit, call_apply]
    have h := ih { world := (co.routeUnbind r.guid app.guid t.world).2,
                   calls := t.calls ++ [Call.routeUnbind r.guid app.guid],
                   ui := t.ui ++ [UiEvent.say ("Removing route " ++ r.URL ++ "...")] }
    refine ⟨h.1, ?_⟩
    rw [h.2]
    simp

/-- C17: when no-route is requested, `bindAppToRoute` returns after making exactly the
unbind calls for the routes of the application, one for each route, in the order of
the route list and with the identifiers of that route and of the application, and no
other call; with no route it makes no call at all. -/
theorem bindAppToRoute_no_route {W : Type} (co : Collaborators W) (cfg : Config)
    (app : Application) (params : AppParams) (c : Context) (t : Trace W)
    (hnoRoute : params.noRoute = true) :
    (bindAppToRoute co cfg app params c t).value = some () ∧
    (bindAppToRoute co cfg app params c t).calls = t.calls ++ unbindCalls app ∧
    (app.routes = [] → (bindAppToRoute co cfg app params c t).calls = t.calls) := by
  have hrun := unbindRoutes_run co app app.routes t
  cases hr : app.routes with
  | nil =>
    simp [bindAppToRoute, hnoRoute, hr, Say, emit, Outcome.value, Outcome.calls, Outcome.trace,
      unbindCalls]
  | cons r rest =>
    rw [hr] at hrun
    simp only [bindAppToRoute, hnoRoute, if_true, hr, List.length_cons, Nat.add_one_ne_zero,
      if_false, unbindCalls]
    exact ⟨hrun.1, hrun.2, fun h => by cases h⟩

/-- C17 at `push foo --no-route` for the application with two bound routes. -/
theorem bindAppToRoute_no_route_witness :
    ((bindAppToRoute faithful exampleConfig fooWithTwoRoutes
        { namedParams "foo" with noRoute := true } pushFooNoRoute).runFrom twoRoutesRemote).value =
      some () ∧
    ((bindAppToRoute faithful exampleConfig fooWithTwoRoutes
        { namedParams "foo" with noRoute := true } pushFooNoRoute).runFrom twoRoutesRemote).calls =
      [] ++ unbindCalls fooWithTwoRoutes ∧
    (fooWithTwoRoutes.routes = [] →
      ((bindAppToRoute faithful exampleConfig fooWithTwoRoutes
        { namedParams "foo" with noRoute := true } pushFooNoRoute).runFrom twoRoutesRemote).calls =
        []) :=
  bindAppToRoute_no_route faithful exampleConfig fooWithTwoRoutes
    { namedParams "foo" with noRoute := true } pushFooNoRoute (startAt twoRoutesRemote) rfl

/-- C18: when no-route is not requested, the application has at least one route and
none of `-n`, `-d` and `--no-hostname` was given, `bindAppToRoute` returns at once:
it makes no call at all, so none on the domain repository and none on the route
repository. -/
theorem bindAppToRoute_keeps_existing_routes {W : Type} (co : Collaborators W) (cfg : Config)
    (app : Application) (params : AppParams) (c : Context) (t : Trace W)
    (hnoRoute : params.noRoute = false) (hroutes : app.routes ≠ [])
    (hn : c.n = "") (hd : c.d = "") (hnh : c.noHostname = false) :
    bindAppToRoute co cfg app params c t = .done () t ∧
    (bindAppToRoute co cfg app params c t).calls.countP Call.isDomainCall =
      t.calls.countP Call.isDomainCall ∧
    (bindAppToRoute co cfg app params c t).calls.countP Call.isRouteCall =
      t.calls.countP Call.isRouteCall := by
  have hlen : 0 < app.routes.length := List.length_pos.mpr hroutes
  have hrun : bindAppToRoute co cfg app params c t = .done () t := by
    simp [bindAppToRoute, hnoRoute, hn, hd, hnh, hlen, pure_apply]
  rw [hrun]
  exact ⟨rfl, rfl, rfl⟩

/-- C18 at `push foo` for the application with two bound routes. -/
theorem bindAppToRoute_keeps_existing_routes_witness :
    bindAppToRoute faithful exampleConfig fooWithTwoRoutes (namedParams "foo") pushFoo
        (startAt twoRoutesRemote) = .done () (startAt twoRoutesRemote) ∧
    (bindAppToRoute faithful exampleConfig fooWithTwoRoutes (namedParams "foo") pushFoo
        (startAt twoRoutesRemote)).calls.countP Call.isDomainCall =
      (startAt twoRoutesRemote).calls.countP Call.isDomainCall ∧
    (bindAppToRoute faithful exampleConfig fooWithTwoRoutes (namedParams "foo") pushFoo
        (startAt twoRoutesRemote)).calls.countP Call.isRouteCall =
      (startAt twoRoutesRemote).calls.countP Call.isRouteCall :=
  bindAppToRoute_keeps_existing_routes faithful exampleConfig fooWithTwoRoutes
    (namedParams "foo") pushFoo (startAt twoRoutesRemote) rfl (by decide) rfl rfl rfl

theorem bind_done {W α β : Type} (m : Cmd W α) (f : α → Cmd W β) (t t1 : Trace W) (a : α)
    (h : m t = .done a t1) : (m >>= f) t = f a t1 := by
  rw [bind_apply, h]

theorem findOrCreateRoute_run {W : Type} (co : Collaborators W) (d : DomainFields)
    (h : String) (tb : Trace W) :
    findOrCreateRoute co d h tb =
      match (co.routeFindByHostAndDomain h d.name tb.world).1 with
      | .ok route =>
        .done route
          { world := (co.routeFindByHostAndDomain h d.name tb.world).2
            calls := tb.calls ++ [.routeFindByHostAndDomain h d.name]
            ui := tb.ui ++ [.say ("Using route " ++ route.URL)] }
      | .error (.modelNotFound _) =>
        (match (co.routeCreate h d.guid (co.routeFindByHostAndDomain h d.name tb.world).2).1 with
          | .ok route =>
            .done route
              { world := (co.routeCreate h d.guid
                  (co.routeFindByHostAndDomain h d.name tb.world).2).2
                calls := tb.calls ++ [.routeFindByHostAndDomain h d.name, .routeCreate h d.guid]
                ui := tb.ui ++ [.say ("Creating route " ++ d.UrlForHost h ++ "..."), .ok,
                  .say ""] }
          | .error apiErr =>
            .aborted apiErr.Error
              { world := (co.routeCreate h d.guid
                  (co.routeFindByHostAndDomain h d.name tb.world).2).2
                calls := tb.calls ++ [.routeFindByHostAndDomain h d.name, .routeCreate h d.guid]
                ui := tb.ui ++ [.say ("Creating route " ++ d.UrlForHost h ++ "..."),
                  .failed apiErr.Error] })
      | .error apiErr =>
        .aborted apiErr.Error
          { world := (co.routeFindByHostAndDomain h d.name tb.world).2
            calls := tb.calls ++ [.routeFindByHostAndDomain h d.name]
            ui := tb.ui ++ [.failed apiErr.Error] } := by
  simp only [findOrCreateRoute, bind_apply, call_apply]
  cases hf : (co.routeFindByHostAndDomain h d.name tb.world).1 with
  | ok route => simp [Say, emit, bind_apply, pure_apply]
  | error e =>
    cases e with
    | modelNotFound msg =>
      simp only [Say, emit, bind_apply, call_apply]
      cases hcr : (co.routeCreate h d.guid (co.routeFindByHostAndDomain h d.name tb.world).2).1 with
      | error e2 => simp [Failed]
      | ok route => simp [Ok, emit, bind_apply, pure_apply]
    | http code msg => simp [Failed]
    | other msg => simp [Failed]

theorem bindRouteUnlessBound_run {W : Type} (co : Collaborators W) (app : Application)
    (d : DomainFields) (h : String) (route : Route) (tc : Trace W) :
    (bindRouteUnlessBound co app d h route tc).calls =
      tc.calls ++ (if app.HasRoute route then [] else [.routeBind route.guid app.guid]) ∧
    (bindRouteUnlessBound co app d h route tc).failure =
      (if app.HasRoute route then none
       else
        match (co.routeBind route.guid app.guid tc.world).1 with
        | none => none
        | some (.http code msg) =>
          if code = INVALID_RELATION then some (routeTakenMessage route.URL) else some msg
        | some apiErr => some apiErr.Error) := by
  cases hhas : app.HasRoute route
  · simp only [bindRouteUnlessBound, hhas, Bool.not_false, if_true, bind_apply, Say, emit,
      call_apply, Bool.false_eq_true, if_false]
    cases hb : (co.routeBind route.guid app.guid tc.world).1 with
    | none => simp [Ok, emit, bind_apply, Outcome.calls, Outcome.trace, Outcome.failure]
    | some e =>
      cases e with
      | http code msg =>
        by_cases hc : code = INVALID_RELATION <;>
          simp [hc, Failed, Outcome.calls, Outcome.trace, Outcome.failure]
      | modelNotFound msg =>
        simp [Failed, Outcome.calls, Outcome.trace, Outcome.failure, ApiError.Error]
      | other msg =>
        simp [Failed, Outcome.calls, Outcome.trace, Outcome.failure, ApiError.Error]
  · simp [bindRouteUnlessBound, hhas, pure_apply, Outcome.calls, Outcome.trace, Outcome.failure]

/-- C19: in the find-or-create step of `bindAppToRoute`, for the resolved domain `d`
and host name `h`: if the lookup by `(h, d.name)` succeeds, no creation call is made
and the found route is the one tested and bound; if it reports not-found, exactly one
creation call is made, with `h` and the identifier of `d`, and the created route is
the one tested and bound (a failed creation is a failure); if it reports any other
error, `bindAppToRoute` fails with the message of that error and makes neither a
creation nor a bind call. -/
theorem bindAppToRoute_find_or_create {W : Type} (co : Collaborators W) (cfg : Config)
    (app : Application) (params : AppParams) (c : Context) (t ta tb : Trace W)
    (d : DomainFields) (h : String)
    (hnoRoute : params.noRoute = false) (hgo : resolvesRoute app c)
    (hdomain : findDomain co cfg params t = .done d ta)
    (hhost : hostnameForApp co params c ta = .done h tb) :
    match (co.routeFindByHostAndDomain h d.name tb.world).1 with
    | .ok route =>
      (bindAppToRoute co cfg app params c t).calls =
        tb.calls ++ [.routeFindByHostAndDomain h d.name] ++
          (if app.HasRoute route then [] else [.routeBind route.guid app.guid])
    | .error (.modelNotFound _) =>
      (match (co.routeCreate h d.guid (co.routeFindByHostAndDomain h d.name tb.world).2).1 with
        | .ok route =>
          (bindAppToRoute co cfg app params c t).calls =
            tb.calls ++ [.routeFindByHostAndDomain h d.name, .routeCreate h d.guid] ++
              (if app.HasRoute route then [] else [.routeBind route.guid app.guid])
        | .error apiErr =>
          (bindAppToRoute co cfg app params c t).failure = some apiErr.Error ∧
          (bindAppToRoute co cfg app params c t).calls =
            tb.calls ++ [.routeFindByHostAndDomain h d.name, .routeCreate h d.guid])
    | .error apiErr =>
      (bindAppToRoute co cfg app params c t).failure = some apiErr.Error ∧
      (bindAppToRoute co cfg app params c t).calls =
        tb.calls ++ [.routeFindByHostAndDomain h d.name] := by
  rw [bindAppToRoute_steps co cfg app params c t hnoRoute hgo, bind_done _ _ _ _ _ hdomain,
    bind_done _ _ _ _ _ hhost, bind_apply, findOrCreateRoute_run]
  cases hf : (co.routeFindByHostAndDomain h d.name tb.world).1 with
  | ok route =>
    simp only []
    rw [(bindRouteUnlessBound_run co app d h route _).1]
  | error e =>
    cases e with
    | modelNotFound msg =>
      simp only []
      cases hcr : (co.routeCreate h d.guid (co.routeFindByHostAndDomain h d.name tb.world).2).1 with
      | error e2 => exact ⟨rfl, rfl⟩
      | ok route =>
        simp only []
        rw [(bindRouteUnlessBound_run co app d h route _).1]
    | http code msg => exact ⟨rfl, rfl⟩
    | other msg => exact ⟨rfl, rfl⟩

/-- C19 at `push foo -n www -d shared.example.com` for the application `foo` without
routes, against a remote state that has no route: the lookup reports not-found, one
creation call follows, and the created route is bound. -/
theorem bindAppToRoute_find_or_create_witness :
    (bindAppToRoute faithful exampleConfig stoppedApp fooWithHostParams pushFooWithHost
        (startAt unroutedRemote)).calls =
      [.domainFindByNameInOrg "shared.example.com" "org-guid"] ++
        [.routeFindByHostAndDomain "www" "shared.example.com",
          .routeCreate "www" "shared-guid"] ++
        (if stoppedApp.HasRoute (createdRoute unroutedRemote "www" sharedDomain) then []
          else [.routeBind (createdRoute unroutedRemote "www" sharedDomain).guid "app-guid"]) :=
  bindAppToRoute_find_or_create faithful exampleConfig stoppedApp fooWithHostParams
    pushFooWithHost (startAt unroutedRemote)
    { world := unroutedRemote, calls := [.domainFindByNameInOrg "shared.example.com" "org-guid"],
      ui := [] }
    { world := unroutedRemote, calls := [.domainFindByNameInOrg "shared.example.com" "org-guid"],
      ui := [] }
    sharedDomain "www" rfl (Or.inl rfl) (by decide!) (by decide!)

theorem findDomain_calls {W : Type} (co : Collaborators W) (cfg : Config)
    (params : AppParams) (t : Trace W) :
    (findDomain co cfg params t).calls = t.calls ++ [domainCall cfg params] := by
  cases hd : params.domain with
  | some name =>
    simp only [findDomain, hd, bind_apply, call_apply, domainCall]
    cases (co.findByNameInOrg name cfg.orgGuid t.world).1 <;>
      simp [Failed, pure_apply, Outcome.calls, Outcome.trace]
  | none =>
    simp only [findDomain, hd, findDefaultDomain, bind_apply, call_apply, pure_apply,
      domainCall]
    cases selectDefaultDomain (co.listDomainsForOrg cfg.orgGuid t.world).1.1 with
    | error e => simp [Failed, Outcome.calls, Outcome.trace]
    | ok d0 =>
      by_cases hg : d0.guid = "" <;>
        simp [hg, Failed, pure_apply, Outcome.calls, Outcome.trace]

theorem hostnameForApp_calls {W : Type} (co : Collaborators W) (params : AppParams)
    (c : Context) (t : Trace W) :
    (hostnameForApp co params c t).calls = t.calls ∨
      (hostnameForApp co params c t).calls = t.calls ++ [.babble] := by
  unfold hostnameForApp
  cases c.noHostname with
  | true => left; rfl
  | false =>
    cases params.host with
    | some host => left; rfl
    | none =>
      cases params.useRandomHostname <;> cases params.name <;>
        simp [bind_apply, deref, call_apply, pure_apply, Outcome.calls, Outcome.trace]

theorem findOrCreateRoute_binds {W : Type} (co : Collaborators W) (d : DomainFields)
    (h : String) (tb : Trace W) :
    routeBinds (findOrCreateRoute co d h tb).calls = routeBinds tb.calls := by
  rw [findOrCreateRoute_run]
  cases (co.routeFindByHostAndDomain h d.name tb.world).1 with
  | ok route => simp [routeBinds, Outcome.calls, Outcome.trace, Call.isRouteBind]
  | error e =>
    cases e with
    | modelNotFound msg =>
      cases (co.routeCreate h d.guid (co.routeFindByHostAndDomain h d.name tb.world).2).1 <;>
        simp [routeBinds, Outcome.calls, Outcome.trace, Call.isRouteBind]
    | http code msg => simp [routeBinds, Outcome.calls, Outcome.trace, Call.isRouteBind]
    | other msg => simp [routeBinds, Outcome.calls, Outcome.trace, Call.isRouteBind]

/-- C20: once a route is resolved, `bindAppToRoute` makes a bind call, with the
identifiers of the route and of the application, if and only if the application does
not have the route already. A bind error with the code `INVALID_RELATION` is
reported as the failure `The route ... is already in use` with the tip to use
`-n HOSTNAME` or `--random-route`; every other bind error is reported as a failure
with the message of the error; a bind without error is no failure. -/
theorem bindAppToRoute_bind_step {W : Type} (co : Collaborators W) (cfg : Config)
    (app : Application) (params : AppParams) (c : Context) (t ta tb tc : Trace W)
    (d : DomainFields) (h : String) (route : Route)
    (hnoRoute : params.noRoute = false) (hgo : resolvesRoute app c)
    (hdomain : findDomain co cfg params t = .done d ta)
    (hhost : hostnameForApp co params c ta = .done h tb)
    (hroute : findOrCreateRoute co d h tb = .done route tc) :
    (bindAppToRoute co cfg app params c t).calls =
      tc.calls ++ (if app.HasRoute route then [] else [.routeBind route.guid app.guid]) ∧
    routeBinds (bindAppToRoute co cfg app params c t).calls =
      routeBinds t.calls + (if app.HasRoute route then 0 else 1) ∧
    (bindAppToRoute co cfg app params c t).failure =
      (if app.HasRoute route then none
       else
        match (co.routeBind route.guid app.guid tc.world).1 with
        | none => none
        | some (.http code msg) =>
          if code = INVALID_RELATION then some (routeTakenMessage route.URL) else some msg
        | some apiErr => some apiErr.Error) ∧
    routeTakenMessage route.URL =
      "The route " ++ route.URL ++ " is already in use.\nTIP: Change the hostname with -n HOSTNAME or use --random-route to generate a new route and then push again." := by
  have hrun : bindAppToRoute co cfg app params c t = bindRouteUnlessBound co app d h route tc := by
    rw [bindAppToRoute_steps co cfg app params c t hnoRoute hgo, bind_done _ _ _ _ _ hdomain,
      bind_done _ _ _ _ _ hhost, bind_done _ _ _ _ _ hroute]
  have hb := bindRouteUnlessBound_run co app d h route tc
  have hta : routeBinds ta.calls = routeBinds t.calls := by
    have h1 := findDomain_calls co cfg params t
    rw [hdomain] at h1
    have h2 : ta.calls = t.calls ++ [domainCall cfg params] := h1
    rw [h2]
    cases hp : params.domain <;> simp [routeBinds, domainCall, hp, Call.isRouteBind]
  have htb : routeBinds tb.calls = routeBinds ta.calls := by
    have h1 := hostnameForApp_calls co params c ta
    rw [hhost] at h1
    rcases h1 with h2 | h2
    · have h3 : tb.calls = ta.calls := h2
      rw [h3]
    · have h3 : tb.calls = ta.calls ++ [.babble] := h2
      rw [h3]
      simp [routeBinds, Call.isRouteBind]
  have htc : routeBinds tc.calls = routeBinds tb.calls := by
    have h1 := findOrCreateRoute_binds co d h tb
    rw [hroute] at h1
    exact h1
  rw [hrun]
  refine ⟨hb.1, ?_, hb.2, rfl⟩
  rw [hb.1]
  cases app.HasRoute route <;>
    simp [routeBinds, Call.isRouteBind] <;>
    simp [routeBinds] at htc htb hta <;> omega

/-- C20 at `push foo -n www -d shared.example.com` for the application `foo` without
routes, against a route repository that has the route `www.shared.example.com` and
whose bind call fails with the code `INVALID_RELATION`. -/
theorem bindAppToRoute_bind_step_witness :
    (bindAppToRoute routeTaken exampleConfig stoppedApp fooWithHostParams pushFooWithHost
        (startAt existingRouteRemote)).calls =
      afterRouteLookup.calls ++
        (if stoppedApp.HasRoute wwwRoute then [] else [.routeBind wwwRoute.guid stoppedApp.guid]) ∧
    routeBinds (bindAppToRoute routeTaken exampleConfig stoppedApp fooWithHostParams
        pushFooWithHost (startAt existingRouteRemote)).calls =
      routeBinds (startAt existingRouteRemote).calls +
        (if stoppedApp.HasRoute wwwRoute then 0 else 1) ∧
    (bindAppToRoute routeTaken exampleConfig stoppedApp fooWithHostParams pushFooWithHost
        (startAt existingRouteRemote)).failure =
      (if stoppedApp.HasRoute wwwRoute then none
       else
        match (routeTaken.routeBind wwwRoute.guid stoppedApp.guid afterRouteLookup.world).1 with
        | none => none
        | some (.http code msg) =>
          if code = INVALID_RELATION then some (routeTakenMessage wwwRoute.URL) else some msg
        | some apiErr => some apiErr.Error) ∧
    routeTakenMessage wwwRoute.URL =
      "The route " ++ wwwRoute.URL ++ " is already in use.\nTIP: Change the hostname with -n HOSTNAME or use --random-route to generate a new route and then push again." :=
  bindAppToRoute_bind_step routeTaken exampleConfig stoppedApp fooWithHostParams
    pushFooWithHost (startAt existingRouteRemote) afterDomainLookup afterDomainLookup
    afterRouteLookup sharedDomain "www" wwwRoute rfl (Or.inl rfl) (by decide!) (by decide!)
    (by decide!)

/-! ## No dereference of an absent pointer -/

theorem safe_pure {W α : Type} (a : α) (P : α → Prop) (h : P a) :
    (pure a : Cmd W α).safe P := by
  intro t
  exact h

theorem safe_bind {W α β : Type} {m : Cmd W α} {f : α → Cmd W β} {P : α → Prop}
    {Q : β → Prop} (hm : m.safe P) (hf : ∀ a, P a → (f a).safe Q) : (m >>= f).safe Q := by
  intro t
  have h := hm t
  rw [bind_apply]
  cases hr : m t with
  | done a t1 =>
    rw [hr] at h
    exact hf a h t1
  | aborted msg t1 => trivial
  | panicked t1 =>
    rw [hr] at h
    exact h

theorem safe_weaken {W α : Type} {m : Cmd W α} {P Q : α → Prop} (hm : m.safe P)
    (h : ∀ a, P a → Q a) : m.safe Q := by
  intro t
  have h1 := hm t
  cases hr : m t with
  | done a t1 =>
    rw [hr] at h1
    exact h a h1
  | aborted msg t1 => trivial
  | panicked t1 =>
    rw [hr] at h1
    exact h1

theorem safe_call {W α : Type} (c : Call) (step : W → α × W) :
    (call c step).safe (fun _ => True) := by
  intro t
  trivial

theorem safe_callUnit {W : Type} (c : Call) (step : W → W) :
    (callUnit c step).safe (fun _ => True) := by
  intro t
  trivial

theorem safe_emit {W : Type} (e : UiEvent) : (emit e : Cmd W Unit).safe (fun _ => True) := by
  intro t
  trivial

theorem safe_Failed {W α : Type} (msg : String) (P : α → Prop) :
    (Failed msg : Cmd W α).safe P := by
  intro t
  trivial

theorem safe_deref {W α : Type} (v : α) : (deref (some v) : Cmd W α).safe (fun x => x = v) := by
  intro t
  rfl

theorem safe_fetchStackGuid {W : Type} (co : Collaborators W) (p : AppParams) :
    (fetchStackGuid co p).safe (fun q => q.name = p.name ∧ q.path = p.path ∧
      q.servicesToBind = p.servicesToBind) := by
  unfold fetchStackGuid
  cases p.stackName with
  | none => exact safe_pure _ _ ⟨rfl, rfl, rfl⟩
  | some stackName =>
    refine safe_bind (safe_emit _) (fun _ _ => ?_)
    refine safe_bind (safe_call _ _) (fun r _ => ?_)
    cases r with
    | error e => exact safe_Failed _ _
    | ok stack =>
      refine safe_bind (safe_emit _) (fun _ _ => ?_)
      exact safe_pure _ _ ⟨rfl, rfl, rfl⟩

theorem safe_updateApp {W : Type} (co : Collaborators W) (cfg : Config) (app : Application)
    (p : AppParams) : (updateApp co cfg app p).safe (fun _ => True) := by
  unfold updateApp
  refine safe_bind (safe_emit _) (fun _ _ => ?_)
  refine safe_bind (safe_call _ _) (fun r _ => ?_)
  cases r with
  | error e => exact safe_Failed _ _
  | ok a =>
    refine safe_bind (safe_emit _) (fun _ _ => ?_)
    refine safe_bind (safe_emit _) (fun _ _ => ?_)
    exact safe_pure _ _ trivial

theorem safe_createApp {W : Type} (co : Collaborators W) (cfg : Config) (p : AppParams)
    (name : String) (hn : p.name = some name) :
    (createApp co cfg p).safe (fun _ => True) := by
  unfold createApp
  simp only [hn]
  refine safe_bind (safe_deref name) (fun _ _ => ?_)
  refine safe_bind (safe_emit _) (fun _ _ => ?_)
  refine safe_bind (safe_call _ _) (fun r _ => ?_)
  cases r with
  | error e => exact safe_Failed _ _
  | ok a =>
    refine safe_bind (safe_emit _) (fun _ _ => ?_)
    refine safe_bind (safe_emit _) (fun _ _ => ?_)
    exact safe_pure _ _ trivial

theorem safe_createOrUpdateApp {W : Type} (co : Collaborators W) (cfg : Config)
    (p : AppParams) : (createOrUpdateApp co cfg p).safe (fun _ => p.name ≠ none) := by
  unfold createOrUpdateApp
  cases hn : p.name with
  | none =>
    simp only [if_true]
    exact safe_bind (safe_Failed _ (fun _ => False)) (fun _ h => absurd h id)
  | some name =>
    have hne : (some name : Option String) ≠ none := by simp
    simp only [reduceCtorEq, if_false]
    refine safe_bind (safe_pure _ (fun _ => True) trivial) (fun _ _ => ?_)
    refine safe_bind (safe_deref name) (fun _ _ => ?_)
    refine safe_bind (safe_call _ _) (fun r _ => ?_)
    cases r with
    | ok app => exact safe_weaken (safe_updateApp co cfg app p) (fun _ _ => hne)
    | error e =>
      cases e with
      | modelNotFound msg => exact safe_weaken (safe_createApp co cfg p name hn) (fun _ _ => hne)
      | http code msg => exact safe_Failed _ _
      | other msg => exact safe_Failed _ _

theorem safe_findDomain {W : Type} (co : Collaborators W) (cfg : Config) (p : AppParams) :
    (findDomain co cfg p).safe (fun _ => True) := by
  unfold findDomain
  cases p.domain with
  | some name =>
    refine safe_bind (safe_call _ _) (fun r _ => ?_)
    cases r with
    | error e => exact safe_Failed _ _
    | ok d => exact safe_pure _ _ trivial
  | none =>
    have hdef : (findDefaultDomain co cfg).safe (fun _ => True) := by
      unfold findDefaultDomain
      exact safe_bind (safe_call _ _) (fun _ _ => safe_pure _ _ trivial)
    refine safe_bind hdef (fun r _ => ?_)
    cases r with
    | error e => exact safe_Failed _ _
    | ok d =>
      by_cases hg : d.guid = ""
      · simp only [hg, if_true]
        exact safe_Failed _ _
      · simp only [hg, if_false]
        exact safe_pure _ _ trivial

theorem safe_hostnameForApp {W : Type} (co : Collaborators W) (p : AppParams) (c : Context)
    (hn : p.name ≠ none) : (hostnameForApp co p c).safe (fun _ => True) := by
  obtain ⟨name, hname⟩ := Option.ne_none_iff_exists'.mp hn
  unfold hostnameForApp
  cases c.noHostname with
  | true => exact safe_pure _ _ trivial
  | false =>
    simp only [Bool.false_eq_true, if_false]
    cases p.host with
    | some host => exact safe_pure _ _ trivial
    | none =>
      simp only [hname]
      cases p.useRandomHostname with
      | true =>
        simp only [if_true]
        refine safe_bind (safe_deref name) (fun _ _ => ?_)
        refine safe_bind (safe_call _ _) (fun _ _ => ?_)
        exact safe_pure _ _ trivial
      | false =>
        simp only [Bool.false_eq_true, if_false]
        refine safe_bind (safe_deref name) (fun _ _ => ?_)
        exact safe_pure _ _ trivial

theorem safe_unbindRoutes {W : Type} (co : Collaborators W) (app : Application)
    (routes : List RouteSummary) : (unbindRoutes co app routes).safe (fun _ => True) := by
  induction routes with
  | nil => exact safe_pure _ _ trivial
  | cons r rest ih =>
    unfold unbindRoutes
    refine safe_bind (safe_emit _) (fun _ _ => ?_)
    refine safe_bind (safe_call _ _) (fun _ _ => ?_)
    exact ih

theorem safe_findOrCreateRoute {W : Type} (co : Collaborators W) (d : DomainFields)
    (h : String) : (findOrCreateRoute co d h).safe (fun _ => True) := by
  intro t
  rw [findOrCreateRoute_run]
  cases (co.routeFindByHostAndDomain h d.name t.world).1 with
  | ok route => trivial
  | error e =>
    cases e with
    | modelNotFound msg =>
      cases (co.routeCreate h d.guid (co.routeFindByHostAndDomain h d.name t.world).2).1 <;>
        trivial
    | http code msg => trivial
    | other msg => trivial

theorem safe_bindRouteUnlessBound {W : Type} (co : Collaborators W) (app : Application)
    (d : DomainFields) (h : String) (route : Route) :
    (bindRouteUnlessBound co app d h route).safe (fun _ => True) := by
  unfold bindRouteUnlessBound
  cases app.HasRoute route with
  | true => exact safe_pure _ _ trivial
  | false =>
    simp only [Bool.not_false, if_true]
    refine safe_bind (safe_emit _) (fun _ _ => ?_)
    refine safe_bind (safe_call _ _) (fun r _ => ?_)
    cases r with
    | none =>
      refine safe_bind (safe_emit _) (fun _ _ => ?_)
      exact safe_emit _
    | some e =>
      cases e with
      | modelNotFound msg => exact safe_Failed _ _
      | other msg => exact safe_Failed _ _
      | http code msg =>
        by_cases hc : code = INVALID_RELATION
        · simp only [hc, if_true]
          exact safe_Failed _ _
        · simp only [hc, if_false]
          exact safe_Failed _ _

theorem safe_bindAppToRoute {W : Type} (co : Collaborators W) (cfg : Config)
    (app : Application) (p : AppParams) (c : Context) (hn : p.name ≠ none) :
    (bindAppToRoute co cfg app p c).safe (fun _ => True) := by
  cases hnr : p.noRoute with
  | true =>
    unfold bindAppToRoute
    simp only [hnr, if_true]
    by_cases hl : app.routes.length = 0
    · simp only [hl, if_true]
      exact safe_emit _
    · simp only [hl, if_false]
      exact safe_unbindRoutes co app app.routes
  | false =>
    by_cases hgo : resolvesRoute app c
    · intro t
      rw [bindAppToRoute_steps co cfg app p c t hnr hgo]
      exact (safe_bind (safe_findDomain co cfg p) (fun d _ =>
        safe_bind (safe_hostnameForApp co p c hn) (fun h _ =>
          safe_bind (safe_findOrCreateRoute co d h) (fun route _ =>
            safe_bindRouteUnlessBound co app d h route)))) t
    · simp only [resolvesRoute, not_or, ne_eq, not_not, Bool.not_eq_true] at hgo
      obtain ⟨h1, h2, h3, h4⟩ := hgo
      have hlen : 0 < app.routes.length := List.length_pos.mpr h1
      intro t
      simp [bindAppToRoute, hnr, h2, h3, h4, hlen, pure_apply]

theorem safe_bindAppToServices {W : Type} (co : Collaborators W) (cfg : Config)
    (app : Application) (services : List String) :
    (bindAppToServices co cfg app services).safe (fun _ => True) := by
  induction services with
  | nil => exact safe_pure _ _ trivial
  | cons name rest ih =>
    unfold bindAppToServices
    refine safe_bind (safe_call _ _) (fun r _ => ?_)
    cases r with
    | error e => exact safe_Failed _ _
    | ok inst =>
      refine safe_bind (safe_emit _) (fun _ _ => ?_)
      refine safe_bind (safe_call _ _) (fun e _ => ?_)
      cases e with
      | none => exact safe_bind (safe_emit _) (fun _ _ => ih)
      | some e =>
        cases e with
        | modelNotFound msg => exact safe_Failed _ _
        | other msg => exact safe_Failed _ _
        | http code msg =>
          by_cases hc : code = APP_ALREADY_BOUND
          · simp only [hc, if_true]
            exact safe_bind (safe_emit _) (fun _ _ => ih)
          · simp only [hc, if_false]
            exact safe_Failed _ _

theorem safe_restart {W : Type} (co : Collaborators W) (app : Application) (p : AppParams)
    (c : Context) : (restart co app p c).safe (fun _ => True) := by
  unfold restart
  have hstop : (if app.state ≠ "stopped" then do
        Say ""
        let r ← call (.applicationStop app) (co.applicationStop app)
        pure r.1
      else pure app : Cmd W Application).safe (fun _ => True) := by
    by_cases hs : app.state = "stopped"
    · simp only [hs, ne_eq, not_true_eq_false, if_false]
      exact safe_pure _ _ trivial
    · simp only [ne_eq, hs, not_false_eq_true, if_true]
      refine safe_bind (safe_emit _) (fun _ _ => ?_)
      refine safe_bind (safe_call _ _) (fun _ _ => ?_)
      exact safe_pure _ _ trivial
  refine safe_bind hstop (fun a _ => ?_)
  refine safe_bind (safe_emit _) (fun _ _ => ?_)
  cases c.noStart with
  | true => exact safe_pure _ _ trivial
  | false =>
    simp only [Bool.false_eq_true, if_false]
    cases p.healthCheckTimeout with
    | none =>
      refine safe_bind (safe_pure _ (fun _ => True) trivial) (fun _ _ => ?_)
      refine safe_bind (safe_call _ _) (fun _ _ => ?_)
      exact safe_pure _ _ trivial
    | some timeout =>
      refine safe_bind (safe_callUnit _ _) (fun _ _ => ?_)
      refine safe_bind (safe_call _ _) (fun _ _ => ?_)
      exact safe_pure _ _ trivial

theorem safe_describeUploads {W : Type} (co : Collaborators W) (ps : List UploadProgress) :
    (describeUploads co ps).safe (fun _ => True) := by
  induction ps with
  | nil => exact safe_pure _ _ trivial
  | cons q rest ih =>
    unfold describeUploads
    have hq : (describeUploadOperation co q).safe (fun _ => True) := by
      unfold describeUploadOperation
      by_cases hf : q.fileCount > 0
      · simp only [hf, if_true]
        exact safe_bind (safe_emit _) (fun _ _ => safe_emit _)
      · simp only [hf, if_false]
        exact safe_emit _
    exact safe_bind hq (fun _ _ => ih)

theorem safe_pushApp {W : Type} (co : Collaborators W) (cfg : Config) (c : Context)
    (p : AppParams) (hp : p.path ≠ none) : (pushApp co cfg c p).safe (fun _ => True) := by
  obtain ⟨path, hpath⟩ := Option.ne_none_iff_exists'.mp hp
  unfold pushApp
  refine safe_bind (safe_fetchStackGuid co p) (fun q hq => ?_)
  refine safe_bind (safe_createOrUpdateApp co cfg q) (fun app hname => ?_)
  refine safe_bind (safe_bindAppToRoute co cfg app q c hname) (fun _ _ => ?_)
  refine safe_bind (safe_emit _) (fun _ _ => ?_)
  have hq : q.path = some path := by rw [hq.2.1, hpath]
  simp only [hq]
  refine safe_bind (safe_deref path) (fun _ _ => ?_)
  refine safe_bind (safe_call _ _) (fun r _ => ?_)
  refine safe_bind (safe_describeUploads co r.1) (fun _ _ => ?_)
  obtain ⟨progress, err⟩ := r
  cases err with
  | some e => exact safe_Failed _ _
  | none =>
    refine safe_bind (safe_emit _) (fun _ _ => ?_)
    cases q.servicesToBind with
    | none =>
      refine safe_bind (safe_pure _ (fun _ => True) trivial) (fun _ _ => ?_)
      exact safe_restart co app q c
    | some services =>
      refine safe_bind (safe_bindAppToServices co cfg app services) (fun _ _ => ?_)
      exact safe_restart co app q c

theorem safe_pushApps {W : Type} (co : Collaborators W) (cfg : Config) (c : Context)
    (apps : List AppParams) (hp : ∀ e ∈ apps, e.path ≠ none) :
    (pushApps co cfg c apps).safe (fun _ => True) := by
  induction apps with
  | nil => exact safe_pure _ _ trivial
  | cons a rest ih =>
    unfold pushApps
    refine safe_bind (safe_pushApp co cfg c a (hp a (List.mem_cons_self a rest))) (fun _ _ => ?_)
    exact ih (fun e he => hp e (List.mem_cons_of_mem a he))

theorem safe_getAppParamsFromManifest {W : Type} (co : Collaborators W) (cfg : Config)
    (c : Context) : (getAppParamsFromManifest co cfg c).safe (fun _ => True) := by
  unfold getAppParamsFromManifest
  cases c.noManifest with
  | true => exact safe_pure _ _ trivial
  | false =>
    simp only [Bool.false_eq_true, if_false]
    have hpath : (if c.f ≠ "" then pure c.f
        else
          match cfg.cwdErr with
          | some _ => Failed "Could not determine the current working directory!"
          | none => pure cfg.cwd : Cmd W String).safe (fun _ => True) := by
      by_cases hf : c.f = ""
      · simp only [hf, ne_eq, not_true_eq_false, if_false]
        cases cfg.cwdErr with
        | some e => exact safe_Failed _ _
        | none => exact safe_pure _ _ trivial
      · simp only [ne_eq, hf, not_false_eq_true, if_true]
        exact safe_pure _ _ trivial
    refine safe_bind hpath (fun path _ => ?_)
    refine safe_bind (safe_call _ _) (fun m _ => ?_)
    cases m.readErr with
    | some err =>
      by_cases hc : (m.path = "" && c.f = "") = true
      · simp only [hc, if_true]
        exact safe_pure _ _ trivial
      · simp only [hc, if_false]
        exact safe_Failed _ _
    | none =>
      cases m.applications with
      | error err => exact safe_Failed _ _
      | ok apps =>
        refine safe_bind (safe_emit _) (fun _ _ => ?_)
        exact safe_pure _ _ trivial

theorem safe_ite {W α : Type} (cond : Prop) [Decidable cond] (a b : Cmd W α) (P : α → Prop)
    (ha : cond → a.safe P) (hb : ¬ cond → b.safe P) : (if cond then a else b).safe P := by
  by_cases h : cond
  · simp only [h, if_true]
    exact ha h
  · simp only [h, if_false]
    exact hb h

theorem safe_getAppParamsFromContext {W : Type} (co : Collaborators W) (c : Context) :
    (getAppParamsFromContext co c).safe (fun _ => True) := by
  unfold getAppParamsFromContext
  repeat' (first
    | exact safe_pure _ (fun _ => True) trivial
    | exact safe_Failed _ _
    | refine safe_ite _ _ _ _ (fun _ => ?_) (fun _ => ?_)
    | refine safe_bind (P := fun _ => True) ?_ (fun _ _ => ?_)
    | split)

theorem findAppWithNameInManifest_mem (name : String) (manifestApps : List AppParams)
    (a : AppParams) (h : findAppWithNameInManifest name manifestApps = .ok a) :
    a ∈ manifestApps := by
  rw [findAppWithNameInManifest_eq] at h
  cases hf : manifestApps.find? (fun e => decide (e.name = some name)) with
  | none => simp [hf] at h
  | some e =>
    simp only [hf, Except.ok.injEq] at h
    rw [← h]
    exact List.mem_of_find?_eq_some hf

theorem safe_createAppSet {W : Type} (cfg : Config) (c : AppParams)
    (manifestApps : List AppParams) :
    (createAppSetFromContextAndManifest cfg c manifestApps : Cmd W (List AppParams)).safe
      (fun apps => ∀ e ∈ apps, ∃ src, sourceEntry c manifestApps src ∧
        e = withDefaultPath cfg src) := by
  intro t
  cases manifestApps with
  | nil =>
    have h1 := addApp_fst cfg c
    have h2 := addApp_snd cfg [] c
    simp only [createAppSetFromContextAndManifest, pure_bind_apply]
    rw [show addApp cfg [] c = ((addApp cfg [] c).1, (addApp cfg [] c).2) from rfl, h1, h2]
    cases hn : c.name with
    | none => trivial
    | some name =>
      intro e he
      exact ⟨c, rfl, by simpa using he⟩
  | cons m1 rest =>
    cases rest with
    | nil =>
      have h1 := addApp_fst cfg (m1.Merge c)
      have h2 := addApp_snd cfg [] (m1.Merge c)
      simp only [createAppSetFromContextAndManifest, pure_bind_apply]
      rw [show addApp cfg [] (m1.Merge c) =
        ((addApp cfg [] (m1.Merge c)).1, (addApp cfg [] (m1.Merge c)).2) from rfl, h1, h2]
      cases hn : (m1.Merge c).name with
      | none => trivial
      | some name =>
        intro e he
        exact ⟨m1.Merge c, rfl, by simpa using he⟩
    | cons m2 more =>
      simp only [createAppSetFromContextAndManifest]
      cases hI : ({ c with name := none } : AppParams).IsEmpty with
      | false => simp [bind_apply, Failed]
      | true =>
        simp only [Bool.not_true, Bool.false_eq_true, if_false, pure_bind_apply]
        cases hn : c.name with
        | none =>
          simp only [pure_apply, addAllApps_eq, List.nil_append]
          intro e he
          obtain ⟨src, hsrc, rfl⟩ := List.mem_map.mp he
          exact ⟨src, hsrc, rfl⟩
        | some name =>
          cases hf : findAppWithNameInManifest name (m1 :: m2 :: more) with
          | error err => simp [hf, Failed]
          | ok a =>
            simp only [hf, pure_apply, addApp_fst]
            intro e he
            exact ⟨a, findAppWithNameInManifest_mem _ _ _ hf, by simpa using he⟩

theorem withDefaultPath_eq (cfg : Config) (src : AppParams) :
    withDefaultPath cfg src = { src with path := some (src.path.getD cfg.cwd) } := by
  cases src with
  | mk b cm dq dm ev ht ho ic me na nr ur pa sb sg stg stn =>
    cases pa <;> simp [withDefaultPath]

theorem withDefaultPath_path_ne_none (cfg : Config) (src : AppParams) :
    (withDefaultPath cfg src).path ≠ none := by
  rw [withDefaultPath_eq]
  simp

theorem safe_findAndValidateAppsToPush {W : Type} (co : Collaborators W) (cfg : Config)
    (c : Context) :
    (findAndValidateAppsToPush co cfg c).safe (fun apps => ∀ e ∈ apps, e.path ≠ none) := by
  unfold findAndValidateAppsToPush
  refine safe_bind (safe_getAppParamsFromManifest co cfg c) (fun manifestApps _ => ?_)
  refine safe_bind (safe_getAppParamsFromContext co c) (fun contextApp _ => ?_)
  refine safe_weaken (safe_createAppSet cfg contextApp manifestApps) ?_
  intro apps h e he
  obtain ⟨src, _, rfl⟩ := h e he
  exact withDefaultPath_path_ne_none cfg src

theorem safe_Run {W : Type} (co : Collaborators W) (cfg : Config) (c : Context) :
    (Run co cfg c).safe (fun _ => True) := by
  unfold Run
  refine safe_bind (safe_findAndValidateAppsToPush co cfg c) (fun apps hp => ?_)
  refine safe_bind (safe_callUnit _ _) (fun _ _ => ?_)
  exact safe_pushApps co cfg c apps hp

theorem not_panicked_of_safe {W α : Type} (m : Cmd W α) (P : α → Prop) (h : m.safe P)
    (t : Trace W) : (m t).isPanicked = false := by
  have ht := h t
  cases hr : m t with
  | done a t1 => rfl
  | aborted msg t1 => rfl
  | panicked t1 =>
    rw [hr] at ht
    exact absurd ht id

/-- C11: every entry of a set of applications that
`createAppSetFromContextAndManifest` returns has a path: it is one of the entries the
merge starts from with its path unchanged when that entry had one, and with the
working directory as path when it had none. So the loop of `Run` over such a set
never dereferences an absent pointer, and neither does `Run` as a whole. -/
theorem createAppSet_paths_present {W : Type} (co : Collaborators W) (cfg : Config)
    (c : Context) (contextApp : AppParams) (manifestApps : List AppParams)
    (t t1 : Trace W) (apps : List AppParams)
    (h : createAppSetFromContextAndManifest cfg contextApp manifestApps t = .done apps t1) :
    (∀ e ∈ apps, ∃ src, sourceEntry contextApp manifestApps src ∧
      e = { src with path := e.path } ∧
      e.path = (match src.path with
        | some p => some p
        | none => some cfg.cwd)) ∧
    (∀ t2, (pushApps co cfg c apps t2).isPanicked = false) ∧
    (∀ t2, (Run co cfg c t2).isPanicked = false) := by
  have hs := safe_createAppSet (W := W) cfg contextApp manifestApps t
  rw [h] at hs
  have hentries : ∀ e ∈ apps, ∃ src, sourceEntry contextApp manifestApps src ∧
      e = withDefaultPath cfg src := hs
  refine ⟨?_, ?_, ?_⟩
  · intro e he
    obtain ⟨src, hsrc, rfl⟩ := hentries e he
    refine ⟨src, hsrc, ?_, ?_⟩
    · rw [withDefaultPath_eq]
    · rw [withDefaultPath_eq]
      cases src.path <;> rfl
  · intro t2
    refine not_panicked_of_safe _ _ (safe_pushApps co cfg c apps ?_) t2
    intro e he
    obtain ⟨src, _, rfl⟩ := hentries e he
    exact withDefaultPath_path_ne_none cfg src
  · intro t2
    exact not_panicked_of_safe _ _ (safe_Run co cfg c) t2

/-- C11 at `push foo` without a manifest: the one entry gets the working directory. -/
theorem createAppSet_paths_present_witness :
    (∀ e ∈ [fooInCwd], ∃ src, sourceEntry (namedParams "foo") [] src ∧
      e = { src with path := e.path } ∧
      e.path = (match src.path with
        | some p => some p
        | none => some exampleConfig.cwd)) ∧
    (∀ t2, (pushApps faithful exampleConfig pushFoo [fooInCwd] t2).isPanicked = false) ∧
    (∀ t2, (Run faithful exampleConfig pushFoo t2).isPanicked = false) :=
  createAppSet_paths_present faithful exampleConfig pushFoo (namedParams "foo") []
    (startAt Remote.empty) (startAt Remote.empty) [fooInCwd] (by decide!)

/-! ## Finding, creating and updating the application -/

theorem updateApp_calls {W : Type} (co : Collaborators W) (cfg : Config) (app : Application)
    (p : AppParams) (t : Trace W) :
    (updateApp co cfg app p t).calls = t.calls ++ [.appUpdate app.guid (updateParams app p)] := by
  simp only [updateApp, bind_apply, Say, emit, call_apply]
  cases (co.appUpdate app.guid (updateParams app p) t.world).1 <;>
    simp [Failed, Ok, emit, bind_apply, pure_apply, Outcome.calls, Outcome.trace]

theorem createApp_calls {W : Type} (co : Collaborators W) (cfg : Config) (p : AppParams)
    (name : String) (t : Trace W) (hname : p.name = some name) :
    (createApp co cfg p t).calls =
      t.calls ++ [.appCreate { p with spaceGuid := some cfg.spaceGuid }] := by
  cases p with
  | mk b cm dq dm ev ht ho ic me na nr ur pa sb sg stg stn =>
    simp only at hname
    subst hname
    simp only [createApp, bind_apply, deref, Say, emit, call_apply]
    generalize co.appCreate _ t.world = q
    obtain ⟨r, w⟩ := q
    cases r <;> simp [Failed, Ok, emit, bind_apply, pure_apply, Outcome.calls, Outcome.trace]

theorem createOrUpdateApp_run {W : Type} (co : Collaborators W) (cfg : Config)
    (p : AppParams) (name : String) (t : Trace W) (hname : p.name = some name) :
    createOrUpdateApp co cfg p t =
      match (co.appRead name t.world).1 with
      | .ok app =>
        updateApp co cfg app p
          { world := (co.appRead name t.world).2, calls := t.calls ++ [.appRead name], ui := t.ui }
      | .error (.modelNotFound _) =>
        createApp co cfg p
          { world := (co.appRead name t.world).2, calls := t.calls ++ [.appRead name], ui := t.ui }
      | .error apiErr =>
        .aborted apiErr.Error
          { world := (co.appRead name t.world).2, calls := t.calls ++ [.appRead name],
            ui := t.ui ++ [.failed apiErr.Error] } := by
  simp only [createOrUpdateApp, hname, reduceCtorEq, if_false, pure_bind_apply, bind_apply,
    pure_apply, deref, call_apply]
  generalize (co.appRead name t.world).1 = r
  cases r with
  | ok app => rfl
  | error e => cases e <;> rfl

/-- C21: `createOrUpdateApp`, for parameters with the name `name`, makes the lookup
by that name and then: if an application is found, exactly one update call, with the
identifier of the found application, and no create call; if the lookup reports
not-found, exactly one create call, whose parameters are the given ones with the
identifier of the current space, and no update call; if the lookup reports any other
error, no further call, and the push fails with the message of that error. -/
theorem createOrUpdateApp_calls {W : Type} (co : Collaborators W) (cfg : Config)
    (p : AppParams) (name : String) (t : Trace W) (hname : p.name = some name) :
    match (co.appRead name t.world).1 with
    | .ok app =>
      (createOrUpdateApp co cfg p t).calls =
        t.calls ++ [.appRead name, .appUpdate app.guid (updateParams app p)]
    | .error (.modelNotFound _) =>
      (createOrUpdateApp co cfg p t).calls =
        t.calls ++ [.appRead name, .appCreate { p with spaceGuid := some cfg.spaceGuid }]
    | .error apiErr =>
      (createOrUpdateApp co cfg p t).calls = t.calls ++ [.appRead name] ∧
      (createOrUpdateApp co cfg p t).failure = some apiErr.Error := by
  rw [createOrUpdateApp_run co cfg p name t hname]
  generalize (co.appRead name t.world).1 = r
  cases r with
  | ok app =>
    simp only []
    rw [updateApp_calls]
    simp
  | error e =>
    cases e with
    | modelNotFound msg =>
      simp only []
      rw [createApp_calls co cfg p name _ hname]
      simp
    | http code msg => exact ⟨rfl, rfl⟩
    | other msg => exact ⟨rfl, rfl⟩

/-- C21 at the parameters named `foo` against a remote state without applications:
the lookup reports not-found and one create call follows, with the space identifier. -/
theorem createOrUpdateApp_calls_witness :
    ((createOrUpdateApp faithful exampleConfig (namedParams "foo")).runFrom Remote.empty).calls =
      [] ++ [.appRead "foo",
        .appCreate { namedParams "foo" with spaceGuid := some exampleConfig.spaceGuid }] :=
  createOrUpdateApp_calls faithful exampleConfig (namedParams "foo") "foo" (startAt Remote.empty)
    rfl

/-! ## Binding services -/

/-- One turn of the loop of `bindAppToServices`, by the results of its two calls. -/
theorem bindAppToServices_cons {W : Type} (co : Collaborators W) (cfg : Config)
    (app : Application) (s : String) (rest : List String) (t : Trace W) :
    bindAppToServices co cfg app (s :: rest) t =
      match (co.findInstanceByName s t.world).1 with
      | .error _ =>
        .aborted ("Could not find service " ++ s ++ " to bind to " ++ app.name)
          { world := (co.findInstanceByName s t.world).2
            calls := t.calls ++ [.findInstanceByName s]
            ui := t.ui ++ [.failed ("Could not find service " ++ s ++ " to bind to " ++ app.name)] }
      | .ok si =>
        match (match (co.bindApplication app si (co.findInstanceByName s t.world).2).1 with
          | some (.http code msg) =>
            if code = APP_ALREADY_BOUND then none else some (ApiError.http code msg)
          | other => other) with
        | some e =>
          .aborted ("Could not bind to service " ++ s ++ "\nError: " ++ e.Error)
            { world := (co.bindApplication app si (co.findInstanceByName s t.world).2).2
              calls := t.calls ++ [.findInstanceByName s, .bindApplication app si]
              ui := t.ui ++ [.say ("Binding service " ++ si.name ++ " to app " ++ app.name ++
                  inOrgSpaceAs cfg),
                .failed ("Could not bind to service " ++ s ++ "\nError: " ++ e.Error)] }
        | none =>
          bindAppToServices co cfg app rest
            { world := (co.bindApplication app si (co.findInstanceByName s t.world).2).2
              calls := t.calls ++ [.findInstanceByName s, .bindApplication app si]
              ui := t.ui ++ [.say ("Binding service " ++ si.name ++ " to app " ++ app.name ++
                  inOrgSpaceAs cfg), .ok] } := by
  simp only [bindAppToServices, bind_apply, call_apply]
  generalize (co.findInstanceByName s t.world) = q
  obtain ⟨r, w⟩ := q
  cases r with
  | error e => simp [Failed]
  | ok si =>
    simp only [Say, emit, Ok, bind_apply, call_apply]
    generalize (co.bindApplication app si w) = q2
    obtain ⟨r2, w2⟩ := q2
    cases r2 with
    | none => simp [bind_apply, emit]
    | some e =>
      cases e with
      | modelNotFound m => simp [Failed]
      | other m => simp [Failed]
      | http code m =>
        by_cases hc : code = APP_ALREADY_BOUND
        · simp [hc, bind_apply, emit]
        · simp [hc, Failed]

/-- C22: in `bindAppToServices`, when the instance of the first service is found, a
bind call without error and a bind call with an error of the code
`APP_ALREADY_BOUND` leave the same thing: no failure is written, the acknowledgement
`OK` is, and the command goes on with the remaining services and then with whatever
follows (the lifecycle step in a push) from one and the same state. Any other bind
error ends the command with the failure `Could not bind to service ...`, and nothing
that follows is run. -/
theorem bindAppToServices_already_bound {W β : Type} (co : Collaborators W) (cfg : Config)
    (app : Application) (s : String) (rest : List String) (k : Cmd W β) (t : Trace W)
    (si : ServiceInstance) (hfind : (co.findInstanceByName s t.world).1 = .ok si) :
    (((co.bindApplication app si (co.findInstanceByName s t.world).2).1 = none ∨
      ∃ msg, (co.bindApplication app si (co.findInstanceByName s t.world).2).1 =
        some (.http APP_ALREADY_BOUND msg)) →
      (bindAppToServices co cfg app (s :: rest) >>= fun _ => k) t =
        (bindAppToServices co cfg app rest >>= fun _ => k)
          { world := (co.bindApplication app si (co.findInstanceByName s t.world).2).2
            calls := t.calls ++ [.findInstanceByName s, .bindApplication app si]
            ui := t.ui ++ [.say ("Binding service " ++ si.name ++ " to app " ++ app.name ++
                inOrgSpaceAs cfg), .ok] }) ∧
    (∀ e, (co.bindApplication app si (co.findInstanceByName s t.world).2).1 = some e →
      (∀ msg, e ≠ .http APP_ALREADY_BOUND msg) →
      (bindAppToServices co cfg app (s :: rest) >>= fun _ => k) t =
        .aborted ("Could not bind to service " ++ s ++ "\nError: " ++ e.Error)
          { world := (co.bindApplication app si (co.findInstanceByName s t.world).2).2
            calls := t.calls ++ [.findInstanceByName s, .bindApplication app si]
            ui := t.ui ++ [.say ("Binding service " ++ si.name ++ " to app " ++ app.name ++
                inOrgSpaceAs cfg),
              .failed ("Could not bind to service " ++ s ++ "\nError: " ++ e.Error)] }) := by
  have hstep := bindAppToServices_cons co cfg app s rest t
  rw [hfind] at hstep
  simp only at hstep
  refine ⟨fun h => ?_, fun e he hne => ?_⟩
  · rw [bind_apply, bind_apply, hstep]
    rcases h with h | ⟨msg, h⟩
    · rw [h]
    · rw [h]; simp
  · rw [bind_apply, hstep, he]
    cases e with
    | modelNotFound m => rfl
    | other m => rfl
    | http code m =>
      have hc : code ≠ APP_ALREADY_BOUND := fun hc => hne m (by rw [hc])
      simp [hc]

/-- C22 at the services `db`, `cache` of the stopped application `foo`, followed by
the lifecycle step, against a binder that reports `APP_ALREADY_BOUND`: both services
are looked up and bound and the start call follows, without a failure. -/
theorem bindAppToServices_already_bound_witness :
    ((bindAppToServices alreadyBound exampleConfig stoppedApp ["db", "cache"] >>=
        fun _ => restart alreadyBound stoppedApp (namedParams "foo") Context.empty)
      (startAt unroutedRemote)).calls =
      [.findInstanceByName "db", .bindApplication stoppedApp dbInstance,
       .findInstanceByName "cache",
       .bindApplication stoppedApp { guid := "cache-guid", name := "cache" },
       .applicationStart stoppedApp] ∧
    ((bindAppToServices alreadyBound exampleConfig stoppedApp ["db", "cache"] >>=
        fun _ => restart alreadyBound stoppedApp (namedParams "foo") Context.empty)
      (startAt unroutedRemote)).failure = none := by
  rw [(bindAppToServices_already_bound alreadyBound exampleConfig stoppedApp "db" ["cache"]
    (restart alreadyBound stoppedApp (namedParams "foo") Context.empty)
    (startAt unroutedRemote) dbInstance rfl).1 (Or.inr ⟨_, rfl⟩)]
  exact ⟨by decide!, by decide!⟩

theorem bindAppToServices_append {W : Type} (co : Collaborators W) (cfg : Config)
    (app : Application) (xs ys : List String) (t : Trace W) :
    bindAppToServices co cfg app (xs ++ ys) t =
      (bindAppToServices co cfg app xs >>= fun _ => bindAppToServices co cfg app ys) t := by
  induction xs generalizing t with
  | nil => simp [bindAppToServices, pure_bind_apply]
  | cons x xs ih =>
    rw [List.cons_append, bindAppToServices_cons, bind_apply, bindAppToServices_cons]
    cases (co.findInstanceByName x t.world).1 with
    | error e => rfl
    | ok si =>
      simp only []
      split
      · rfl
      · rw [ih, bind_apply]

theorem bindAppToServices_done_calls {W : Type} (co : Collaborators W) (cfg : Config)
    (app : Application) (xs : List String) (t t1 : Trace W)
    (hdone : bindAppToServices co cfg app xs t = .done () t1) :
    ∃ insts : List ServiceInstance,
      insts.length = xs.length ∧ t1.calls = t.calls ++ serviceCalls app xs insts := by
  induction xs generalizing t with
  | nil =>
    refine ⟨[], rfl, ?_⟩
    have h : (Outcome.done () t : Outcome W Unit) = .done () t1 := hdone
    cases h
    simp [serviceCalls]
  | cons x xs ih =>
    rw [bindAppToServices_cons] at hdone
    cases hf : (co.findInstanceByName x t.world).1 with
    | error e => rw [hf] at hdone; cases hdone
    | ok si =>
      rw [hf] at hdone
      simp only [] at hdone
      split at hdone
      · cases hdone
      · obtain ⟨insts, hlen, hcalls⟩ := ih _ hdone
        refine ⟨si :: insts, by simp [hlen], ?_⟩
        rw [hcalls]
        simp [serviceCalls]

theorem bindAppToServices_calls_grow {W : Type} (co : Collaborators W) (cfg : Config)
    (app : Application) (xs : List String) (t : Trace W) :
    ∃ more, (bindAppToServices co cfg app xs t).calls = t.calls ++ more := by
  induction xs generalizing t with
  | nil => exact ⟨[], by simp [bindAppToServices, pure_apply, Outcome.calls, Outcome.trace]⟩
  | cons x xs ih =>
    rw [bindAppToServices_cons]
    cases (co.findInstanceByName x t.world).1 with
    | error e => exact ⟨[.findInstanceByName x], rfl⟩
    | ok si =>
      simp only []
      split
      · exact ⟨[.findInstanceByName x, .bindApplication app si], rfl⟩
      · obtain ⟨more, hmore⟩ := ih
          { world := (co.bindApplication app si (co.findInstanceByName x t.world).2).2
            calls := t.calls ++ [.findInstanceByName x, .bindApplication app si]
            ui := t.ui ++ [.say ("Binding service " ++ si.name ++ " to app " ++ app.name ++
                inOrgSpaceAs cfg), .ok] }
        exact ⟨[.findInstanceByName x, .bindApplication app si] ++ more, by
          rw [hmore]; simp⟩

/-- C23: `bindAppToServices` works through the service names in the order of the
list. When the names `xs` have been processed, the calls made for them are, name by
name in that order, one lookup of the instance followed by one bind call. For the
name `s` that comes next: if its lookup fails, the command ends with the failure
`Could not find service ... to bind to ...`, the lookup is the last call, and so no
bind call is made for `s` or for a later name; if its lookup finds an instance, the
lookup is followed by the bind call with that instance. -/
theorem bindAppToServices_in_list_order {W : Type} (co : Collaborators W) (cfg : Config)
    (app : Application) (xs : List String) (t t1 : Trace W)
    (hdone : bindAppToServices co cfg app xs t = .done () t1) :
    (∃ insts : List ServiceInstance,
      insts.length = xs.length ∧ t1.calls = t.calls ++ serviceCalls app xs insts) ∧
    (∀ (s : String) (ys : List String),
      match (co.findInstanceByName s t1.world).1 with
      | .error _ =>
        bindAppToServices co cfg app (xs ++ s :: ys) t =
          .aborted ("Could not find service " ++ s ++ " to bind to " ++ app.name)
            { world := (co.findInstanceByName s t1.world).2
              calls := t1.calls ++ [.findInstanceByName s]
              ui := t1.ui ++
                [.failed ("Could not find service " ++ s ++ " to bind to " ++ app.name)] }
      | .ok si =>
        ∃ more, (bindAppToServices co cfg app (xs ++ s :: ys) t).calls =
          t1.calls ++ [.findInstanceByName s, .bindApplication app si] ++ more) := by
  refine ⟨bindAppToServices_done_calls co cfg app xs t t1 hdone, fun s ys => ?_⟩
  rw [bindAppToServices_append, bind_apply, hdone]
  simp only []
  rw [bindAppToServices_cons]
  cases (co.findInstanceByName s t1.world).1 with
  | error e => rfl
  | ok si =>
    simp only []
    split
    · exact ⟨[], by simp [Outcome.calls, Outcome.trace]⟩
    · obtain ⟨more, hmore⟩ := bindAppToServices_calls_grow co cfg app ys
          { world := (co.bindApplication app si (co.findInstanceByName s t1.world).2).2
            calls := t1.calls ++ [.findInstanceByName s, .bindApplication app si]
            ui := t1.ui ++ [.say ("Binding service " ++ si.name ++ " to app " ++ app.name ++
                inOrgSpaceAs cfg), .ok] }
      exact ⟨more, hmore⟩

/-- C23 at the services `db`, `cache`, `queue` against a service repository without
an instance named `cache`: `db` is looked up and bound, the lookup of `cache` fails,
and neither `cache` nor `queue` is bound. -/
theorem bindAppToServices_in_list_order_witness :
    bindAppToServices missingCache exampleConfig stoppedApp (["db"] ++ "cache" :: ["queue"])
        (startAt unroutedRemote) =
      .aborted "Could not find service cache to bind to foo"
        { world := unroutedRemote
          calls := [.findInstanceByName "db", .bindApplication stoppedApp dbInstance,
            .findInstanceByName "cache"]
          ui := [.say ("Binding service db to app foo" ++ inOrgSpaceAs exampleConfig), .ok,
            .failed "Could not find service cache to bind to foo"] } :=
  (bindAppToServices_in_list_order missingCache exampleConfig stoppedApp ["db"]
    (startAt unroutedRemote)
    { world := unroutedRemote
      calls := [.findInstanceByName "db", .bindApplication stoppedApp dbInstance]
      ui := [.say ("Binding service db to app foo" ++ inOrgSpaceAs exampleConfig), .ok] }
    (by decide!)).2 "cache" ["queue"]

/-! ## The calls of the lifecycle step -/

/-- C24: the calls `restart` makes are, in this order: one stop call if and only if
the state of the application is not `stopped`; then nothing more if `--no-start` is
set; otherwise one call that sets the start timeout, with the supplied value, if and
only if a start timeout is present, and then exactly one start call (with the
application the stopper returned when the stop call was made, with the given one
otherwise). `restart` always returns. -/
theorem restart_calls {W : Type} (co : Collaborators W) (app : Application)
    (params : AppParams) (c : Context) (t : Trace W) :
    (restart co app params c t).calls =
      t.calls ++
        (if app.state ≠ "stopped" then [.applicationStop app] else []) ++
        (if c.noStart then []
         else
          (match params.healthCheckTimeout with
            | some timeout => [.setStartTimeoutInSeconds timeout]
            | none => []) ++
          [.applicationStart
            (if app.state ≠ "stopped" then (co.applicationStop app t.world).1.1 else app)]) ∧
    (restart co app params c t).value = some () := by
  by_cases hstate : app.state = "stopped" <;> cases hstart : c.noStart <;>
    cases ht : params.healthCheckTimeout <;>
    simp [restart, hstate, hstart, ht, bind_apply, pure_apply, call_apply, callUnit, Say, emit,
      Outcome.value, Outcome.calls, Outcome.trace]

/-! ## The order of the calls of a push -/

theorem phased_silent {W α : Type} (m : Cmd W α) (lo hi : Nat)
    (h : ∀ t, (m t).calls = t.calls) : m.phased lo hi := by
  intro t
  exact ⟨[], by rw [h t]; simp, List.Pairwise.nil, fun _ hc => absurd hc (List.not_mem_nil _)⟩

theorem phased_pure {W α : Type} (a : α) (lo hi : Nat) : (pure a : Cmd W α).phased lo hi :=
  phased_silent _ lo hi (fun _ => rfl)

theorem phased_emit {W : Type} (e : UiEvent) (lo hi : Nat) :
    (emit e : Cmd W Unit).phased lo hi :=
  phased_silent _ lo hi (fun _ => rfl)

theorem phased_Failed {W α : Type} (msg : String) (lo hi : Nat) :
    (Failed msg : Cmd W α).phased lo hi :=
  phased_silent _ lo hi (fun _ => rfl)

theorem phased_deref {W α : Type} (p : Option α) (lo hi : Nat) :
    (deref p : Cmd W α).phased lo hi :=
  phased_silent _ lo hi (fun _ => by cases p <;> rfl)

theorem phased_call {W α : Type} (c : Call) (step : W → α × W) (lo hi : Nat)
    (h1 : lo ≤ c.phase) (h2 : c.phase ≤ hi) : (call c step).phased lo hi := by
  intro t
  refine ⟨[c], rfl, List.pairwise_singleton _ _, fun x hx => ?_⟩
  rw [List.mem_singleton] at hx
  subst hx
  exact ⟨h1, h2⟩

theorem phased_callUnit {W : Type} (c : Call) (step : W → W) (lo hi : Nat)
    (h1 : lo ≤ c.phase) (h2 : c.phase ≤ hi) : (callUnit c step).phased lo hi := by
  intro t
  refine ⟨[c], rfl, List.pairwise_singleton _ _, fun x hx => ?_⟩
  rw [List.mem_singleton] at hx
  subst hx
  exact ⟨h1, h2⟩

theorem phased_weaken {W α : Type} {m : Cmd W α} {lo hi lo1 hi1 : Nat} (hm : m.phased lo hi)
    (h1 : lo1 ≤ lo) (h2 : hi ≤ hi1) : m.phased lo1 hi1 := by
  intro t
  obtain ⟨seg, hc, ho, hb⟩ := hm t
  exact ⟨seg, hc, ho, fun x hx => ⟨le_trans h1 (hb x hx).1, le_trans (hb x hx).2 h2⟩⟩

theorem phased_bind {W α β : Type} {m : Cmd W α} {f : α → Cmd W β} {lo mid hi : Nat}
    (hm : m.phased lo mid) (hf : ∀ a, (f a).phased mid hi) (h1 : lo ≤ mid) (h2 : mid ≤ hi) :
    (m >>= f).phased lo hi := by
  intro t
  obtain ⟨seg, hc, ho, hb⟩ := hm t
  rw [bind_apply]
  cases hr : m t with
  | done a t1 =>
    rw [hr] at hc
    have hc1 : t1.calls = t.calls ++ seg := hc
    obtain ⟨seg2, hc2, ho2, hb2⟩ := hf a t1
    refine ⟨seg ++ seg2, ?_, ?_, ?_⟩
    · simp only []
      rw [hc2, hc1, List.append_assoc]
    · exact List.pairwise_append.mpr ⟨ho, ho2, fun x hx y hy =>
        le_trans (hb x hx).2 (hb2 y hy).1⟩
    · intro x hx
      rcases List.mem_append.mp hx with hx | hx
      · exact ⟨(hb x hx).1, le_trans (hb x hx).2 h2⟩
      · exact ⟨le_trans h1 (hb2 x hx).1, (hb2 x hx).2⟩
  | aborted msg t1 =>
    rw [hr] at hc
    exact ⟨seg, hc, ho, fun x hx => ⟨(hb x hx).1, le_trans (hb x hx).2 h2⟩⟩
  | panicked t1 =>
    rw [hr] at hc
    exact ⟨seg, hc, ho, fun x hx => ⟨(hb x hx).1, le_trans (hb x hx).2 h2⟩⟩

theorem phased_step {W α β : Type} {m : Cmd W α} {f : α → Cmd W β} {k : Nat}
    (hm : m.phased k k) (hf : ∀ a, (f a).phased k k) : (m >>= f).phased k k :=
  phased_bind hm hf le_rfl le_rfl

theorem phased_fetchStackGuid {W : Type} (co : Collaborators W) (p : AppParams) :
    (fetchStackGuid co p).phased 1 1 := by
  unfold fetchStackGuid
  cases p.stackName with
  | none => exact phased_pure _ _ _
  | some stackName =>
    refine phased_step (phased_emit _ _ _) (fun _ => ?_)
    refine phased_step (phased_call _ _ _ _ (by simp [Call.phase]) (by simp [Call.phase])) (fun r => ?_)
    cases r with
    | error e => exact phased_Failed _ _ _
    | ok stack => exact phased_step (phased_emit _ _ _) (fun _ => phased_pure _ _ _)

theorem phased_updateApp {W : Type} (co : Collaborators W) (cfg : Config) (app : Application)
    (p : AppParams) : (updateApp co cfg app p).phased 2 2 := by
  unfold updateApp
  refine phased_step (phased_emit _ _ _) (fun _ => ?_)
  refine phased_step (phased_call _ _ _ _ (by simp [Call.phase]) (by simp [Call.phase])) (fun r => ?_)
  cases r with
  | error e => exact phased_Failed _ _ _
  | ok a =>
    refine phased_step (phased_emit _ _ _) (fun _ => ?_)
    exact phased_step (phased_emit _ _ _) (fun _ => phased_pure _ _ _)

theorem phased_createApp {W : Type} (co : Collaborators W) (cfg : Config) (p : AppParams) :
    (createApp co cfg p).phased 2 2 := by
  unfold createApp
  refine phased_step (phased_deref _ _ _) (fun _ => ?_)
  refine phased_step (phased_emit _ _ _) (fun _ => ?_)
  refine phased_step (phased_call _ _ _ _ (by simp [Call.phase]) (by simp [Call.phase])) (fun r => ?_)
  cases r with
  | error e => exact phased_Failed _ _ _
  | ok a =>
    refine phased_step (phased_emit _ _ _) (fun _ => ?_)
    exact phased_step (phased_emit _ _ _) (fun _ => phased_pure _ _ _)

theorem phased_createOrUpdateApp {W : Type} (co : Collaborators W) (cfg : Config)
    (p : AppParams) : (createOrUpdateApp co cfg p).phased 2 2 := by
  have hrest : ∀ name : Option String, (do
      let name ← (deref name : Cmd W String)
      let r ← call (.appRead name) (co.appRead name)
      match r with
      | .ok app => updateApp co cfg app p
      | .error (.modelNotFound _) => createApp co cfg p
      | .error apiErr => Failed apiErr.Error : Cmd W Application).phased 2 2 := by
    intro name
    refine phased_step (phased_deref _ _ _) (fun name => ?_)
    refine phased_step (phased_call _ _ _ _ (by simp [Call.phase]) (by simp [Call.phase]))
      (fun r => ?_)
    cases r with
    | ok app => exact phased_updateApp co cfg app p
    | error e =>
      cases e with
      | modelNotFound msg => exact phased_createApp co cfg p
      | http code msg => exact phased_Failed _ _ _
      | other msg => exact phased_Failed _ _ _
  unfold createOrUpdateApp
  by_cases hn : p.name = none
  · simp only [hn, if_true]
    exact phased_step (phased_Failed _ _ _) (fun _ => hrest none)
  · simp only [hn, if_false]
    exact phased_step (phased_pure _ _ _) (fun _ => hrest p.name)

theorem phased_findDomain {W : Type} (co : Collaborators W) (cfg : Config) (p : AppParams) :
    (findDomain co cfg p).phased 3 3 := by
  unfold findDomain
  cases p.domain with
  | some name =>
    refine phased_step (phased_call _ _ _ _ (by simp [Call.phase]) (by simp [Call.phase])) (fun r => ?_)
    cases r with
    | error e => exact phased_Failed _ _ _
    | ok d => exact phased_pure _ _ _
  | none =>
    have hdef : (findDefaultDomain co cfg).phased 3 3 := by
      unfold findDefaultDomain
      exact phased_step (phased_call _ _ _ _ (by simp [Call.phase]) (by simp [Call.phase]))
        (fun _ => phased_pure _ _ _)
    refine phased_step hdef (fun r => ?_)
    cases r with
    | error e => exact phased_Failed _ _ _
    | ok d =>
      by_cases hg : d.guid = ""
      · simp only [hg, if_true]
        exact phased_Failed _ _ _
      · simp only [hg, if_false]
        exact phased_pure _ _ _

theorem phased_hostnameForApp {W : Type} (co : Collaborators W) (p : AppParams) (c : Context) :
    (hostnameForApp co p c).phased 3 3 := by
  unfold hostnameForApp
  split
  · exact phased_pure _ _ _
  · cases p.host with
    | some host => exact phased_pure _ _ _
    | none =>
      simp only []
      split
      · refine phased_step (phased_deref _ _ _) (fun _ => ?_)
        refine phased_step (phased_call _ _ _ _ (by simp [Call.phase]) (by simp [Call.phase])) (fun _ => ?_)
        exact phased_pure _ _ _
      · exact phased_step (phased_deref _ _ _) (fun _ => phased_pure _ _ _)

theorem phased_unbindRoutes {W : Type} (co : Collaborators W) (app : Application)
    (routes : List RouteSummary) : (unbindRoutes co app routes).phased 3 3 := by
  induction routes with
  | nil => exact phased_pure _ _ _
  | cons r rest ih =>
    unfold unbindRoutes
    refine phased_step (phased_emit _ _ _) (fun _ => ?_)
    exact phased_step (phased_call _ _ _ _ (by simp [Call.phase]) (by simp [Call.phase])) (fun _ => ih)

theorem phased_findOrCreateRoute {W : Type} (co : Collaborators W) (d : DomainFields)
    (h : String) : (findOrCreateRoute co d h).phased 3 3 := by
  unfold findOrCreateRoute
  refine phased_step (phased_call _ _ _ _ (by simp [Call.phase]) (by simp [Call.phase])) (fun r => ?_)
  cases r with
  | ok route => exact phased_step (phased_emit _ _ _) (fun _ => phased_pure _ _ _)
  | error e =>
    cases e with
    | modelNotFound msg =>
      refine phased_step (phased_emit _ _ _) (fun _ => ?_)
      refine phased_step (phased_call _ _ _ _ (by simp [Call.phase]) (by simp [Call.phase])) (fun r2 => ?_)
      cases r2 with
      | error e2 => exact phased_Failed _ _ _
      | ok route =>
        refine phased_step (phased_emit _ _ _) (fun _ => ?_)
        exact phased_step (phased_emit _ _ _) (fun _ => phased_pure _ _ _)
    | http code msg => exact phased_Failed _ _ _
    | other msg => exact phased_Failed _ _ _

theorem phased_bindRouteUnlessBound {W : Type} (co : Collaborators W) (app : Application)
    (d : DomainFields) (h : String) (route : Route) :
    (bindRouteUnlessBound co app d h route).phased 3 3 := by
  unfold bindRouteUnlessBound
  split
  · refine phased_step (phased_emit _ _ _) (fun _ => ?_)
    refine phased_step (phased_call _ _ _ _ (by simp [Call.phase]) (by simp [Call.phase])) (fun r => ?_)
    cases r with
    | none => exact phased_step (phased_emit _ _ _) (fun _ => phased_emit _ _ _)
    | some e =>
      cases e with
      | modelNotFound msg => exact phased_Failed _ _ _
      | other msg => exact phased_Failed _ _ _
      | http code msg =>
        simp only []
        split
        · exact phased_Failed _ _ _
        · exact phased_Failed _ _ _
  · exact phased_pure _ _ _

theorem phased_bindAppToRoute {W : Type} (co : Collaborators W) (cfg : Config)
    (app : Application) (p : AppParams) (c : Context) :
    (bindAppToRoute co cfg app p c).phased 3 3 := by
  cases hnr : p.noRoute with
  | true =>
    unfold bindAppToRoute
    simp only [hnr, if_true]
    split
    · exact phased_emit _ _ _
    · exact phased_unbindRoutes co app app.routes
  | false =>
    by_cases hgo : resolvesRoute app c
    · intro t
      rw [bindAppToRoute_steps co cfg app p c t hnr hgo]
      exact (phased_step (phased_findDomain co cfg p) (fun d =>
        phased_step (phased_hostnameForApp co p c) (fun h =>
          phased_step (phased_findOrCreateRoute co d h) (fun route =>
            phased_bindRouteUnlessBound co app d h route)))) t
    · simp only [resolvesRoute, not_or, ne_eq, not_not, Bool.not_eq_true] at hgo
      obtain ⟨h1, h2, h3, h4⟩ := hgo
      have hlen : 0 < app.routes.length := List.length_pos.mpr h1
      refine phased_silent _ _ _ (fun t => ?_)
      simp [bindAppToRoute, hnr, h2, h3, h4, hlen, pure_apply, Outcome.calls, Outcome.trace]

theorem phased_bindAppToServices {W : Type} (co : Collaborators W) (cfg : Config)
    (app : Application) (services : List String) :
    (bindAppToServices co cfg app services).phased 5 5 := by
  induction services with
  | nil => exact phased_pure _ _ _
  | cons name rest ih =>
    unfold bindAppToServices
    refine phased_step (phased_call _ _ _ _ (by simp [Call.phase]) (by simp [Call.phase])) (fun r => ?_)
    cases r with
    | error e => exact phased_Failed _ _ _
    | ok inst =>
      refine phased_step (phased_emit _ _ _) (fun _ => ?_)
      refine phased_step (phased_call _ _ _ _ (by simp [Call.phase]) (by simp [Call.phase])) (fun e => ?_)
      cases e with
      | none => exact phased_step (phased_emit _ _ _) (fun _ => ih)
      | some e =>
        cases e with
        | modelNotFound msg => exact phased_Failed _ _ _
        | other msg => exact phased_Failed _ _ _
        | http code msg =>
          by_cases hc : code = APP_ALREADY_BOUND
          · simp only [hc, if_true]
            exact phased_step (phased_emit _ _ _) (fun _ => ih)
          · simp only [hc, if_false]
            exact phased_Failed _ _ _

theorem phased_restart {W : Type} (co : Collaborators W) (app : Application) (p : AppParams)
    (c : Context) : (restart co app p c).phased 6 6 := by
  unfold restart
  have hstop : (if app.state ≠ "stopped" then do
        Say ""
        let r ← call (.applicationStop app) (co.applicationStop app)
        pure r.1
      else pure app : Cmd W Application).phased 6 6 := by
    split
    · refine phased_step (phased_emit _ _ _) (fun _ => ?_)
      refine phased_step (phased_call _ _ _ _ (by simp [Call.phase]) (by simp [Call.phase])) (fun _ => ?_)
      exact phased_pure _ _ _
    · exact phased_pure _ _ _
  refine phased_step hstop (fun a => ?_)
  refine phased_step (phased_emit _ _ _) (fun _ => ?_)
  cases c.noStart with
  | true => exact phased_pure _ _ _
  | false =>
    simp only [Bool.false_eq_true, if_false]
    cases p.healthCheckTimeout with
    | none =>
      refine phased_step (phased_pure _ _ _) (fun _ => ?_)
      refine phased_step (phased_call _ _ _ _ (by simp [Call.phase]) (by simp [Call.phase])) (fun _ => ?_)
      exact phased_pure _ _ _
    | some timeout =>
      refine phased_step (phased_callUnit _ _ _ _ (by simp [Call.phase]) (by simp [Call.phase])) (fun _ => ?_)
      refine phased_step (phased_call _ _ _ _ (by simp [Call.phase]) (by simp [Call.phase])) (fun _ => ?_)
      exact phased_pure _ _ _

theorem phased_describeUploads {W : Type} (co : Collaborators W) (ps : List UploadProgress) :
    (describeUploads co ps).phased 4 4 := by
  induction ps with
  | nil => exact phased_pure _ _ _
  | cons q rest ih =>
    unfold describeUploads
    have hq : (describeUploadOperation co q).phased 4 4 := by
      unfold describeUploadOperation
      split
      · exact phased_step (phased_emit _ _ _) (fun _ => phased_emit _ _ _)
      · exact phased_emit _ _ _
    exact phased_step hq (fun _ => ih)

theorem phased_pushApp {W : Type} (co : Collaborators W) (cfg : Config) (c : Context)
    (p : AppParams) : (pushApp co cfg c p).phased 1 6 := by
  unfold pushApp
  refine phased_bind (phased_fetchStackGuid co p) (fun q => ?_) le_rfl (by decide)
  refine phased_bind (phased_weaken (phased_createOrUpdateApp co cfg q) (by decide) le_rfl)
    (fun app => ?_) (by decide) (by decide)
  refine phased_bind (phased_weaken (phased_bindAppToRoute co cfg app q c) (by decide) le_rfl)
    (fun _ => ?_) (by decide) (by decide)
  refine phased_bind (phased_emit _ 3 3) (fun _ => ?_) le_rfl (by decide)
  refine phased_bind (phased_deref _ 3 3) (fun path => ?_) le_rfl (by decide)
  refine phased_bind (phased_call _ _ 3 4 (by simp [Call.phase]) (by simp [Call.phase])) (fun r => ?_)
    (by decide) (by decide)
  refine phased_bind (phased_describeUploads co r.1) (fun _ => ?_) le_rfl (by decide)
  obtain ⟨progress, err⟩ := r
  cases err with
  | some e => exact phased_Failed _ _ _
  | none =>
    refine phased_bind (phased_emit _ 4 4) (fun _ => ?_) le_rfl (by decide)
    cases q.servicesToBind with
    | none =>
      refine phased_bind (phased_pure _ 4 5) (fun _ => ?_) (by decide) (by decide)
      exact phased_weaken (phased_restart co app q c) (by decide) le_rfl
    | some services =>
      refine phased_bind
        (phased_weaken (phased_bindAppToServices co cfg app services) (by decide) le_rfl)
        (fun _ => ?_) (by decide) (by decide)
      exact phased_weaken (phased_restart co app q c) (by decide) le_rfl

/-! ## A failed upload -/

theorem pushApps_append {W : Type} (co : Collaborators W) (cfg : Config) (c : Context)
    (xs ys : List AppParams) (t : Trace W) :
    pushApps co cfg c (xs ++ ys) t =
      (pushApps co cfg c xs >>= fun _ => pushApps co cfg c ys) t := by
  induction xs generalizing t with
  | nil => simp [pushApps, pure_bind_apply]
  | cons x xs ih =>
    simp only [List.cons_append, pushApps, bind_apply]
    cases pushApp co cfg c x t with
    | done a t1 => exact ih t1
    | aborted msg t1 => rfl
    | panicked t1 => rfl

theorem describeUploads_run {W : Type} (co : Collaborators W) (ps : List UploadProgress)
    (t : Trace W) :
    ∃ lines, describeUploads co ps t =
      .done () { world := t.world, calls := t.calls, ui := t.ui ++ lines } := by
  induction ps generalizing t with
  | nil => exact ⟨[], by simp [describeUploads, pure_apply]⟩
  | cons q rest ih =>
    by_cases hf : q.fileCount > 0
    · obtain ⟨lines, hl⟩ := ih
        { world := t.world, calls := t.calls,
          ui := t.ui ++ [.say ("Uploading app files from: " ++ q.path)] ++
            [.say ("Uploading " ++ co.byteSize q.zipFileBytes ++ ", " ++
              toString q.fileCount ++ " files")] }
      refine ⟨[.say ("Uploading app files from: " ++ q.path),
        .say ("Uploading " ++ co.byteSize q.zipFileBytes ++ ", " ++
          toString q.fileCount ++ " files")] ++ lines, ?_⟩
      simp only [describeUploads, describeUploadOperation, hf, if_true, bind_apply, Say, emit]
      rw [hl]
      simp
    · obtain ⟨lines, hl⟩ := ih
        { world := t.world, calls := t.calls,
          ui := t.ui ++ [.warn "None of your application files have changed. Nothing will be uploaded."] }
      refine ⟨[.warn "None of your application files have changed. Nothing will be uploaded."] ++
        lines, ?_⟩
      simp only [describeUploads, describeUploadOperation, hf, if_false, bind_apply, Warn, emit]
      rw [hl]
      simp

/-- C26: let `Run` have built the set of applications and pushed the entries before
the entry `p`, and let the push of `p` have come to the upload (stack, application
and route are done). If the upload call returns an error, `Run` ends with the
failure `Error uploading application.` followed by the message of the error, written
as the last line, and the upload call is the last call of the run: no lookup of a
service instance, no service bind and no stop or start call is made for `p`, and no
call at all for the entries after `p`. -/
theorem Run_stops_at_failed_upload {W : Type} (co : Collaborators W) (cfg : Config)
    (c : Context) (t t0 ta tb tc td : Trace W) (before later : List AppParams)
    (p q : AppParams) (app : Application) (path : String) (e : ApiError)
    (hset : findAndValidateAppsToPush co cfg c t = .done (before ++ p :: later) t0)
    (hbefore : pushApps co cfg c before (afterRefresh co t0) = .done () ta)
    (hstack : fetchStackGuid co p ta = .done q tb)
    (happ : createOrUpdateApp co cfg q tb = .done app tc)
    (hroute : bindAppToRoute co cfg app q c tc = .done () td)
    (hpath : q.path = some path)
    (hupload : (co.uploadApp app.guid path td.world).1.2 = some e) :
    (Run co cfg c t).failure = some ("Error uploading application.\n" ++ e.Error) ∧
    (Run co cfg c t).calls = td.calls ++ [.uploadApp app.guid path] ∧
    (Run co cfg c t).trace.ui.getLast? =
      some (.failed ("Error uploading application.\n" ++ e.Error)) := by
  have hrun : Run co cfg c t =
      pushApps co cfg c (before ++ p :: later) (afterRefresh co t0) := by
    simp only [Run, bind_apply, hset]
    rfl
  obtain ⟨lines, hl⟩ := describeUploads_run co (co.uploadApp app.guid path td.world).1.1
    { world := (co.uploadApp app.guid path td.world).2
      calls := td.calls ++ [.uploadApp app.guid path]
      ui := td.ui ++ [.say ("Uploading " ++ app.name ++ "...")] }
  simp only [] at hl
  have hpush : pushApp co cfg c p ta =
      .aborted ("Error uploading application.\n" ++ e.Error)
        { world := (co.uploadApp app.guid path td.world).2
          calls := td.calls ++ [.uploadApp app.guid path]
          ui := td.ui ++ [.say ("Uploading " ++ app.name ++ "...")] ++ lines ++
            [.failed ("Error uploading application.\n" ++ e.Error)] } := by
    simp only [pushApp, bind_apply, hstack, happ, hroute, hpath, Say, emit, deref, call_apply,
      hl, hupload, Failed]
  rw [hrun, pushApps_append, bind_apply, hbefore]
  simp only [pushApps, bind_apply, hpush]
  exact ⟨rfl, rfl, List.getLast?_concat _⟩

/-- C26 at a push without arguments against a manifest of the entries `foo` and
`worker` and an uploader that fails: the run ends with the upload of `foo`, no
service of `foo` is looked up, and nothing is called for `worker`. -/
theorem Run_stops_at_failed_upload_witness :
    (Run failingUpload exampleConfig Context.empty (startAt fooAndWorkerRemote)).failure =
      some ("Error uploading application.\n" ++ (ApiError.other "upload failed").Error) ∧
    (Run failingUpload exampleConfig Context.empty (startAt fooAndWorkerRemote)).calls =
      fooUpdated.calls ++ [.uploadApp fooWithTwoRoutes.guid "/foo"] ∧
    (Run failingUpload exampleConfig Context.empty (startAt fooAndWorkerRemote)).trace.ui.getLast? =
      some (.failed ("Error uploading application.\n" ++ (ApiError.other "upload failed").Error)) :=
  Run_stops_at_failed_upload failingUpload exampleConfig Context.empty
    (startAt fooAndWorkerRemote) manifestRead (afterRefresh failingUpload manifestRead)
    (afterRefresh failingUpload manifestRead) fooUpdated fooUpdated [] [workerApp] fooApp fooApp
    fooWithTwoRoutes "/foo" (.other "upload failed") (by decide!) (by decide!) (by decide!)
    (by decide!) (by decide!) rfl rfl

/-! ## The flags `-c` and `-b` -/

theorem resetValue_flagValue (v : String) (prev : Option String) (hprev : prev = none) :
    (if v ≠ "" then some (resetValue v) else prev) = flagValue v := by
  subst hprev
  unfold flagValue resetValue
  by_cases h1 : v = ""
  · simp [h1]
  · by_cases h2 : v = "null"
    · simp [h2]
    · by_cases h3 : v = "default"
      · simp [h3]
      · simp [h1, h2, h3]

theorem getAppParamsFromContext_flags {W : Type} (co : Collaborators W) (c : Context) :
    (getAppParamsFromContext co c).safe
      (fun p => p.command = flagValue c.c ∧ p.buildpackUrl = flagValue c.b) := by
  unfold getAppParamsFromContext
  lift_lets
  intro a0 a1 a2 a3 a4 a5 a6
  have h1 : a1.command = none ∧ a1.buildpackUrl = none := by
    simp only [a1]
    split <;> exact ⟨rfl, rfl⟩
  have h3 : a3.command = none ∧ a3.buildpackUrl = none := by
    simp only [a3]
    split <;> exact h1
  have h4 : a4.command = none ∧ a4.buildpackUrl = flagValue c.b := by
    refine ⟨?_, ?_⟩
    · simp only [a4]
      split <;> exact h3.1
    · rw [← resetValue_flagValue c.b a3.buildpackUrl h3.2]
      simp only [a4]
      split <;> rfl
  have h5 : a5.command = flagValue c.c ∧ a5.buildpackUrl = flagValue c.b := by
    refine ⟨?_, ?_⟩
    · rw [← resetValue_flagValue c.c a4.command h4.1]
      simp only [a5]
      split <;> rfl
    · simp only [a5]
      split <;> exact h4.2
  have h6 : a6.command = flagValue c.c ∧ a6.buildpackUrl = flagValue c.b := by
    simp only [a6]
    split <;> exact h5
  clear_value a6
  refine safe_bind (P := fun q => q.command = flagValue c.c ∧ q.buildpackUrl = flagValue c.b)
    ?_ (fun q hq => ?_)
  · split
    · split
      · exact safe_bind (safe_Failed _ (fun _ => True)) (fun _ _ => safe_pure _ _ h6)
      · exact safe_bind (safe_pure _ (fun _ => True) trivial) (fun _ _ => safe_pure _ _ h6)
    · exact safe_pure _ _ h6
  refine safe_bind (P := fun q => q.command = flagValue c.c ∧ q.buildpackUrl = flagValue c.b)
    ?_ (fun q2 hq2 => ?_)
  · split
    · split
      · exact safe_Failed _ _
      · exact safe_pure _ _ hq
    · exact safe_pure _ _ hq
  refine safe_bind (P := fun q => q.command = flagValue c.c ∧ q.buildpackUrl = flagValue c.b)
    ?_ (fun q3 hq3 => ?_)
  · split
    · split
      · exact safe_Failed _ _
      · exact safe_pure _ _ hq2
    · exact safe_pure _ _ hq2
  lift_lets
  intro b1 b2
  have hb1 : b1.command = flagValue c.c ∧ b1.buildpackUrl = flagValue c.b := by
    simp only [b1]
    split <;> exact hq3
  have hb2 : b2.command = flagValue c.c ∧ b2.buildpackUrl = flagValue c.b := by
    simp only [b2]
    split <;> exact hb1
  clear_value b2
  split
  · split
    · exact safe_Failed _ _
    · exact safe_pure _ _ hb2
  · exact safe_pure _ _ hb2

theorem getAppParamsFromContext_pure {W : Type} (co : Collaborators W) (c : Context)
    (hi : c.iSet = false) (hk : c.k = "") (hm : c.m = "") (ht : c.t = "") :
    ∃ p, getAppParamsFromContext co c = (pure p : Cmd W AppParams) := by
  unfold getAppParamsFromContext
  lift_lets
  intro a0 a1 a2 a3 a4 a5 a6
  clear_value a6
  simp only [hi, hk, hm, ht, ne_eq, not_true_eq_false, if_false, Bool.false_eq_true]
  exact ⟨_, rfl⟩

theorem getAppParamsFromContext_returns {W : Type} (co : Collaborators W) (c : Context)
    (t : Trace W) (hi : c.iSet = false) (hk : c.k = "") (hm : c.m = "") (ht : c.t = "") :
    ∃ p, getAppParamsFromContext co c t = .done p t := by
  obtain ⟨p, hp⟩ := getAppParamsFromContext_pure (W := W) co c hi hk hm ht
  exact ⟨p, by rw [hp]; rfl⟩

/-- C27: the parameters `getAppParamsFromContext` returns have, for the flag `-c`
(field `command`) and likewise for the flag `-b` (field `buildpackUrl`): a present,
empty value for the values `null` and `default`; an absent field for a flag that is
not given or empty; and for every other value that value, present and unchanged.
When none of the flags `-i`, `-k`, `-m`, `-t` is given, the method returns. -/
theorem getAppParamsFromContext_command_and_buildpack {W : Type} (co : Collaborators W)
    (c : Context) (t : Trace W) :
    (∀ p t1, getAppParamsFromContext co c t = .done p t1 →
      p.command = flagValue c.c ∧ p.buildpackUrl = flagValue c.b) ∧
    (c.iSet = false → c.k = "" → c.m = "" → c.t = "" →
      ∃ p, getAppParamsFromContext co c t = .done p t) ∧
    flagValue "" = none ∧ flagValue "null" = some "" ∧ flagValue "default" = some "" ∧
    (∀ v, v ≠ "" → v ≠ "null" → v ≠ "default" → flagValue v = some v) := by
  refine ⟨fun p t1 h => ?_, getAppParamsFromContext_returns co c t, by decide, by decide,
    by decide, fun v h1 h2 h3 => by simp [flagValue, h1, h2, h3]⟩
  have hs := getAppParamsFromContext_flags co c t
  rw [h] at hs
  exact hs

/-- C27 at the command line `push foo -c null -b https://example.com/buildpack.git`:
the start command is present and empty, the buildpack is the value of the flag. -/
theorem getAppParamsFromContext_command_and_buildpack_witness :
    ∃ p, getAppParamsFromContext faithful pushFooResetCommand (startAt Remote.empty) =
        .done p (startAt Remote.empty) ∧
      p.command = some "" ∧ p.buildpackUrl = some "https://example.com/buildpack.git" := by
  have h := getAppParamsFromContext_command_and_buildpack faithful pushFooResetCommand
    (startAt Remote.empty)
  obtain ⟨p, hp⟩ := h.2.1 rfl rfl rfl rfl
  have hf := h.1 p _ hp
  exact ⟨p, hp, hf.1.trans (by decide), hf.2.trans (by decide)⟩

/-! ## The default domain, whatever the listing call returns -/

/-- C28: with a listing that calls the visitor on each domain in order and stops as
soon as the visitor returns false, `findDefaultDomain` makes the one listing call and
always returns: the first shared domain of the listing when there is one, and the
last domain listed otherwise; the error `Could not find a default domain` exactly
when no domain is listed. The result depends on the domains listed only: the error
the listing call itself returns is not looked at, also when there is one. -/
theorem findDefaultDomain_ignores_listing_error {W : Type} (co : Collaborators W)
    (cfg : Config) (t : Trace W) :
    findDefaultDomain co cfg t =
      .done
        (match firstSharedElseLast (co.listDomainsForOrg cfg.orgGuid t.world).1.1 with
          | some d => .ok d
          | none => .error "Could not find a default domain")
        { world := (co.listDomainsForOrg cfg.orgGuid t.world).2
          calls := t.calls ++ [.listDomainsForOrg cfg.orgGuid]
          ui := t.ui } ∧
    (firstSharedElseLast (co.listDomainsForOrg cfg.orgGuid t.world).1.1 = none ↔
      (co.listDomainsForOrg cfg.orgGuid t.world).1.1 = []) ∧
    ((findDefaultDomain failingListing exampleConfig).runFrom twoPrivateRemote).value =
      some (.ok otherPrivateDomain) := by
  refine ⟨?_, ?_, by decide⟩
  · simp only [findDefaultDomain, bind_apply, call_apply, pure_apply]
    cases hl : (co.listDomainsForOrg cfg.orgGuid t.world).1.1 with
    | nil => rfl
    | cons e rest =>
      obtain ⟨r, hr, hs⟩ := selectDefaultDomain_cons e rest
      rw [hs, hr]
  · cases hl : (co.listDomainsForOrg cfg.orgGuid t.world).1.1 with
    | nil => simp [firstSharedElseLast, firstShared]
    | cons e rest =>
      obtain ⟨r, hr, _⟩ := selectDefaultDomain_cons e rest
      simp [hr]

/-! ## Creating a route that exists already -/

/-- C30: `CreateRoute` always returns. It returns no error if and only if the call
`CreateInSpace` returns none, or it returns one and the lookup by host and domain
name that follows returns no error and a route whose space identifier and domain
identifier are those asked for. The route returned is the created one in the first
case and the one the lookup returned otherwise; the error returned in every other
case is the error of `CreateInSpace`, not that of the lookup. -/
theorem CreateRoute_error_iff {W : Type} (repo : RouteRepository W) (cfg : Config)
    (hostName : String) (domain : DomainFields) (space : SpaceFields) (t : Trace W) :
    (CreateRoute repo cfg hostName domain space t).value =
      some
        (if (repo.CreateInSpace hostName domain.guid space.guid t.world).1.2 = none then
          ((repo.CreateInSpace hostName domain.guid space.guid t.world).1.1, none)
         else if
          (repo.FindByHostAndDomain hostName domain.name
              (repo.CreateInSpace hostName domain.guid space.guid t.world).2).1.2 = none ∧
            (repo.FindByHostAndDomain hostName domain.name
              (repo.CreateInSpace hostName domain.guid space.guid t.world).2).1.1.spaceGuid =
              space.guid ∧
            (repo.FindByHostAndDomain hostName domain.name
              (repo.CreateInSpace hostName domain.guid space.guid t.world).2).1.1.domain.guid =
              domain.guid then
          ((repo.FindByHostAndDomain hostName domain.name
              (repo.CreateInSpace hostName domain.guid space.guid t.world).2).1.1, none)
         else
          ((repo.FindByHostAndDomain hostName domain.name
              (repo.CreateInSpace hostName domain.guid space.guid t.world).2).1.1,
            (repo.CreateInSpace hostName domain.guid space.guid t.world).1.2)) ∧
    ((CreateRoute repo cfg hostName domain space t).value.map Prod.snd = some none ↔
      (repo.CreateInSpace hostName domain.guid space.guid t.world).1.2 = none ∨
      ((repo.CreateInSpace hostName domain.guid space.guid t.world).1.2 ≠ none ∧
        (repo.FindByHostAndDomain hostName domain.name
            (repo.CreateInSpace hostName domain.guid space.guid t.world).2).1.2 = none ∧
        (repo.FindByHostAndDomain hostName domain.name
            (repo.CreateInSpace hostName domain.guid space.guid t.world).2).1.1.spaceGuid =
            space.guid ∧
        (repo.FindByHostAndDomain hostName domain.name
            (repo.CreateInSpace hostName domain.guid space.guid t.world).2).1.1.domain.guid =
            domain.guid)) ∧
    ((CreateRoute recordingRoutes exampleConfig "foo" sharedDomain otherSpace).runFrom
        twoRoutesRemote).value =
      some (routeOne, some (.http "210003" "The host is taken")) ∧
    ((CreateRoute recordingRoutes exampleConfig "foo" sharedDomain exampleSpace).runFrom
        twoRoutesRemote).value = some (routeOne, none) := by
  have hval : (CreateRoute repo cfg hostName domain space t).value = some
        (if (repo.CreateInSpace hostName domain.guid space.guid t.world).1.2 = none then
          ((repo.CreateInSpace hostName domain.guid space.guid t.world).1.1, none)
         else if
          (repo.FindByHostAndDomain hostName domain.name
              (repo.CreateInSpace hostName domain.guid space.guid t.world).2).1.2 = none ∧
            (repo.FindByHostAndDomain hostName domain.name
              (repo.CreateInSpace hostName domain.guid space.guid t.world).2).1.1.spaceGuid =
              space.guid ∧
            (repo.FindByHostAndDomain hostName domain.name
              (repo.CreateInSpace hostName domain.guid space.guid t.world).2).1.1.domain.guid =
              domain.guid then
          ((repo.FindByHostAndDomain hostName domain.name
              (repo.CreateInSpace hostName domain.guid space.guid t.world).2).1.1, none)
         else
          ((repo.FindByHostAndDomain hostName domain.name
              (repo.CreateInSpace hostName domain.guid space.guid t.world).2).1.1,
            (repo.CreateInSpace hostName domain.guid space.guid t.world).1.2)) := by
    simp only [CreateRoute, bind_apply, Say, emit, call_apply]
    generalize repo.CreateInSpace hostName domain.guid space.guid t.world = cr
    obtain ⟨⟨croute, cerr⟩, w1⟩ := cr
    cases cerr with
    | none => simp [Ok, emit, bind_apply, pure_apply, Outcome.value]
    | some e =>
      simp only [bind_apply, call_apply]
      generalize repo.FindByHostAndDomain hostName domain.name w1 = fr
      obtain ⟨⟨froute, ferr⟩, w2⟩ := fr
      by_cases h1 : ferr = none
      · by_cases h2 : froute.spaceGuid = space.guid
        · by_cases h3 : froute.domain.guid = domain.guid
          · simp [h1, h2, h3, Ok, Warn, emit, bind_apply, pure_apply, Outcome.value]
          · simp [h1, h2, h3, Ok, Warn, emit, bind_apply, pure_apply, Outcome.value]
        · simp [h1, h2, Ok, Warn, emit, bind_apply, pure_apply, Outcome.value]
      · simp [h1, Ok, Warn, emit, bind_apply, pure_apply, Outcome.value]
  refine ⟨hval, ?_, by decide!, by decide!⟩
  rw [hval]
  generalize repo.CreateInSpace hostName domain.guid space.guid t.world = cr
  obtain ⟨⟨croute, cerr⟩, w1⟩ := cr
  generalize repo.FindByHostAndDomain hostName domain.name w1 = fr
  obtain ⟨⟨froute, ferr⟩, w2⟩ := fr
  cases cerr with
  | none => simp
  | some e =>
    by_cases h : ferr = none ∧ froute.spaceGuid = space.guid ∧ froute.domain.guid = domain.guid
    · simp [h]
    · simp only [reduceCtorEq, if_false, h, Option.map_some', Option.some.injEq, false_or,
        ne_eq, not_false_eq_true, true_and]

/-! ## The table printer -/

theorem widen_nil_right (sizes : List Nat) : widen sizes [] = sizes := by
  cases sizes <;> rfl

theorem widen_length (sizes lens : List Nat) : (widen sizes lens).length = sizes.length := by
  induction sizes generalizing lens with
  | nil => cases lens <;> rfl
  | cons m ms ih =>
    cases lens with
    | nil => rfl
    | cons l ls => simp [widen, ih]

theorem widen_getElem? (sizes lens : List Nat) (c : Nat) :
    (widen sizes lens)[c]? =
      (sizes[c]?).map (fun m => match lens[c]? with
        | some l => max m l
        | none => m) := by
  induction sizes generalizing lens c with
  | nil => cases lens <;> simp [widen]
  | cons m ms ih =>
    cases lens with
    | nil => simp [widen]
    | cons l ls =>
      cases c with
      | zero => simp [widen]
      | succ c => simp [widen, ih]

theorem calculateMaxSizeFrom_eq (pal : Palette) (row : List String) :
    ∀ (pre sizes : List Nat), row.length ≤ sizes.length →
      calculateMaxSizeFrom pal pre.length row (pre ++ sizes) =
        .ok (pre ++ widen sizes (row.map pal.visibleLen)) := by
  induction row with
  | nil =>
    intro pre sizes _
    simp [calculateMaxSizeFrom, widen_nil_right]
  | cons v rest ih =>
    intro pre sizes h
    cases sizes with
    | nil => simp at h
    | cons m ms =>
      have hget : (pre ++ m :: ms)[pre.length]? = some m := by
        rw [List.getElem?_append_right (le_refl _)]
        simp
      have hlen : rest.length ≤ ms.length := by simpa using h
      simp only [calculateMaxSizeFrom, hget, List.map_cons, widen]
      by_cases hlt : m < pal.visibleLen v
      · rw [if_pos hlt]
        have hset : (pre ++ m :: ms).set pre.length (pal.visibleLen v) =
            (pre ++ [pal.visibleLen v]) ++ ms := by simp
        have h1 := ih (pre ++ [pal.visibleLen v]) ms hlen
        simp only [List.length_append, List.length_singleton] at h1
        rw [hset, h1, max_eq_right (le_of_lt hlt)]
        simp
      · rw [if_neg hlt]
        have h1 := ih (pre ++ [m]) ms hlen
        simp only [List.length_append, List.length_singleton] at h1
        have hpre : pre ++ m :: ms = (pre ++ [m]) ++ ms := by simp
        rw [hpre, h1, max_eq_left (not_lt.mp hlt)]
        simp

theorem calculateMaxSize_eq (pal : Palette) (t : PrintableTable) (row : List String)
    (h : row.length ≤ t.maxSizes.length) :
    calculateMaxSize pal t row =
      .ok { t with maxSizes := widen t.maxSizes (row.map pal.visibleLen) } := by
  have h1 := calculateMaxSizeFrom_eq pal row [] t.maxSizes h
  simp only [List.length_nil, List.nil_append] at h1
  simp [calculateMaxSize, h1]

theorem TableInv_NewTable (pal : Palette) (header : List String) :
    TableInv pal header [] (NewTable header) := by
  refine ⟨rfl, by simp [NewTable], fun c m h => ?_⟩
  have hm : m = 0 := by
    simp only [NewTable, List.getElem?_replicate] at h
    split at h
    · exact (Option.some.inj h).symm
    · cases h
  exact ⟨fun row hrow => absurd hrow (List.not_mem_nil _), Or.inl hm⟩

theorem ColumnMax_mono (pal : Palette) (s1 s2 : List (List String)) (c m : Nat)
    (hsub : ∀ row, row ∈ s1 ↔ row ∈ s2) (h : ColumnMax pal s1 c m) : ColumnMax pal s2 c m := by
  refine ⟨fun row hrow v hv => h.1 row ((hsub row).mpr hrow) v hv, ?_⟩
  rcases h.2 with h0 | ⟨row, hrow, v, hv, hm⟩
  · exact Or.inl h0
  · exact Or.inr ⟨row, (hsub row).mp hrow, v, hv, hm⟩

theorem calculateMaxSize_inv (pal : Palette) (header : List String) (seen : List (List String))
    (t : PrintableTable) (row : List String) (hinv : TableInv pal header seen t)
    (hfit : row.length ≤ header.length) :
    ∃ t1, calculateMaxSize pal t row = .ok t1 ∧ TableInv pal header (seen ++ [row]) t1 ∧
      t1.headerPrinted = t.headerPrinted := by
  obtain ⟨hh, hl, hc⟩ := hinv
  refine ⟨_, calculateMaxSize_eq pal t row (by rw [hl]; exact hfit), ⟨hh, ?_, ?_⟩, rfl⟩
  · simp only [widen_length]
    exact hl
  · intro c m1 hm1
    simp only [widen_getElem?, List.getElem?_map] at hm1
    cases hs : t.maxSizes[c]? with
    | none => simp [hs] at hm1
    | some m =>
      obtain ⟨hbound, hatt⟩ := hc c m hs
      cases hr : row[c]? with
      | none =>
        simp only [hs, hr, Option.map_none', Option.map_some', Option.some.injEq] at hm1
        subst hm1
        refine ⟨fun r hrmem v hv => ?_, ?_⟩
        · rcases List.mem_append.mp hrmem with hrmem | hrmem
          · exact hbound r hrmem v hv
          · rw [List.mem_singleton] at hrmem
            subst hrmem
            rw [hr] at hv
            cases hv
        · rcases hatt with h0 | ⟨r, hrmem, v, hv, hvm⟩
          · exact Or.inl h0
          · exact Or.inr ⟨r, List.mem_append_left _ hrmem, v, hv, hvm⟩
      | some v =>
        simp only [hs, hr, Option.map_some', Option.some.injEq] at hm1
        subst hm1
        refine ⟨fun r hrmem v1 hv1 => ?_, ?_⟩
        · rcases List.mem_append.mp hrmem with hrmem | hrmem
          · exact le_trans (hbound r hrmem v1 hv1) (le_max_left _ _)
          · rw [List.mem_singleton] at hrmem
            subst hrmem
            rw [hr] at hv1
            cases hv1
            exact le_max_right _ _
        · by_cases hle : m ≤ pal.visibleLen v
          · exact Or.inr ⟨row, by simp, v, hr, by rw [max_eq_right hle]⟩
          · rw [max_eq_left (le_of_lt (not_le.mp hle))]
            rcases hatt with h0 | ⟨r, hrmem, v1, hv1, hvm⟩
            · exact Or.inl h0
            · exact Or.inr ⟨r, List.mem_append_left _ hrmem, v1, hv1, hvm⟩

theorem calculateMaxSizes_inv (pal : Palette) (header : List String)
    (rows : List (List String)) :
    ∀ (seen : List (List String)) (t : PrintableTable), TableInv pal header seen t →
      (∀ row ∈ rows, row.length ≤ header.length) →
      ∃ t1, calculateMaxSizes pal rows t = .ok t1 ∧ TableInv pal header (seen ++ rows) t1 ∧
        t1.headerPrinted = t.headerPrinted := by
  induction rows with
  | nil =>
    intro seen t hinv _
    exact ⟨t, rfl, by simpa using hinv, rfl⟩
  | cons row rest ih =>
    intro seen t hinv hfit
    obtain ⟨t1, h1, hinv1, hp1⟩ := calculateMaxSize_inv pal header seen t row hinv
      (hfit row (List.mem_cons_self _ _))
    obtain ⟨t2, h2, hinv2, hp2⟩ := ih (seen ++ [row]) t1 hinv1
      (fun r hr => hfit r (List.mem_cons_of_mem _ hr))
    refine ⟨t2, ?_, ?_, hp2.trans hp1⟩
    · simp only [calculateMaxSizes, h1]
      exact h2
    · simpa using hinv2

theorem cellValue_padded (pal : Palette) (t : PrintableTable) (col m : Nat) (value : String)
    (hcol : col + 1 < t.header.length) (hm : t.maxSizes[col]? = some m)
    (hle : pal.visibleLen value ≤ m) :
    cellValue pal t col value =
      .ok (value ++ String.join (List.replicate (m - pal.visibleLen value) " ") ++ "   ") := by
  have h1 : (col : Int) < (t.header.length : Int) - 1 := by omega
  have h2 : ¬ ((m : Int) - (pal.visibleLen value : Int) < 0) := by omega
  have h3 : ((m : Int) - (pal.visibleLen value : Int)).toNat = m - pal.visibleLen value := by
    omega
  simp only [cellValue, h1, if_true, hm, goRepeat, h2, if_false, h3]

theorem cellValue_last (pal : Palette) (t : PrintableTable) (col : Nat) (value : String)
    (hcol : ¬ (col + 1 < t.header.length)) :
    cellValue pal t col value = .ok (value ++ "" ++ "   ") := by
  have h1 : ¬ ((col : Int) < (t.header.length : Int) - 1) := by omega
  simp only [cellValue, h1, if_false]

/-! ## The calls of a run, application by application -/

theorem fetchStackGuid_done {W : Type} (co : Collaborators W) (p q : AppParams)
    (t ta : Trace W) (h : fetchStackGuid co p t = .done q ta) :
    ({ q with stackGuid := none } : AppParams) = { p with stackGuid := none } ∧
    ta.calls = t.calls ++
      (match p.stackName with
        | some stackName => [.stackFindByName stackName]
        | none => []) := by
  unfold fetchStackGuid at h
  cases hs : p.stackName with
  | none =>
    rw [hs] at h
    have h1 : (Outcome.done p t : Outcome W AppParams) = .done q ta := h
    cases h1
    simp [hs]
  | some stackName =>
    rw [hs] at h
    simp only [bind_apply, Say, emit, call_apply] at h
    cases hr : (co.stackFindByName stackName t.world).1 with
    | error e =>
      rw [hr] at h
      cases h
    | ok stack =>
      rw [hr] at h
      simp only [Ok, emit, bind_apply, pure_apply] at h
      cases h
      simp [hs]

theorem createOrUpdateApp_done {W : Type} (co : Collaborators W) (cfg : Config)
    (q : AppParams) (app : Application) (ta tb : Trace W)
    (h : createOrUpdateApp co cfg q ta = .done app tb) :
    ∃ name appCall, q.name = some name ∧
      (appCall = .appCreate { q with spaceGuid := some cfg.spaceGuid } ∨
        ∃ found : Application, appCall = .appUpdate found.guid (updateParams found q)) ∧
      tb.calls = ta.calls ++ [.appRead name, appCall] := by
  by_cases hnone : q.name = none
  · simp [createOrUpdateApp, hnone, bind_apply, Failed] at h
  · obtain ⟨name, hn⟩ := Option.ne_none_iff_exists'.mp hnone
    rw [createOrUpdateApp_run co cfg q name ta hn] at h
    cases hr : (co.appRead name ta.world).1 with
    | ok found =>
      rw [hr] at h
      simp only [] at h
      have hc := updateApp_calls co cfg found q
        { world := (co.appRead name ta.world).2, calls := ta.calls ++ [.appRead name],
          ui := ta.ui }
      rw [h] at hc
      refine ⟨name, .appUpdate found.guid (updateParams found q), hn, Or.inr ⟨found, rfl⟩, ?_⟩
      have hc1 : tb.calls = ta.calls ++ [.appRead name] ++
          [.appUpdate found.guid (updateParams found q)] := hc
      rw [hc1]
      simp
    | error e =>
      rw [hr] at h
      cases e with
      | modelNotFound msg =>
        simp only [] at h
        have hc := createApp_calls co cfg q name
          { world := (co.appRead name ta.world).2, calls := ta.calls ++ [.appRead name],
            ui := ta.ui } hn
        rw [h] at hc
        refine ⟨name, .appCreate { q with spaceGuid := some cfg.spaceGuid }, hn,
          Or.inl rfl, ?_⟩
        have hc1 : tb.calls = ta.calls ++ [.appRead name] ++
            [.appCreate { q with spaceGuid := some cfg.spaceGuid }] := hc
        rw [hc1]
        simp
      | http code msg => cases h
      | other msg => cases h

theorem bindAppToRoute_done {W : Type} (co : Collaborators W) (cfg : Config)
    (app : Application) (q : AppParams) (c : Context) (tb tc : Trace W)
    (h : bindAppToRoute co cfg app q c tb = .done () tc) :
    ∃ routeCalls, tc.calls = tb.calls ++ routeCalls ∧ ∀ call ∈ routeCalls, call.phase = 3 := by
  obtain ⟨seg, hc, _, hb⟩ := phased_bindAppToRoute co cfg app q c tb
  rw [h] at hc
  exact ⟨seg, hc, fun call hcall => le_antisymm (hb call hcall).2 (hb call hcall).1⟩

theorem restart_done {W : Type} (co : Collaborators W) (app : Application)
    (q : AppParams) (c : Context) (t t1 : Trace W) (h : restart co app q c t = .done () t1) :
    ∃ started, (app.state = "stopped" → started = app) ∧
      t1.calls = t.calls ++
        (if app.state ≠ "stopped" then [.applicationStop app] else []) ++
        (if c.noStart then []
         else
          (match q.healthCheckTimeout with
            | some timeout => [.setStartTimeoutInSeconds timeout]
            | none => []) ++
          [.applicationStart started]) := by
  refine ⟨if app.state ≠ "stopped" then (co.applicationStop app t.world).1.1 else app,
    fun hs => by simp [hs], ?_⟩
  have hc : (restart co app q c t).calls = t1.calls := by rw [h]; rfl
  rw [← hc]
  by_cases hstate : app.state = "stopped" <;> cases hstart : c.noStart <;>
    cases ht : q.healthCheckTimeout <;>
    simp [restart, hstate, hstart, ht, bind_apply, pure_apply, call_apply, callUnit, Say, emit,
      Outcome.calls, Outcome.trace]

theorem pushApp_done_pipeline {W : Type} (co : Collaborators W) (cfg : Config) (c : Context)
    (p : AppParams) (t t1 : Trace W) (h : pushApp co cfg c p t = .done () t1) :
    ∃ seg, t1.calls = t.calls ++ seg ∧ isPipeline cfg c p seg := by
  simp only [pushApp, bind_apply] at h
  cases hs : fetchStackGuid co p t with
  | aborted msg ta => rw [hs] at h; cases h
  | panicked ta => rw [hs] at h; cases h
  | done q ta =>
    rw [hs] at h
    simp only [] at h
    obtain ⟨hq, hta⟩ := fetchStackGuid_done co p q t ta hs
    have hqname : q.name = p.name := by
      have h2 := congrArg AppParams.name hq
      exact h2
    have hqpath : q.path = p.path := by
      have h2 := congrArg AppParams.path hq
      exact h2
    have hqserv : q.servicesToBind = p.servicesToBind := by
      have h2 := congrArg AppParams.servicesToBind hq
      exact h2
    have hqtime : q.healthCheckTimeout = p.healthCheckTimeout := by
      have h2 := congrArg AppParams.healthCheckTimeout hq
      exact h2
    cases ha : createOrUpdateApp co cfg q ta with
    | aborted msg tb => rw [ha] at h; cases h
    | panicked tb => rw [ha] at h; cases h
    | done app tb =>
      rw [ha] at h
      simp only [] at h
      obtain ⟨name, appCall, hname, hcall, htb⟩ := createOrUpdateApp_done co cfg q app ta tb ha
      cases hr : bindAppToRoute co cfg app q c tb with
      | aborted msg tc => rw [hr] at h; cases h
      | panicked tc => rw [hr] at h; cases h
      | done u tc =>
        rw [hr] at h
        simp only [Say, emit] at h
        obtain ⟨routeCalls, htc, hroute⟩ := bindAppToRoute_done co cfg app q c tb tc hr
        cases hp : q.path with
        | none => rw [hp] at h; cases h
        | some path =>
          rw [hp] at h
          simp only [deref, call_apply] at h
          obtain ⟨lines, hl⟩ := describeUploads_run co (co.uploadApp app.guid path tc.world).1.1
            { world := (co.uploadApp app.guid path tc.world).2
              calls := tc.calls ++ [.uploadApp app.guid path]
              ui := tc.ui ++ [.say ("Uploading " ++ app.name ++ "...")] }
          simp only [] at hl
          rw [hl] at h
          simp only [] at h
          have hpp : p.path = some path := by rw [← hqpath, hp]
          have hpn : p.name = some name := by rw [← hqname, hname]
          cases hu : (co.uploadApp app.guid path tc.world).1.2 with
          | some e => rw [hu] at h; cases h
          | none =>
            rw [hu] at h
            simp only [Ok, emit, bind_apply] at h
            cases hsv : q.servicesToBind with
            | none =>
              rw [hsv] at h
              simp only [pure_apply] at h
              obtain ⟨started, hstarted, ht1⟩ := restart_done co app q c _ t1 h
              have hps : p.servicesToBind = none := by rw [← hqserv, hsv]
              refine ⟨_, ?_, ⟨name, path, q, app, started, appCall, routeCalls, [], hpn, hpp, hq,
                hcall, hroute, by simp [hps], hstarted, rfl⟩⟩
              rw [ht1, htc, htb, hta, hps, ← hqtime]
              simp [serviceCalls]
            | some services =>
              rw [hsv] at h
              simp only [bind_apply] at h
              cases hb : bindAppToServices co cfg app services
                  { world := (co.uploadApp app.guid path tc.world).2
                    calls := tc.calls ++ [.uploadApp app.guid path]
                    ui := tc.ui ++ [.say ("Uploading " ++ app.name ++ "...")] ++ lines ++
                      [.ok] } with
              | aborted msg td => rw [hb] at h; cases h
              | panicked td => rw [hb] at h; cases h
              | done u2 td =>
                rw [hb] at h
                simp only [] at h
                obtain ⟨insts, hilen, htd⟩ := bindAppToServices_done_calls co cfg app services _ td hb
                obtain ⟨started, hstarted, ht1⟩ := restart_done co app q c td t1 h
                have hps : p.servicesToBind = some services := by rw [← hqserv, hsv]
                refine ⟨_, ?_, ⟨name, path, q, app, started, appCall, routeCalls, insts, hpn, hpp,
                  hq, hcall, hroute, by simp [hps, hilen], hstarted, rfl⟩⟩
                rw [ht1, htd]
                simp only []
                rw [htc, htb, hta, hps, ← hqtime]
                simp

theorem pushApp_done_ordered {W : Type} (co : Collaborators W) (cfg : Config) (c : Context)
    (p : AppParams) (t t1 : Trace W) (h : pushApp co cfg c p t = .done () t1) :
    ∃ seg, t1.calls = t.calls ++ seg ∧ isPipeline cfg c p seg ∧ phaseOrdered seg := by
  obtain ⟨seg, hseg, hpipe⟩ := pushApp_done_pipeline co cfg c p t t1 h
  obtain ⟨seg0, hc0, hord, _⟩ := phased_pushApp co cfg c p t
  rw [h] at hc0
  have hc1 : t1.calls = t.calls ++ seg0 := hc0
  have heq : seg = seg0 := List.append_cancel_left (hseg.symm.trans hc1)
  exact ⟨seg, hseg, hpipe, heq ▸ hord⟩

theorem pushApps_done {W : Type} (co : Collaborators W) (cfg : Config) (c : Context)
    (appSet : List AppParams) :
    ∀ (t t1 : Trace W), pushApps co cfg c appSet t = .done () t1 →
      ∃ segs : List (List Call), t1.calls = t.calls ++ segs.flatten ∧
        List.Forall₂ (fun p seg => isPipeline cfg c p seg ∧ phaseOrdered seg) appSet segs := by
  induction appSet with
  | nil =>
    intro t t1 h
    have h1 : (Outcome.done () t : Outcome W Unit) = .done () t1 := h
    cases h1
    exact ⟨[], by simp, List.Forall₂.nil⟩
  | cons p rest ih =>
    intro t t1 h
    simp only [pushApps, bind_apply] at h
    cases hp : pushApp co cfg c p t with
    | aborted msg ta => rw [hp] at h; cases h
    | panicked ta => rw [hp] at h; cases h
    | done u ta =>
      rw [hp] at h
      simp only [] at h
      obtain ⟨seg, hseg, hpipe, hord⟩ := pushApp_done_ordered co cfg c p t ta hp
      obtain ⟨segs, hsegs, hall⟩ := ih ta t1 h
      refine ⟨seg :: segs, ?_, List.Forall₂.cons ⟨hpipe, hord⟩ hall⟩
      rw [hsegs, hseg]
      simp

/-- C25: let `Run` have built the set of applications and let the run return (no
call failed). Then the calls it makes after the refresh of the token are one segment
for each entry of the set, in the order of the set: the calls for the first entry,
then those for the second, and so on, so that no call for a later entry precedes a
call for an earlier one. The segment of an entry is, in this order: the stack lookup
(when the entry names a stack), the lookup of the application by the name of the
entry with its creation or update, the calls of the route reconciliation, the upload
with the path of the entry, the lookup and bind of each of its services, and the
stop and start calls. -/
theorem Run_calls_application_by_application {W : Type} (co : Collaborators W) (cfg : Config)
    (c : Context) (t t0 t1 : Trace W) (appSet : List AppParams)
    (hset : findAndValidateAppsToPush co cfg c t = .done appSet t0)
    (hdone : Run co cfg c t = .done () t1) :
    ∃ segs : List (List Call),
      t1.calls = t0.calls ++ [.refreshAuthToken] ++ segs.flatten ∧
      List.Forall₂ (fun p seg => isPipeline cfg c p seg ∧ phaseOrdered seg) appSet segs := by
  have hrun : Run co cfg c t = pushApps co cfg c appSet (afterRefresh co t0) := by
    simp only [Run, bind_apply, hset]
    rfl
  rw [hrun] at hdone
  exact pushApps_done co cfg c appSet (afterRefresh co t0) t1 hdone

/-- C25 at a push without arguments against a manifest of the entries `web` (with a
stack and a service) and `worker`: the run returns, its calls are the segments of
`web` and of `worker` in this order, and the steps of its calls are as listed. -/
theorem Run_calls_application_by_application_witness :
    (∃ segs : List (List Call),
      (Run faithful exampleConfig Context.empty (startAt twoAppRemote)).trace.calls =
        [.readManifest "/cwd"] ++ [.refreshAuthToken] ++ segs.flatten ∧
      List.Forall₂
        (fun p seg => isPipeline exampleConfig Context.empty p seg ∧ phaseOrdered seg)
        [webApp, workerApp] segs) ∧
    (Run faithful exampleConfig Context.empty (startAt twoAppRemote)).calls.map Call.phase =
      [0, 0, 1, 2, 2, 3, 3, 3, 3, 4, 5, 5, 6, 2, 2, 3, 3, 3, 3, 4, 6] ∧
    (Run faithful exampleConfig Context.empty (startAt twoAppRemote)).calls.filterMap
        (fun call => match call with
          | .appRead name => some name
          | .uploadApp _ path => some path
          | _ => none) =
      ["web", "/web", "worker", "/worker"] :=
  ⟨Run_calls_application_by_application faithful exampleConfig Context.empty
    (startAt twoAppRemote)
    { world := twoAppRemote, calls := [.readManifest "/cwd"],
      ui := [.say "Using manifest file /cwd/manifest.yml\n"] }
    (Run faithful exampleConfig Context.empty (startAt twoAppRemote)).trace
    [webApp, workerApp] (by decide!) (by decide!), by decide!, by decide!⟩

/-! ## The lines of the table printer -/

theorem cellValue_rendered (pal : Palette) (t : PrintableTable) (col : Nat) (value : String)
    (hlen : t.maxSizes.length = t.header.length)
    (hle : ∀ m, t.maxSizes[col]? = some m → pal.visibleLen value ≤ m) :
    cellValue pal t col value = .ok (renderedCell pal t.header t.maxSizes col value) := by
  by_cases hcol : col + 1 < t.header.length
  · have hlt : col < t.maxSizes.length := by omega
    have hm : t.maxSizes[col]? = some (t.maxSizes[col]) := List.getElem?_eq_getElem hlt
    rw [cellValue_padded pal t col _ value hcol hm (hle _ hm)]
    simp only [renderedCell, hcol, if_true, hm, Option.getD_some]
  · rw [cellValue_last pal t col value hcol]
    simp only [renderedCell, hcol, if_false]

theorem printRowFrom_eq (pal : Palette) (t : PrintableTable)
    (hlen : t.maxSizes.length = t.header.length) (row : List String) :
    ∀ (k : Nat) (output : String),
      (∀ (j : Nat) (v : String) (m : Nat), row[j]? = some v → t.maxSizes[k + j]? = some m →
        pal.visibleLen v ≤ m) →
      (∀ v, pal.visibleLen (pal.TableContentHeaderColor v) = pal.visibleLen v) →
      printRowFrom pal t k row output =
        .ok (((row.enumFrom k).map (fun jv =>
          renderedCell pal t.header t.maxSizes jv.1
            (if jv.1 = 0 then pal.TableContentHeaderColor jv.2 else jv.2))).foldl
          (fun r s => r ++ s) output) := by
  induction row with
  | nil =>
    intro k output _ _
    rfl
  | cons v rest ih =>
    intro k output hle hcolor
    have hcell := cellValue_rendered pal t k
      (if k = 0 then pal.TableContentHeaderColor v else v) hlen (fun m hm => by
        have h1 := hle 0 v m (by simp) (by simpa using hm)
        split
        · rw [hcolor]; exact h1
        · exact h1)
    simp only [printRowFrom, hcell, List.enumFrom_cons, List.map_cons, List.foldl_cons]
    exact ih (k + 1) _ (fun j v1 m hv1 hm => hle (j + 1) v1 m (by simpa using hv1) (by
      have hk : k + (j + 1) = k + 1 + j := by omega
      rw [hk]
      exact hm)) hcolor

theorem printHeaderFrom_eq (pal : Palette) (t : PrintableTable)
    (hlen : t.maxSizes.length = t.header.length) (cells : List String) :
    ∀ (k : Nat) (output : String),
      (∀ (j : Nat) (v : String) (m : Nat), cells[j]? = some v → t.maxSizes[k + j]? = some m →
        pal.visibleLen v ≤ m) →
      (∀ v, pal.visibleLen (pal.HeaderColor v) = pal.visibleLen v) →
      printHeaderFrom pal t k cells output =
        .ok (((cells.enumFrom k).map (fun jv =>
          renderedCell pal t.header t.maxSizes jv.1 (pal.HeaderColor jv.2))).foldl
          (fun r s => r ++ s) output) := by
  induction cells with
  | nil =>
    intro k output _ _
    rfl
  | cons v rest ih =>
    intro k output hle hcolor
    have hcell := cellValue_rendered pal t k (pal.HeaderColor v) hlen (fun m hm => by
        have h1 := hle 0 v m (by simp) (by simpa using hm)
        rw [hcolor]
        exact h1)
    simp only [printHeaderFrom, hcell, List.enumFrom_cons, List.map_cons, List.foldl_cons]
    exact ih (k + 1) _ (fun j v1 m hv1 hm => hle (j + 1) v1 m (by simpa using hv1) (by
      have hk : k + (j + 1) = k + 1 + j := by omega
      rw [hk]
      exact hm)) hcolor

theorem printRow_eq (pal : Palette) (t : PrintableTable) (row : List String)
    (hcolor : ∀ v, pal.visibleLen (pal.TableContentHeaderColor v) = pal.visibleLen v)
    (hlen : t.maxSizes.length = t.header.length)
    (hle : ∀ (c : Nat) (v : String) (m : Nat), row[c]? = some v → t.maxSizes[c]? = some m →
      pal.visibleLen v ≤ m) :
    printRow pal t row = .ok (rowLine pal t.header t.maxSizes row) := by
  have h := printRowFrom_eq pal t hlen row 0 "" (fun j v m hv hm =>
    hle j v m hv (by simpa using hm)) hcolor
  simp only [printRow, h]
  rfl

theorem printHeader_eq (pal : Palette) (t : PrintableTable)
    (hcolor : ∀ v, pal.visibleLen (pal.HeaderColor v) = pal.visibleLen v)
    (hlen : t.maxSizes.length = t.header.length)
    (hle : ∀ (c : Nat) (v : String) (m : Nat), t.header[c]? = some v →
      t.maxSizes[c]? = some m → pal.visibleLen v ≤ m) :
    printHeader pal t = .ok (headerLine pal t.header t.maxSizes) := by
  have h := printHeaderFrom_eq pal t hlen t.header 0 "" (fun j v m hv hm =>
    hle j v m hv (by simpa using hm)) hcolor
  simp only [printHeader, h]
  rfl

theorem printRows_eq (pal : Palette) (t : PrintableTable) (rows : List (List String))
    (h : ∀ row ∈ rows, printRow pal t row = .ok (rowLine pal t.header t.maxSizes row)) :
    printRows pal t rows = .ok (rows.map (rowLine pal t.header t.maxSizes)) := by
  induction rows with
  | nil => rfl
  | cons row rest ih =>
    have h1 := h row (List.mem_cons_self _ _)
    have h2 := ih (fun r hr => h r (List.mem_cons_of_mem _ hr))
    simp only [printRows, h1, h2, List.map_cons]

theorem Print_inv (pal : Palette)
    (hheader : ∀ v, pal.visibleLen (pal.HeaderColor v) = pal.visibleLen v)
    (hcontent : ∀ v, pal.visibleLen (pal.TableContentHeaderColor v) = pal.visibleLen v)
    (header : List String) (seen : List (List String)) (t : PrintableTable)
    (rows : List (List String)) (hinv : TableInv pal header seen t)
    (hfit : ∀ row ∈ rows, row.length ≤ header.length) :
    ∃ t1,
      Print pal t rows =
        .ok (t1, (if t.headerPrinted = false then [headerLine pal header t1.maxSizes] else []) ++
          rows.map (rowLine pal header t1.maxSizes)) ∧
      TableInv pal header (seen ++ (rows ++ [header])) t1 ∧
      t1.headerPrinted = true := by
  have hth : t.header = header := hinv.1
  obtain ⟨⟨th, thp, tms⟩, hcalc, hinvm, hpm⟩ :=
    calculateMaxSizes_inv pal header (rows ++ [header]) seen t hinv (fun row hrow => by
      rcases List.mem_append.mp hrow with h | h
      · exact hfit row h
      · rw [List.mem_singleton] at h
        rw [h])
  obtain ⟨hh, hl, hc⟩ := hinvm
  simp only at hh hl hpm
  subst hh
  have hle : ∀ row ∈ rows ++ [th], ∀ (c : Nat) (v : String) (m : Nat), row[c]? = some v →
      tms[c]? = some m → pal.visibleLen v ≤ m :=
    fun row hrow c v m hv hm => (hc c m hm).1 row (List.mem_append_right _ hrow) v hv
  have hhdr := printHeader_eq pal ⟨th, false, tms⟩ hheader hl (hle th (by simp))
  have hlines := printRows_eq pal ⟨th, true, tms⟩ rows (fun row hrow =>
    printRow_eq pal ⟨th, true, tms⟩ row hcontent hl (hle row (List.mem_append_left _ hrow)))
  simp only at hhdr hlines
  refine ⟨⟨th, true, tms⟩, ?_, ⟨rfl, hl, hc⟩, rfl⟩
  simp only [Print, hth, hcalc]
  cases htp : t.headerPrinted with
  | false =>
    rw [htp] at hpm
    subst hpm
    simp only [if_true, hhdr, hlines, List.singleton_append]
  | true =>
    rw [htp] at hpm
    subst hpm
    simp only [Bool.true_eq_false, if_false, hlines, List.nil_append]

theorem printAll_inv (pal : Palette)
    (hheader : ∀ v, pal.visibleLen (pal.HeaderColor v) = pal.visibleLen v)
    (hcontent : ∀ v, pal.visibleLen (pal.TableContentHeaderColor v) = pal.visibleLen v)
    (header : List String) (batches : List (List (List String))) :
    ∀ (seen : List (List String)) (t : PrintableTable), TableInv pal header seen t →
      (∀ rows ∈ batches, ∀ row ∈ rows, row.length ≤ header.length) →
      ∃ t1 out, printAll pal t batches = .ok (t1, out) ∧
        TableInv pal header (seen ++ (batches.map (fun rows => rows ++ [header])).flatten) t1 ∧
        t1.headerPrinted = (t.headerPrinted || !batches.isEmpty) := by
  induction batches with
  | nil =>
    intro seen t hinv _
    exact ⟨t, [], rfl, by simpa using hinv, by simp⟩
  | cons rows rest ih =>
    intro seen t hinv hfit
    obtain ⟨t1, hp, hinv1, hp1⟩ :=
      Print_inv pal hheader hcontent header seen t rows hinv
        (hfit rows (List.mem_cons_self _ _))
    obtain ⟨t2, out, hall, hinv2, hp2⟩ := ih (seen ++ (rows ++ [header])) t1 hinv1
      (fun b hb => hfit b (List.mem_cons_of_mem _ hb))
    refine ⟨t2, ((if t.headerPrinted = false then [headerLine pal header t1.maxSizes] else []) ++
      rows.map (rowLine pal header t1.maxSizes)) ++ out, ?_, ?_, ?_⟩
    · simp only [printAll, hp, hall]
    · simpa using hinv2
    · rw [hp2, hp1]
      simp

theorem mem_seen_iff (header : List String) (before : List (List (List String)))
    (rows : List (List String)) (row : List String) :
    row ∈ ([] ++ (before.map (fun rows => rows ++ [header])).flatten) ++ (rows ++ [header]) ↔
      row ∈ header :: (before.flatten ++ rows) := by
  constructor
  · intro h
    rcases List.mem_append.mp h with h | h
    · rw [List.nil_append] at h
      obtain ⟨l, hl, hrow⟩ := List.mem_flatten.mp h
      obtain ⟨b, hb, rfl⟩ := List.mem_map.mp hl
      rcases List.mem_append.mp hrow with h1 | h1
      · exact List.mem_cons_of_mem _
          (List.mem_append_left _ (List.mem_flatten.mpr ⟨b, hb, h1⟩))
      · rw [List.mem_singleton] at h1
        rw [h1]
        exact List.mem_cons_self _ _
    · rcases List.mem_append.mp h with h1 | h1
      · exact List.mem_cons_of_mem _ (List.mem_append_right _ h1)
      · rw [List.mem_singleton] at h1
        rw [h1]
        exact List.mem_cons_self _ _
  · intro h
    rcases List.mem_cons.mp h with h | h
    · rw [h]
      exact List.mem_append_right _ (List.mem_append_right _ (List.mem_singleton_self _))
    · rcases List.mem_append.mp h with h1 | h1
      · obtain ⟨b, hb, hrow⟩ := List.mem_flatten.mp h1
        refine List.mem_append_left _ ?_
        rw [List.nil_append]
        exact List.mem_flatten.mpr
          ⟨b ++ [header], List.mem_map.mpr ⟨b, hb, rfl⟩, List.mem_append_left _ hrow⟩
      · exact List.mem_append_right _ (List.mem_append_left _ h1)

theorem renderedCell_width (pal : Palette)
    (hpadding : ∀ v n,
      pal.visibleLen (v ++ String.join (List.replicate n " ") ++ "   ") =
        pal.visibleLen v + n + 3)
    (header : List String) (sizes : List Nat) (c m : Nat) (value : String)
    (hcol : c + 1 < header.length) (hm : sizes[c]? = some m)
    (hle : pal.visibleLen value ≤ m) :
    pal.visibleLen (renderedCell pal header sizes c value) = m + 3 := by
  simp only [renderedCell, hcol, if_true, hm, Option.getD_some]
  rw [hpadding]
  omega

/-- C29: let the colouring of a cell not change its visible length, let padding and
the three spaces that end a cell add their number to it, and let no row have more
cells than the header. Then after any sequence `before` of `Print` calls on a new
table, a further call `Print rows` does not panic (no index of `maxSizes` is out of
range and no padding count is negative). What it writes is the header line if and
only if it is the first call, and then the line of each row, in order; a line is its
cells one after the other, each cell the value, its padding and three spaces. After
the call `maxSizes` has one size for each column of the header, and the size of
column `c` is the largest visible length among the header cell and the cells of that
column in all rows passed so far (it bounds them all and one of them has it). In a
column `c` that is not the last one, the cell of the header line and the cell of the
line of every row of this call that reaches the column have the visible width
`maxSizes[c] + 3`. -/
theorem Print_keeps_columns_aligned (pal : Palette)
    (hheader : ∀ v, pal.visibleLen (pal.HeaderColor v) = pal.visibleLen v)
    (hcontent : ∀ v, pal.visibleLen (pal.TableContentHeaderColor v) = pal.visibleLen v)
    (hpadding : ∀ v n,
      pal.visibleLen (v ++ String.join (List.replicate n " ") ++ "   ") =
        pal.visibleLen v + n + 3)
    (header : List String) (before : List (List (List String))) (rows : List (List String))
    (hbefore : ∀ b ∈ before, ∀ row ∈ b, row.length ≤ header.length)
    (hrows : ∀ row ∈ rows, row.length ≤ header.length) :
    ∃ t0 out0 t1,
      printAll pal (NewTable header) before = .ok (t0, out0) ∧
      Print pal t0 rows =
        .ok (t1, (if before = [] then [headerLine pal header t1.maxSizes] else []) ++
          rows.map (rowLine pal header t1.maxSizes)) ∧
      t1.maxSizes.length = header.length ∧
      ∀ c, c < header.length →
        ∃ m, t1.maxSizes[c]? = some m ∧
          (∀ row ∈ header :: (before.flatten ++ rows), ∀ v, row[c]? = some v →
            pal.visibleLen v ≤ m) ∧
          (∃ row ∈ header :: (before.flatten ++ rows), ∃ v, row[c]? = some v ∧
            pal.visibleLen v = m) ∧
          (c + 1 < header.length →
            (∃ s, (renderedHeader pal header t1.maxSizes)[c]? = some s ∧
              pal.visibleLen s = m + 3) ∧
            (∀ row ∈ rows, ∀ v, row[c]? = some v →
              ∃ s, (renderedRow pal header t1.maxSizes row)[c]? = some s ∧
                pal.visibleLen s = m + 3)) := by
  obtain ⟨t0, out0, hall, hinv0, hp0⟩ :=
    printAll_inv pal hheader hcontent header before [] (NewTable header)
      (TableInv_NewTable pal header) hbefore
  obtain ⟨t1, hprint, hinv1, _⟩ :=
    Print_inv pal hheader hcontent header _ t0 rows hinv0 hrows
  have hif : (if t0.headerPrinted = false then [headerLine pal header t1.maxSizes] else []) =
      (if before = [] then [headerLine pal header t1.maxSizes] else []) := by
    rw [hp0]
    cases before <;> simp [NewTable]
  rw [hif] at hprint
  obtain ⟨hh, hl, hc⟩ := hinv1
  refine ⟨t0, out0, t1, hall, hprint, hl, fun c hcl => ?_⟩
  have hlt : c < t1.maxSizes.length := by rw [hl]; exact hcl
  have hm : t1.maxSizes[c]? = some (t1.maxSizes[c]) := List.getElem?_eq_getElem hlt
  obtain ⟨hbound, hatt⟩ := hc c _ hm
  have hhc : header[c]? = some (header[c]) := List.getElem?_eq_getElem hcl
  have hbound1 : ∀ row ∈ header :: (before.flatten ++ rows), ∀ v, row[c]? = some v →
      pal.visibleLen v ≤ t1.maxSizes[c] :=
    fun row hrow v hv => hbound row ((mem_seen_iff header before rows row).mpr hrow) v hv
  refine ⟨t1.maxSizes[c], hm, hbound1, ?_, fun hcol => ⟨?_, fun row hrow v hv => ?_⟩⟩
  · rcases hatt with h0 | ⟨row, hrow, v, hv, hvm⟩
    · refine ⟨header, List.mem_cons_self _ _, header[c], hhc, ?_⟩
      have h1 := hbound1 header (List.mem_cons_self _ _) _ hhc
      omega
    · exact ⟨row, (mem_seen_iff header before rows row).mp hrow, v, hv, hvm⟩
  · refine ⟨renderedCell pal header t1.maxSizes c (pal.HeaderColor header[c]), ?_, ?_⟩
    · simp only [renderedHeader, List.getElem?_map, List.getElem?_enum, hhc, Option.map_some']
    · refine renderedCell_width pal hpadding header t1.maxSizes c _ _ hcol hm ?_
      rw [hheader]
      exact hbound1 header (List.mem_cons_self _ _) _ hhc
  · refine ⟨renderedCell pal header t1.maxSizes c
      (if c = 0 then pal.TableContentHeaderColor v else v), ?_, ?_⟩
    · simp only [renderedRow, List.getElem?_map, List.getElem?_enum, hv, Option.map_some']
    · refine renderedCell_width pal hpadding header t1.maxSizes c _ _ hcol hm ?_
      have h1 := hbound1 row (List.mem_cons_of_mem _ (List.mem_append_right _ hrow)) v hv
      split
      · rw [hcontent]; exact h1
      · exact h1
theorem utf8ByteSize_append (a b : String) :
    (a ++ b).utf8ByteSize = a.utf8ByteSize + b.utf8ByteSize := by
  cases a with
  | mk as =>
    cases b with
    | mk bs =>
      show String.utf8ByteSize ⟨as ++ bs⟩ = _
      simp only [String.utf8ByteSize_mk, String.utf8Len_append]

theorem utf8ByteSize_spaces (n : Nat) :
    ∀ acc : String,
      (List.foldl (fun r s => r ++ s) acc (List.replicate n " ")).utf8ByteSize =
        acc.utf8ByteSize + n := by
  induction n with
  | zero => intro acc; rfl
  | succ n ih =>
    intro acc
    rw [List.replicate_succ, List.foldl_cons, ih, utf8ByteSize_append]
    have h1 : (" " : String).utf8ByteSize = 1 := by decide
    omega

theorem plainPalette_padding (v : String) (n : Nat) :
    plainPalette.visibleLen (v ++ String.join (List.replicate n " ") ++ "   ") =
      plainPalette.visibleLen v + n + 3 := by
  show (v ++ String.join (List.replicate n " ") ++ "   ").utf8ByteSize = v.utf8ByteSize + n + 3
  rw [utf8ByteSize_append, utf8ByteSize_append]
  have h1 : (String.join (List.replicate n " ")).utf8ByteSize = n := by
    have h2 := utf8ByteSize_spaces n ""
    have h3 : ("" : String).utf8ByteSize = 0 := by decide
    rw [h3, Nat.zero_add] at h2
    exact h2
  have h4 : ("   " : String).utf8ByteSize = 3 := by decide
  omega

/-- C29 at a terminal without colours, for the header `name`, `state`, `urls`, a
first `Print` call of two rows (the second with one cell only) and a second `Print`
call of one row with a longer name. -/
theorem Print_keeps_columns_aligned_witness :
    ∃ t0 out0 t1,
      printAll plainPalette (NewTable exampleHeader) [firstRows] = .ok (t0, out0) ∧
      Print plainPalette t0 secondRows =
        .ok (t1,
          (if [firstRows] = [] then [headerLine plainPalette exampleHeader t1.maxSizes]
            else []) ++
          secondRows.map (rowLine plainPalette exampleHeader t1.maxSizes)) ∧
      t1.maxSizes.length = exampleHeader.length ∧
      ∀ c, c < exampleHeader.length →
        ∃ m, t1.maxSizes[c]? = some m ∧
          (∀ row ∈ exampleHeader :: ([firstRows].flatten ++ secondRows), ∀ v,
            row[c]? = some v → plainPalette.visibleLen v ≤ m) ∧
          (∃ row ∈ exampleHeader :: ([firstRows].flatten ++ secondRows), ∃ v,
            row[c]? = some v ∧ plainPalette.visibleLen v = m) ∧
          (c + 1 < exampleHeader.length →
            (∃ s, (renderedHeader plainPalette exampleHeader t1.maxSizes)[c]? = some s ∧
              plainPalette.visibleLen s = m + 3) ∧
            (∀ row ∈ secondRows, ∀ v, row[c]? = some v →
              ∃ s, (renderedRow plainPalette exampleHeader t1.maxSizes row)[c]? = some s ∧
                plainPalette.visibleLen s = m + 3)) :=
  Print_keeps_columns_aligned plainPalette (fun _ => rfl) (fun _ => rfl) plainPalette_padding
    exampleHeader [firstRows] secondRows (by decide) (by decide)

/-- The two `Print` calls of the concrete run, evaluated: the sizes after them and
the lines written. The header is padded to the sizes of the first call, the row of
the second call to the larger size its name gives the first column. -/
theorem printAll_example :
    (match printAll plainPalette (NewTable exampleHeader) [firstRows, secondRows] with
      | .ok (t, out) => some (t.maxSizes, out)
      | .error _ => none) =
      some ([17, 7, 15],
        [{ format := "name   state     urls   ", args := [] },
         { format := "%s", args := ["web    started   web.example.com   "] },
         { format := "%s", args := ["db     "] },
         { format := "%s", args := ["background-worker   stopped      "] }]) := by
  decide!

end Push
